import Mathlib

/-!
# Projective tilted SPACAL: geometry construction

A shallow embedding of `PHG4FullProjTiltedSpacalDetector.cc`
(`Construct_AzimuthalSeg`, `Construct_Tower`, `Construct_Fibers`,
`Construct_Fibers_SameLengthFiberPerTower`) together with theorems about it.

## Modelling conventions

* A C++ `double` is an element of a linearly ordered field `α` and the
  arithmetic is exact: rounding, overflow and infinities are outside the
  model, and a quotient with divisor zero has the value the field gives it.
  The one NaN the construction can run into on finite input, the square root
  of a negative radicand in `Construct_AzimuthalSeg`, is modelled where it is
  observed, at the assertion on `enclosure_depth`.
* The `<cmath>` functions, the CLHEP constants (`pi`, `halfpi`, `cm`, `rad`)
  and `G4Vector3D::angle` come from outside the repository: they are the
  fields of `MathEnv`.  `realEnv` is the instance over the real numbers.
* `assert` and a `G4Exception` with `FatalException` end the run:
  `Run.fatal`, which keeps the registries as they were at that point.
* Geant4 objects are records of their constructor arguments; a transform is
  the list of the elementary transforms whose product it is.  Visualisation
  attributes and console output are left out, except the one reported number
  a claim is about (the average fiber length cut).
-/

namespace Spacal

/-! ## Numeric environment -/

/-- Three-vector with the components of a `G4Vector3D`. -/
structure G4Vector3D (α : Type) where
  x : α
  y : α
  z : α

/-- The library functions and unit constants used by the construction. -/
structure MathEnv (α : Type) where
  pi : α
  halfpi : α
  cm : α
  rad : α
  sqrt : α → α
  tan : α → α
  sin : α → α
  cos : α → α
  atan2 : α → α → α
  acos : α → α
  angle : G4Vector3D α → G4Vector3D α → α

namespace G4Vector3D

variable {α : Type} [LinearOrderedField α]

/-- Componentwise sum, `operator+`. -/
def add (a b : G4Vector3D α) : G4Vector3D α := ⟨a.x + b.x, a.y + b.y, a.z + b.z⟩

/-- Componentwise difference, `operator-`. -/
def sub (a b : G4Vector3D α) : G4Vector3D α := ⟨a.x - b.x, a.y - b.y, a.z - b.z⟩

/-- Product with a scalar, `operator*` and `operator*=`. -/
def scale (a : G4Vector3D α) (k : α) : G4Vector3D α := ⟨a.x * k, a.y * k, a.z * k⟩

/-- Quotient by a scalar, `operator/`. -/
def sdiv (a : G4Vector3D α) (k : α) : G4Vector3D α := ⟨a.x / k, a.y / k, a.z / k⟩

/-- Squared magnitude, `mag2()`. -/
def mag2 (a : G4Vector3D α) : α := a.x * a.x + a.y * a.y + a.z * a.z

/-- Magnitude, `mag()`: the square root of `mag2()`. -/
def mag (E : MathEnv α) (a : G4Vector3D α) : α := E.sqrt (mag2 a)

/-- Vector product, `cross`. -/
def cross (a b : G4Vector3D α) : G4Vector3D α :=
  ⟨a.y * b.z - a.z * b.y, a.z * b.x - a.x * b.z, a.x * b.y - a.y * b.x⟩

end G4Vector3D

/-- Value of `std::min(a, b)`: `b` when `b < a`, else `a`. -/
def std_min {α : Type} [LinearOrderedField α] (a b : α) : α := if b < a then b else a

/-! ## Data model -/

/-- Values of the configuration enum that `Construct_Tower` tells apart. -/
inductive config_t where
  | kFullProjective_2DTaper_Tilted
  | kFullProjective_2DTaper_Tilted_SameLengthFiberPerTower
  | other (code : Int)
  deriving DecidableEq, Repr

/-- Tower descriptor `SpacalGeom_t::geom_tower`.  `compose_fiber_id` is its
member function, declared outside the translated sources. -/
structure geom_tower (α : Type) where
  id : Int
  pDz : α
  pTheta : α
  pPhi : α
  pAlp1 : α
  pAlp2 : α
  pDy1 : α
  pDx1 : α
  pDx2 : α
  pDy2 : α
  pDx3 : α
  pDx4 : α
  pRotationAngleX : α
  centralX : α
  centralY : α
  centralZ : α
  ModuleSkinThickness : α
  NFiberX : Int
  NFiberY : Int
  compose_fiber_id : Int → Int → Int

/-- The values read through the getters of `get_geom_v3()`.  The sector tower
map is listed in the iteration order of the `std::map`. -/
structure SpacalGeom (α : Type) where
  radius : α
  max_radius : α
  thickness : α
  length : α
  azimuthal_tilt : α
  azimuthal_n_sec : Int
  max_phi_bin_in_sec : Int
  sidewall_thickness : α
  sidewall_outer_torr : α
  assembly_spacing : α
  fiber_outer_r : α
  sidewall_mat : String
  absorber_mat : String
  construction_verbose : Int
  config : config_t
  sector_tower_map : List (Int × geom_tower α)
  azimuthal_seg_visible : Bool
  virualize_fiber : Bool

/-- Elementary transforms of `G4Transform3D`. -/
inductive G4Elementary (α : Type) where
  | TranslateX (d : α)
  | TranslateY (d : α)
  | TranslateZ (d : α)
  | Translate3D (x y z : α)
  | RotateX (a : α)
  | RotateY (a : α)
  | RotateZ (a : α)
  | Rotate3D (angle : α) (axis : G4Vector3D α)

/-- A transform, as the factors of the product in the order they are written. -/
abbrev G4Transform3D (α : Type) := List (G4Elementary α)

/-- Solids built by the construction. -/
inductive G4VSolid (α : Type) where
  | Trap (name : String) (pDz pTheta pPhi pDy1 pDx1 pDx2 pAlp1 pDy2 pDx3 pDx4 pAlp2 : α)
  | Box (name : String) (pX pY pZ : α)
  | Displaced (name : String) (solid : G4VSolid α) (transform : G4Transform3D α)
  | Fiber (length : α) (id : String)

/-- Logical volume `G4LogicalVolume(solid, material, name)`. -/
structure G4LogicalVolume (α : Type) where
  solid : G4VSolid α
  material : String
  name : String

/-- Placement `G4PVPlacement(transform, logic, name, mother, false, copyNo, check)`;
the mother volume is named. -/
structure G4PVPlacement (α : Type) where
  transform : G4Transform3D α
  logic : G4LogicalVolume α
  name : String
  mother : String
  copyNo : Int
  checkOverlaps : Bool

/-- The registries `calo_vol`, `block_vol`, `fiber_vol` (placed volume to id,
in the order of insertion) and the volumes excluded from the GDML export. -/
structure Registries (α : Type) where
  calo_vol : List (G4PVPlacement α × Int)
  block_vol : List (G4PVPlacement α × Int)
  fiber_vol : List (G4PVPlacement α × Int)
  gdml_excluded : List (G4PVPlacement α)

/-- The detector object: its name, geometry, flags, whether `gdml_config` is
set, the material table behind `G4Material::GetMaterial` (true when the name
is known) and the logical volume `Construct_Fiber` returns. -/
structure Detector (α : Type) where
  name : String
  geom : SpacalGeom α
  verbosity : Int
  overlapcheck : Bool
  gdml_config : Bool
  hasMaterial : String → Bool
  Construct_Fiber : α → String → G4LogicalVolume α

/-- Outcome of a run over state `σ`: a normal return with a value, or a
fatal stop (failed `assert`, fatal `G4Exception`). -/
inductive Run (σ ρ : Type) where
  | done (st : σ) (value : ρ)
  | fatal (st : σ)

namespace Run

variable {σ ρ : Type}

/-- State at the end of the run. -/
def state : Run σ ρ → σ
  | done st _ => st
  | fatal st => st

/-- Value returned, when the run returned. -/
def value? : Run σ ρ → Option ρ
  | done _ v => some v
  | fatal _ => none

/-- Whether the run returned. -/
def completes : Run σ ρ → Bool
  | done _ _ => true
  | fatal _ => false

end Run

/-- Loop with a body that may stop the run: `for (i : is) body(i)`. -/
def Run.loop {ι σ : Type} (body : ι → σ → Run σ Unit) : List ι → σ → Run σ Unit
  | [], st => Run.done st ()
  | i :: rest, st =>
    match body i st with
    | Run.done st1 _ => Run.loop body rest st1
    | Run.fatal st1 => Run.fatal st1

/-- Assignment `m[k] = v` on a `std::map<int, V>`, kept as the list of its
entries in ascending key order: an existing entry for `k` is overwritten. -/
def map_insert {β : Type} (k : Int) (v : β) : List (Int × β) → List (Int × β)
  | [] => [(k, v)]
  | (k1, v1) :: rest =>
    if k < k1 then (k, v) :: (k1, v1) :: rest
    else if k = k1 then (k, v) :: rest
    else (k1, v1) :: map_insert k v rest

section Construction

variable {α : Type} [LinearOrderedField α]

/-! ## Sector dimensions (`Construct_AzimuthalSeg`, lines 115-152) -/

/-- The loop of lines 147-151: `block_width_ratio` after the wedges in `ss`
have been added to `acc`. -/
def block_width_ratio_loop (E : MathEnv α) (block_azimuth_angle edge1_tilt_angle : α)
    (ss : List Nat) (acc : α) : α :=
  ss.foldl
    (fun (r : α) (s : Nat) => r + 1 / E.cos (block_azimuth_angle * (1 / 2 + (s : α)) + edge1_tilt_angle))
    acc

/-- The local constants of `Construct_AzimuthalSeg`, lines 115-152. -/
structure SectorDims (α : Type) where
  half_chord_backend : α
  radicand : α
  reduced_outer_radius : α
  enclosure_depth : α
  enclosure_center : α
  enclosure_half_height_half_width : α
  width_adj1 : α
  width_adj2 : α
  center_adj : α
  center_tilt_angle : α
  inner_half_width : α
  outter_half_width : α
  edge1_tilt_angle : α
  edge2_tilt_angle : α
  edge1_half_depth : α
  edge2_half_depth : α
  half_projection_ratio : α
  projection_center_y : α
  projection_center_x : α
  phi_bin_in_sec : Int
  block_azimuth_angle : α
  block_edge1_half_width : α
  block_edge2_half_width : α
  block_width_ratio : α
  block_half_height_width : α

/-- Lines 115-152 of `Construct_AzimuthalSeg`.  `radicand` is the argument
of the square root on line 118. -/
def sector_dims (E : MathEnv α) (g : SpacalGeom α) : SectorDims α :=
  let half_chord_backend :=
    g.max_radius * E.cm * E.tan (E.pi / (g.azimuthal_n_sec : α))
      + |g.thickness * E.cm * (1 / 2) * E.tan g.azimuthal_tilt|
  let radicand := (g.max_radius * E.cm) ^ 2 - half_chord_backend * half_chord_backend
  let reduced_outer_radius := E.sqrt radicand
  let enclosure_depth := reduced_outer_radius - g.radius * E.cm
  let enclosure_center := (1 / 2) * (reduced_outer_radius + g.radius * E.cm)
  let enclosure_half_height_half_width := enclosure_center * E.tan (E.pi / (g.azimuthal_n_sec : α))
  let width_adj1 := E.tan (g.azimuthal_tilt - E.pi / (g.azimuthal_n_sec : α)) * enclosure_depth * (1 / 2)
  let width_adj2 := E.tan (g.azimuthal_tilt + E.pi / (g.azimuthal_n_sec : α)) * enclosure_depth * (1 / 2)
  let center_adj := (width_adj1 + width_adj2) * (1 / 2)
  let center_tilt_angle := E.atan2 center_adj (enclosure_depth * (1 / 2))
  let inner_half_width := enclosure_half_height_half_width + (1 / 2) * (width_adj1 - width_adj2)
  let outter_half_width := enclosure_half_height_half_width + (1 / 2) * (-width_adj1 + width_adj2)
  let edge1_tilt_angle := E.atan2 width_adj1 (enclosure_depth * (1 / 2))
  let edge2_tilt_angle := E.atan2 width_adj2 (enclosure_depth * (1 / 2))
  let edge1_half_depth := E.sqrt (width_adj1 * width_adj1 + enclosure_depth * enclosure_depth * (1 / 4))
  let edge2_half_depth := E.sqrt (width_adj2 * width_adj2 + enclosure_depth * enclosure_depth * (1 / 4))
  let half_projection_ratio := (1 / 2) * (-width_adj1 + width_adj2) / enclosure_half_height_half_width
  let projection_center_y := enclosure_center - ((enclosure_depth * (1 / 2)) / half_projection_ratio)
  let projection_center_x := center_adj / half_projection_ratio
  let phi_bin_in_sec := g.max_phi_bin_in_sec
  let block_azimuth_angle := (edge2_tilt_angle - edge1_tilt_angle) / (phi_bin_in_sec : α)
  let block_edge1_half_width := enclosure_half_height_half_width
    - (g.sidewall_thickness * E.cm + 2 * g.assembly_spacing * E.cm) / E.cos edge1_tilt_angle
  let block_edge2_half_width := enclosure_half_height_half_width
    - (g.sidewall_thickness * E.cm + 2 * g.assembly_spacing * E.cm) / E.cos edge2_tilt_angle
  let block_width_ratio :=
    block_width_ratio_loop E block_azimuth_angle edge1_tilt_angle (List.range phi_bin_in_sec.toNat) 0
  let block_half_height_width := (block_edge1_half_width + block_edge2_half_width) / block_width_ratio
  { half_chord_backend := half_chord_backend
    radicand := radicand
    reduced_outer_radius := reduced_outer_radius
    enclosure_depth := enclosure_depth
    enclosure_center := enclosure_center
    enclosure_half_height_half_width := enclosure_half_height_half_width
    width_adj1 := width_adj1
    width_adj2 := width_adj2
    center_adj := center_adj
    center_tilt_angle := center_tilt_angle
    inner_half_width := inner_half_width
    outter_half_width := outter_half_width
    edge1_tilt_angle := edge1_tilt_angle
    edge2_tilt_angle := edge2_tilt_angle
    edge1_half_depth := edge1_half_depth
    edge2_half_depth := edge2_half_depth
    half_projection_ratio := half_projection_ratio
    projection_center_y := projection_center_y
    projection_center_x := projection_center_x
    phi_bin_in_sec := phi_bin_in_sec
    block_azimuth_angle := block_azimuth_angle
    block_edge1_half_width := block_edge1_half_width
    block_edge2_half_width := block_edge2_half_width
    block_width_ratio := block_width_ratio
    block_half_height_width := block_half_height_width }

/-- The assertion of line 168, `assert(enclosure_depth > 10 * cm)`, on the
value a `double` has there: with a negative radicand `reduced_outer_radius`
and so `enclosure_depth` are NaN and the comparison is false. -/
def enclosure_depth_assertion (E : MathEnv α) (d : SectorDims α) : Bool :=
  decide (0 ≤ d.radicand) && decide (10 * E.cm < d.enclosure_depth)

/-! ## Fiber chords (lines 367-405 and 498-535, the same text in both layouts) -/

/-- The shift `v_zshift` of lines 367-369 and 498-500. -/
def v_zshift (E : MathEnv α) (g : geom_tower α) : G4Vector3D α :=
  (G4Vector3D.mk (E.tan g.pTheta * E.cos g.pPhi) (E.tan g.pTheta * E.sin g.pPhi) 1).scale g.pDz

/-- The chord end points `(v1, v2)` of the grid cell `(ix, iy)`, lines 374-397
and 504-527. -/
def chord_ends (E : MathEnv α) (fiber_outer_r : α) (g : geom_tower α) (ix iy : Nat) :
    G4Vector3D α × G4Vector3D α :=
  let weighted_ix : α := (ix : α) / ((g.NFiberX : α) - 1)
  let weighted_pDx1 := (g.pDx1 - g.ModuleSkinThickness - fiber_outer_r) * (weighted_ix * 2 - 1)
  let weighted_pDx2 := (g.pDx2 - g.ModuleSkinThickness - fiber_outer_r) * (weighted_ix * 2 - 1)
  let weighted_pDx3 := (g.pDx3 - g.ModuleSkinThickness - fiber_outer_r) * (weighted_ix * 2 - 1)
  let weighted_pDx4 := (g.pDx4 - g.ModuleSkinThickness - fiber_outer_r) * (weighted_ix * 2 - 1)
  let weighted_iy : α := (iy : α) / ((g.NFiberY : α) - 1)
  let weighted_pDy1 := (g.pDy1 - g.ModuleSkinThickness - fiber_outer_r) * (weighted_iy * 2 - 1)
  let weighted_pDy2 := (g.pDy2 - g.ModuleSkinThickness - fiber_outer_r) * (weighted_iy * 2 - 1)
  let weighted_pDx12 := weighted_pDx1 * (1 - weighted_iy) + weighted_pDx2 * weighted_iy
    + weighted_pDy1 * E.tan g.pAlp1
  let weighted_pDx34 := weighted_pDx3 * (1 - weighted_iy) + weighted_pDx4 * weighted_iy
    + weighted_pDy1 * E.tan g.pAlp2
  let v1 := (G4Vector3D.mk weighted_pDx12 weighted_pDy1 0).sub (v_zshift E g)
  let v2 := (G4Vector3D.mk weighted_pDx34 weighted_pDy2 0).add (v_zshift E g)
  (v1, v2)

/-- The pair `(vector_fiber, center_fiber)` of the grid cell `(ix, iy)` in
Geant4 units, lines 399-405 and 529-535. -/
def fiber_chord (E : MathEnv α) (fiber_outer_r : α) (g : geom_tower α) (ix iy : Nat) :
    G4Vector3D α × G4Vector3D α :=
  let v1 := (chord_ends E fiber_outer_r g ix iy).1
  let v2 := (chord_ends E fiber_outer_r g ix iy).2
  let vector_fiber := v2.sub v1
  let vector_fiber := vector_fiber.scale ((vector_fiber.mag E - fiber_outer_r) / vector_fiber.mag E)
  let center_fiber := (v2.add v1).sdiv 2
  (vector_fiber.scale E.cm, center_fiber.scale E.cm)

/-- The rotation axis of lines 460-461 and 560-561. -/
def rotation_axis (rotation_angle : α) (vector_fiber : G4Vector3D α) : G4Vector3D α :=
  if rotation_angle = 0 then G4Vector3D.mk 1 0 0 else (G4Vector3D.mk 0 0 1).cross vector_fiber

/-- The transform `fiber_place` of lines 463-464 and 563-566. -/
def fiber_place (E : MathEnv α) (center_fiber vector_fiber : G4Vector3D α) : G4Transform3D α :=
  let rotation_angle := E.angle (G4Vector3D.mk 0 0 1) vector_fiber
  [G4Elementary.Translate3D center_fiber.x center_fiber.y center_fiber.z,
   G4Elementary.Rotate3D rotation_angle (rotation_axis rotation_angle vector_fiber)]

/-! ## `Construct_Fibers_SameLengthFiberPerTower` -/

/-- The map `fiber_par`: fiber id to `(vector_fiber, center_fiber)`. -/
abbrev fiber_par_map (α : Type) := List (Int × (G4Vector3D α × G4Vector3D α))

/-- What the first pair of loops (lines 363-417) carries. -/
structure ScanState (α : Type) where
  fiber_par : fiber_par_map α
  min_fiber_length : α

/-- Body of the inner loop, lines 385-413. -/
def scan_cell (E : MathEnv α) (D : Detector α) (g : geom_tower α) (ix iy : Nat)
    (st : ScanState α) : ScanState α :=
  if (ix + iy) % 2 = 1 then st
  else
    let vector_fiber := (fiber_chord E D.geom.fiber_outer_r g ix iy).1
    let center_fiber := (fiber_chord E D.geom.fiber_outer_r g ix iy).2
    let fiber_ID := g.compose_fiber_id (ix : Int) (iy : Int)
    let fiber_length := vector_fiber.mag E
    { fiber_par := map_insert fiber_ID (vector_fiber, center_fiber) st.fiber_par
      min_fiber_length := std_min fiber_length st.min_fiber_length }

/-- The inner loop over `iy` for one `ix`, lines 382-416. -/
def scan_row (E : MathEnv α) (D : Detector α) (g : geom_tower α) (ix : Nat)
    (st : ScanState α) : ScanState α :=
  (List.range g.NFiberY.toNat).foldl (fun acc iy => scan_cell E D g ix iy acc) st

/-- Lines 363-417: `fiber_par` and `min_fiber_length` after both loops. -/
def scan_fibers (E : MathEnv α) (D : Detector α) (g : geom_tower α) : ScanState α :=
  (List.range g.NFiberX.toNat).foldl (fun acc ix => scan_row E D g ix acc)
    { fiber_par := [], min_fiber_length := g.pDz * E.cm * 4 }

/-- The re-centred `center_fiber` of line 441. -/
def recentred (E : MathEnv α) (fiber_length : α) (vector_fiber center_fiber : G4Vector3D α) :
    G4Vector3D α :=
  center_fiber.add (vector_fiber.scale ((fiber_length / vector_fiber.mag E - 1) * (1 / 2)))

/-- The rescaled `vector_fiber` of line 442. -/
def rescaled (E : MathEnv α) (fiber_length : α) (vector_fiber : G4Vector3D α) : G4Vector3D α :=
  vector_fiber.scale (fiber_length / vector_fiber.mag E)

/-- The placement `fiber_physi` made for one entry of `fiber_par`, lines 430-473. -/
def same_length_physi (E : MathEnv α) (D : Detector α) (g : geom_tower α) (LV_tower : String)
    (fiber_length : α) (val : Int × (G4Vector3D α × G4Vector3D α)) : G4PVPlacement α :=
  let ss := "_Tower" ++ toString g.id
  let fiber_logic := D.Construct_Fiber fiber_length ss
  let fiber_ID := val.1
  let center_fiber := recentred E fiber_length val.2.1 val.2.2
  let vector_fiber := rescaled E fiber_length val.2.1
  { transform := fiber_place E center_fiber vector_fiber
    logic := fiber_logic
    name := D.name ++ "_Tower" ++ toString g.id ++ "_fiber" ++ ss
    mother := LV_tower
    copyNo := fiber_ID
    checkOverlaps := D.overlapcheck && decide (3 ≤ D.geom.construction_verbose) }

/-- What the placement loop (lines 419-479) carries. -/
structure PlaceState (α : Type) where
  regs : Registries α
  fiber_count : Int
  fiber_cut : List α

/-- Body of the placement loop, lines 430-478. -/
def same_length_body (E : MathEnv α) (D : Detector α) (g : geom_tower α) (LV_tower : String)
    (fiber_length : α) (val : Int × (G4Vector3D α × G4Vector3D α)) (st : PlaceState α) :
    Run (PlaceState α) Unit :=
  let optimal_fiber_length := val.2.1.mag E
  if ¬ (0 ≤ optimal_fiber_length - fiber_length) then Run.fatal st
  else
    let fiber_physi := same_length_physi E D g LV_tower fiber_length val
    let st1 : PlaceState α :=
      { regs := { st.regs with fiber_vol := st.regs.fiber_vol ++ [(fiber_physi, val.1)] }
        fiber_count := st.fiber_count
        fiber_cut := st.fiber_cut ++ [optimal_fiber_length - fiber_length] }
    if ¬ D.gdml_config then Run.fatal st1
    else
      Run.done
        { regs := { st1.regs with gdml_excluded := st1.regs.gdml_excluded ++ [fiber_physi] }
          fiber_count := st1.fiber_count + 1
          fiber_cut := st1.fiber_cut } ()

/-- What `Construct_Fibers_SameLengthFiberPerTower` hands back: the returned
`fiber_count` and the average fiber length cut it reports (lines 481-486,
at construction verbosity 2 and above). -/
structure SameLengthResult (α : Type) where
  fiber_count : Int
  average_cut : Option α

/-- The quotient printed on line 486. -/
def average_fiber_cut (fiber_cut : List α) : α :=
  fiber_cut.foldl (fun acc c => acc + c) 0 / (fiber_cut.length : α)

/-- `Construct_Fibers_SameLengthFiberPerTower(g_tower, LV_tower)`. -/
def Construct_Fibers_SameLengthFiberPerTower (E : MathEnv α) (D : Detector α)
    (g : geom_tower α) (LV_tower : String) (regs : Registries α) :
    Run (Registries α) (SameLengthResult α) :=
  let scan := scan_fibers E D g
  let fiber_length := scan.min_fiber_length
  match Run.loop (same_length_body E D g LV_tower fiber_length) scan.fiber_par
      { regs := regs, fiber_count := 0, fiber_cut := [] } with
  | Run.fatal st => Run.fatal st.regs
  | Run.done st _ =>
    Run.done st.regs
      { fiber_count := st.fiber_count
        average_cut :=
          if 2 ≤ D.geom.construction_verbose then some (average_fiber_cut st.fiber_cut) else none }

/-! ## `Construct_Fibers` -/

/-- The placement `fiber_physi` made for the grid cell `(ix, iy)`, lines 516-575. -/
def exact_length_physi (E : MathEnv α) (D : Detector α) (g : geom_tower α) (LV_tower : String)
    (ix iy : Nat) : G4PVPlacement α :=
  let fiber_ID := g.compose_fiber_id (ix : Int) (iy : Int)
  let vector_fiber := (fiber_chord E D.geom.fiber_outer_r g ix iy).1
  let center_fiber := (fiber_chord E D.geom.fiber_outer_r g ix iy).2
  let fiber_length := vector_fiber.mag E
  let ss := "_Tower" ++ toString g.id ++ "_x" ++ toString ix ++ "_y" ++ toString iy
  let fiber_logic := D.Construct_Fiber fiber_length ss
  { transform := fiber_place E center_fiber vector_fiber
    logic := fiber_logic
    name := D.name ++ "_Tower" ++ toString g.id ++ "_fiber" ++ ss
    mother := LV_tower
    copyNo := fiber_ID
    checkOverlaps := D.overlapcheck && decide (3 ≤ D.geom.construction_verbose) }

/-- What the loops of `Construct_Fibers` carry. -/
structure CountState (α : Type) where
  regs : Registries α
  fiber_cnt : Int

/-- Body of the inner loop of `Construct_Fibers`, lines 514-580. -/
def exact_length_body (E : MathEnv α) (D : Detector α) (g : geom_tower α) (LV_tower : String)
    (ix iy : Nat) (st : CountState α) : Run (CountState α) Unit :=
  if (ix + iy) % 2 = 1 then Run.done st ()
  else
    let fiber_physi := exact_length_physi E D g LV_tower ix iy
    let g4_fiber_ID := g.compose_fiber_id (ix : Int) (iy : Int)
    let st1 : CountState α :=
      { regs := { st.regs with fiber_vol := st.regs.fiber_vol ++ [(fiber_physi, g4_fiber_ID)] }
        fiber_cnt := st.fiber_cnt }
    if ¬ D.gdml_config then Run.fatal st1
    else
      Run.done
        { regs := { st1.regs with gdml_excluded := st1.regs.gdml_excluded ++ [fiber_physi] }
          fiber_cnt := st1.fiber_cnt + 1 } ()

/-- `Construct_Fibers(g_tower, LV_tower)`: the returned value is `fiber_cnt`. -/
def Construct_Fibers (E : MathEnv α) (D : Detector α) (g : geom_tower α) (LV_tower : String)
    (regs : Registries α) : Run (Registries α) Int :=
  match Run.loop
      (fun ix st => Run.loop (exact_length_body E D g LV_tower ix) (List.range g.NFiberY.toNat) st)
      (List.range g.NFiberX.toNat) { regs := regs, fiber_cnt := 0 } with
  | Run.fatal st => Run.fatal st.regs
  | Run.done st _ => Run.done st.regs st.fiber_cnt

/-! ## `Construct_Tower` -/

/-- The logical volume `block_logic` of a tower, lines 599-621. -/
def block_logic (E : MathEnv α) (D : Detector α) (g : geom_tower α) : G4LogicalVolume α :=
  let sTowerID := "_" ++ toString g.id
  { solid := G4VSolid.Trap (D.name ++ sTowerID)
      (g.pDz * E.cm) (g.pTheta * E.rad) (g.pPhi * E.rad)
      (g.pDy1 * E.cm) (g.pDx1 * E.cm) (g.pDx2 * E.cm) (g.pAlp1 * E.rad)
      (g.pDy2 * E.cm) (g.pDx3 * E.cm) (g.pDx4 * E.cm) (g.pAlp2 * E.rad)
    material := D.geom.absorber_mat
    name := D.name ++ "_Tower" ++ sTowerID }

/-- `Construct_Tower(g_tower)`: returns `block_logic`. -/
def Construct_Tower (E : MathEnv α) (D : Detector α) (g : geom_tower α) (regs : Registries α) :
    Run (Registries α) (G4LogicalVolume α) :=
  if ¬ D.hasMaterial D.geom.absorber_mat then Run.fatal regs
  else
    let LV := block_logic E D g
    match D.geom.config with
    | config_t.kFullProjective_2DTaper_Tilted =>
      match Construct_Fibers E D g LV.name regs with
      | Run.fatal st => Run.fatal st
      | Run.done st _ => Run.done st LV
    | config_t.kFullProjective_2DTaper_Tilted_SameLengthFiberPerTower =>
      match Construct_Fibers_SameLengthFiberPerTower E D g LV.name regs with
      | Run.fatal st => Run.fatal st
      | Run.done st _ => Run.done st LV
    | config_t.other _ => Run.fatal regs

/-! ## `Construct_AzimuthalSeg` -/

/-- The transform `sec_solid_transform` of lines 179-180. -/
def sec_solid_transform (E : MathEnv α) (d : SectorDims α) : G4Transform3D α :=
  [G4Elementary.TranslateY d.enclosure_center, G4Elementary.RotateY E.halfpi,
   G4Elementary.RotateX (-E.halfpi)]

/-- The sector volume `sec_logic`, lines 170-188. -/
def sec_logic (E : MathEnv α) (D : Detector α) (d : SectorDims α) : G4LogicalVolume α :=
  { solid := G4VSolid.Displaced (D.name ++ "_sec")
      (G4VSolid.Trap (D.name ++ "_sec_trap")
        (d.enclosure_depth * (1 / 2)) d.center_tilt_angle E.halfpi
        d.inner_half_width (D.geom.length * E.cm / 2) (D.geom.length * E.cm / 2) 0
        d.outter_half_width (D.geom.length * E.cm / 2) (D.geom.length * E.cm / 2) 0)
      (sec_solid_transform E d)
    material := "G4_AIR"
    name := D.name ++ "_sec" }

/-- The end wall volume `wall_logic`, lines 222-236. -/
def end_wall_logic (E : MathEnv α) (D : Detector α) (d : SectorDims α) : G4LogicalVolume α :=
  let side_wall_half_thickness := D.geom.sidewall_thickness * E.cm / 2
  { solid := G4VSolid.Displaced (D.name ++ "_EndWall")
      (G4VSolid.Trap (D.name ++ "_EndWall_trap")
        (d.enclosure_depth * (1 / 2)) d.center_tilt_angle E.halfpi
        d.inner_half_width side_wall_half_thickness side_wall_half_thickness 0
        d.outter_half_width side_wall_half_thickness side_wall_half_thickness 0)
      (sec_solid_transform E d)
    material := D.geom.sidewall_mat
    name := D.name ++ "_EndWall" }

/-- The map `z_locations` of lines 240-244, in ascending key order. -/
def z_locations (E : MathEnv α) (D : Detector α) : List (Int × α) :=
  let s := D.geom.sidewall_thickness * E.cm / 2 + D.geom.assembly_spacing * E.cm
  [(1000, s), (1001, D.geom.length * E.cm / 2 - s), (1100, -s),
   (1101, -(D.geom.length * E.cm / 2 - s))]

/-- The end wall placed for one entry of `z_locations`, lines 253-257. -/
def end_wall_physi (E : MathEnv α) (D : Detector α) (d : SectorDims α) (val : Int × α) :
    G4PVPlacement α :=
  { transform := [G4Elementary.TranslateZ val.2]
    logic := end_wall_logic E D d
    name := D.name ++ "_EndWall_" ++ toString val.1
    mother := (sec_logic E D d).name
    copyNo := val.1
    checkOverlaps := D.overlapcheck }

/-- The map `signs` of lines 273-277, in ascending key order: the wall tag
with `(sign_z, sign_azimuth)`. -/
def signs : List (Int × (Int × Int)) :=
  [(2000, (1, 1)), (2001, (1, -1)), (2100, (-1, 1)), (2101, (-1, -1))]

/-- The side wall placed for one entry of `signs`, lines 281-319. -/
def side_wall_physi (E : MathEnv α) (D : Detector α) (d : SectorDims α)
    (val : Int × (Int × Int)) : G4PVPlacement α :=
  let sign_z := val.2.1
  let sign_azimuth := val.2.2
  let azimuth_roate := if 0 < sign_azimuth then d.edge1_tilt_angle else d.edge2_tilt_angle
  let edge_half_depth := -D.geom.sidewall_thickness * E.cm - D.geom.sidewall_outer_torr * E.cm
    + (if 0 < sign_azimuth then d.edge1_half_depth else d.edge2_half_depth)
  { transform :=
      [G4Elementary.TranslateZ ((sign_z : α) * (D.geom.length * E.cm / 4)),
       G4Elementary.TranslateY d.enclosure_center,
       G4Elementary.TranslateX ((sign_azimuth : α) * d.enclosure_half_height_half_width),
       G4Elementary.RotateZ azimuth_roate,
       G4Elementary.TranslateX (-(sign_azimuth : α)
         * (D.geom.sidewall_thickness * E.cm / 2 + D.geom.sidewall_outer_torr * E.cm))]
    logic :=
      { solid := G4VSolid.Box (D.name ++ "_SideWall_" ++ toString val.1)
          (D.geom.sidewall_thickness * E.cm / 2) edge_half_depth
          ((D.geom.length / 2
            - 2 * (D.geom.sidewall_thickness + 2 * D.geom.assembly_spacing)) * E.cm * (1 / 2))
        material := D.geom.sidewall_mat
        name := D.name ++ "_SideWall_" ++ toString val.1 }
    name := D.name ++ "_SideWall_" ++ toString val.1
    mother := (sec_logic E D d).name
    copyNo := val.1
    checkOverlaps := D.overlapcheck }

/-- The walls registered in `calo_vol`, lines 208-323: the end walls, then
the side walls, when `sidewall_thickness > 0`. -/
def wall_entries (E : MathEnv α) (D : Detector α) (d : SectorDims α) :
    List (G4PVPlacement α × Int) :=
  if 0 < D.geom.sidewall_thickness then
    (z_locations E D).map (fun val => (end_wall_physi E D d val, val.1))
      ++ signs.map (fun val => (side_wall_physi E D d val, val.1))
  else []

/-- The placement `block_phys` of a tower whose volume is `LV_tower`, lines 332-341. -/
def block_phys (E : MathEnv α) (D : Detector α) (d : SectorDims α) (g_tower : geom_tower α)
    (LV_tower : G4LogicalVolume α) : G4PVPlacement α :=
  { transform :=
      [G4Elementary.TranslateX (g_tower.centralX * E.cm),
       G4Elementary.TranslateY (g_tower.centralY * E.cm),
       G4Elementary.TranslateZ (g_tower.centralZ * E.cm),
       G4Elementary.RotateX (g_tower.pRotationAngleX * E.rad)]
    logic := LV_tower
    name := D.name ++ "_Tower"
    mother := (sec_logic E D d).name
    copyNo := g_tower.id
    checkOverlaps := D.overlapcheck && decide (2 ≤ D.geom.construction_verbose) }

/-- Body of the tower loop, lines 329-342. -/
def tower_body (E : MathEnv α) (D : Detector α) (d : SectorDims α)
    (val : Int × geom_tower α) (regs : Registries α) : Run (Registries α) Unit :=
  let g_tower := val.2
  match Construct_Tower E D g_tower regs with
  | Run.fatal st => Run.fatal st
  | Run.done st LV_tower =>
    Run.done
      { st with block_vol := st.block_vol ++ [(block_phys E D d g_tower LV_tower, g_tower.id)] } ()

/-- `Construct_AzimuthalSeg()`: returns the sector volume and the identity
transform (the empty product). -/
def Construct_AzimuthalSeg (E : MathEnv α) (D : Detector α) (regs : Registries α) :
    Run (Registries α) (G4LogicalVolume α × G4Transform3D α) :=
  if ¬ (4 < D.geom.azimuthal_n_sec) then Run.fatal regs
  else
    let d := sector_dims E D.geom
    if ¬ enclosure_depth_assertion E d then Run.fatal regs
    else if ¬ D.hasMaterial "G4_AIR" then Run.fatal regs
    else if ¬ D.hasMaterial D.geom.sidewall_mat then Run.fatal regs
    else
      let regs1 : Registries α := { regs with calo_vol := regs.calo_vol ++ wall_entries E D d }
      match Run.loop (tower_body E D d) D.geom.sector_tower_map regs1 with
      | Run.fatal st => Run.fatal st
      | Run.done st _ => Run.done st (sec_logic E D d, [])

/-! ## Vocabulary of the statements -/

/-- The chord length `fiber_length` of line 411 for the grid cell `(ix, iy)`. -/
def chord_length (E : MathEnv α) (D : Detector α) (g : geom_tower α) (ix iy : Nat) : α :=
  (fiber_chord E D.geom.fiber_outer_r g ix iy).1.mag E

/-- What the scan loops keep: the running minimum is below the length of
every stored chord. -/
def ScanBelow (E : MathEnv α) (st : ScanState α) : Prop :=
  ∀ val ∈ st.fiber_par, st.min_fiber_length ≤ val.2.1.mag E

/-- The grid cells with an even index sum, row by row, in the order in which
the loops of `Construct_Fibers` come to them. -/
def kept_cells (xs ys : List Nat) : List (Nat × Nat) :=
  xs.flatMap (fun ix => (ys.filter (fun iy => decide ((ix + iy) % 2 = 0))).map (fun iy => (ix, iy)))

/-- What the statements about lengths use of the square root: it is not
negative, and on a non-negative argument its square is the argument. -/
structure SqrtLaws (E : MathEnv α) : Prop where
  sqrt_nonneg : ∀ x : α, 0 ≤ E.sqrt x
  mul_self_sqrt : ∀ x : α, 0 ≤ x → E.sqrt x * E.sqrt x = x

end Construction

/-- The checks of `Construct_AzimuthalSeg` that come before the first
placement: the assertions of lines 107, 168, 185 and 201. -/
def sector_checks {α : Type} [LinearOrderedField α] (E : MathEnv α) (D : Detector α) : Bool :=
  decide (4 < D.geom.azimuthal_n_sec) && enclosure_depth_assertion E (sector_dims E D.geom)
    && D.hasMaterial "G4_AIR" && D.hasMaterial D.geom.sidewall_mat

/-- What a callee of the tower loop may do to the registries: `calo_vol` and
`block_vol` are as before and `fiber_vol` has grown at its end. -/
def FiberFrame {α : Type} (a b : Registries α) : Prop :=
  b.calo_vol = a.calo_vol ∧ b.block_vol = a.block_vol ∧ ∃ ext, b.fiber_vol = a.fiber_vol ++ ext

/-- What the tower loop may do to the registries: `calo_vol` is as before,
`block_vol` and `fiber_vol` have grown at their ends. -/
def TowerFrame {α : Type} (a b : Registries α) : Prop :=
  b.calo_vol = a.calo_vol ∧ (∃ ext, b.block_vol = a.block_vol ++ ext)
    ∧ ∃ ext, b.fiber_vol = a.fiber_vol ++ ext

/-- The run with its state seen through `f` and its value through `h`. -/
def Run.map {σ τ ρ π : Type} (f : σ → τ) (h : ρ → π) : Run σ ρ → Run τ π
  | Run.done st v => Run.done (f st) (h v)
  | Run.fatal st => Run.fatal (f st)

/-- The detector with other verbosity levels: `Verbosity()` and the
construction verbosity of the geometry. -/
def with_verbosity {α : Type} (D : Detector α) (verbosity construction_verbose : Int) :
    Detector α :=
  { D with
    verbosity := verbosity
    geom := { D.geom with construction_verbose := construction_verbose } }

/-- The geometry of a placement: every argument of `G4PVPlacement` but the
request for an overlap check. -/
def placed_geometry {α : Type} (p : G4PVPlacement α) : G4PVPlacement α :=
  { p with checkOverlaps := false }

/-- The geometry held by the registries. -/
def registry_geometry {α : Type} (r : Registries α) : Registries α :=
  { calo_vol := r.calo_vol.map (fun e => (placed_geometry e.1, e.2))
    block_vol := r.block_vol.map (fun e => (placed_geometry e.1, e.2))
    fiber_vol := r.fiber_vol.map (fun e => (placed_geometry e.1, e.2))
    gdml_excluded := r.gdml_excluded.map placed_geometry }

/-- Half length along the z axis of the sector of a wall solid: `pZ` of a
box, and `pDx1` of a trapezoid displaced by `sec_solid_transform`, whose
rotations turn the x axis of the trapezoid onto the z axis of the sector. -/
def axial_half_length {α : Type} [LinearOrderedField α] : G4VSolid α → α
  | G4VSolid.Box _ _ _ pZ => pZ
  | G4VSolid.Displaced _ (G4VSolid.Trap _ _ _ _ _ pDx1 _ _ _ _ _ _) _ => pDx1
  | _ => 0

/-- The translation along z that a wall transform starts with. -/
def axial_shift {α : Type} [LinearOrderedField α] : G4Transform3D α → α
  | G4Elementary.TranslateZ z :: _ => z
  | _ => 0

/-- The interval of z that a placed wall spans in the sector. -/
def axial_interval {α : Type} [LinearOrderedField α] (p : G4PVPlacement α) : α × α :=
  (axial_shift p.transform - axial_half_length p.logic.solid,
   axial_shift p.transform + axial_half_length p.logic.solid)

/-! ## The real-number environment and sample inputs -/

/-- The environment over the real numbers: the mathematical functions the
`<cmath>` calls approximate, the CLHEP units (`cm = 10`, `rad = 1`) and the
angle between two vectors as CLHEP computes it. -/
noncomputable def realEnv : MathEnv ℝ where
  pi := Real.pi
  halfpi := Real.pi / 2
  cm := 10
  rad := 1
  sqrt := Real.sqrt
  tan := Real.tan
  sin := Real.sin
  cos := Real.cos
  atan2 := fun y x => Complex.arg (Complex.mk x y)
  acos := Real.arccos
  angle := fun a b =>
    let ptot := Real.sqrt (G4Vector3D.mag2 a) * Real.sqrt (G4Vector3D.mag2 b)
    Real.arccos (if 0 < ptot then
      max (-1) (min 1 ((a.x * b.x + a.y * b.y + a.z * b.z) / ptot)) else 0)

/-- A sector configuration with 32 sectors, `radius = 90`, `max_radius = 116`
and no tower in the map. -/
noncomputable def sampleGeom : SpacalGeom ℝ where
  radius := 90
  max_radius := 116
  thickness := 26
  length := 280
  azimuthal_tilt := 0
  azimuthal_n_sec := 32
  max_phi_bin_in_sec := 8
  sidewall_thickness := 3 / 40
  sidewall_outer_torr := 1 / 40
  assembly_spacing := 1 / 100
  fiber_outer_r := 1 / 10
  sidewall_mat := "SS310"
  absorber_mat := "Spacal_W_Epoxy"
  construction_verbose := 2
  config := config_t.kFullProjective_2DTaper_Tilted_SameLengthFiberPerTower
  sector_tower_map := []
  azimuthal_seg_visible := false
  virualize_fiber := false

/-- A detector on `sampleGeom` in which every material is known and
`gdml_config` is set. -/
noncomputable def sampleDetector : Detector ℝ where
  name := "CEMC"
  geom := sampleGeom
  verbosity := 0
  overlapcheck := false
  gdml_config := true
  hasMaterial := fun _ => true
  Construct_Fiber := fun len id => { solid := G4VSolid.Fiber len id, material := "G4_POLYSTYRENE", name := "CEMC_fiber" ++ id }

/-- The sample configuration with other radii, thickness and tilt. -/
noncomputable def sectorGeom (radius max_radius thickness azimuthal_tilt : ℝ) : SpacalGeom ℝ :=
  { sampleGeom with
    radius := radius
    max_radius := max_radius
    thickness := thickness
    azimuthal_tilt := azimuthal_tilt }

/-- The sample detector on another geometry. -/
noncomputable def detectorOn (g : SpacalGeom ℝ) : Detector ℝ :=
  { sampleDetector with geom := g }

/-- The end-to-end scenario: `max_radius = 100`, `radius = 90`, 32 sectors,
no tilt, four phi bins per sector. -/
noncomputable def scenarioGeom : SpacalGeom ℝ :=
  { sectorGeom 90 100 10 0 with max_phi_bin_in_sec := 4 }

/-- A straight tower with a 2 by 2 fiber grid: half depth 6.5, all half
widths 1.1; the fiber id of a cell is `2 * ix + iy`. -/
noncomputable def straightTower : geom_tower ℝ where
  id := 7
  pDz := 13 / 2
  pTheta := 0
  pPhi := 0
  pAlp1 := 0
  pAlp2 := 0
  pDy1 := 11 / 10
  pDx1 := 11 / 10
  pDx2 := 11 / 10
  pDy2 := 11 / 10
  pDx3 := 11 / 10
  pDx4 := 11 / 10
  pRotationAngleX := 0
  centralX := 0
  centralY := 100
  centralZ := 10
  ModuleSkinThickness := 0
  NFiberX := 2
  NFiberY := 2
  compose_fiber_id := fun ix iy => 2 * ix + iy

/-- A flared tower: half depth 2.5, half widths 1.1 in front and 13.1 at the
back in x. -/
noncomputable def flaredTower : geom_tower ℝ :=
  { straightTower with pDz := 5 / 2, pDx3 := 131 / 10, pDx4 := 131 / 10 }

/-- The sample configuration with two straight towers, ids 7 and 9. -/
noncomputable def towerGeom : SpacalGeom ℝ :=
  { sampleGeom with
    sector_tower_map := [(7, straightTower), (9, { straightTower with id := 9, centralZ := 30 })] }

/-- The two-tower configuration with a configuration value that
`Construct_Tower` does not know. -/
noncomputable def unknownConfigGeom : SpacalGeom ℝ :=
  { towerGeom with config := config_t.other 0 }

/-- The sample configuration without side walls and with an assembly spacing
of 10 cm. -/
noncomputable def wideSpacingGeom : SpacalGeom ℝ :=
  { sampleGeom with sidewall_thickness := 0, assembly_spacing := 10 }

/-- A tower with a 4 x 4 fiber grid, `pTheta = 0`, and a front face that is
wider at `+y` than at `-y`: `pDx1 = 1.1`, `pDx2 = 2.1`. -/
noncomputable def skewTower : geom_tower ℝ :=
  { straightTower with
    pDx2 := 21 / 10
    NFiberX := 4
    NFiberY := 4
    compose_fiber_id := fun ix iy => 4 * ix + iy }

/-- The two-tower detector whose material table lacks the absorber material. -/
noncomputable def noAbsorberDetector : Detector ℝ :=
  { detectorOn towerGeom with hasMaterial := fun m => decide (m ≠ "Spacal_W_Epoxy") }

/-- Registries with nothing registered. -/
def emptyRegistries (α : Type) : Registries α :=
  { calo_vol := [], block_vol := [], fiber_vol := [], gdml_excluded := [] }

/-! ## Theorems -/

section Lemmas

variable {α : Type} [LinearOrderedField α]

theorem Run.loop_nil {ι σ : Type} (body : ι → σ → Run σ Unit) (st : σ) :
    Run.loop body [] st = Run.done st () := rfl

/-- A run of `Construct_AzimuthalSeg` that returns has passed every check
before the tower loop. -/
theorem Construct_AzimuthalSeg_checks (E : MathEnv α) (D : Detector α) (regs : Registries α)
    (h : (Construct_AzimuthalSeg E D regs).completes = true) :
    4 < D.geom.azimuthal_n_sec ∧ enclosure_depth_assertion E (sector_dims E D.geom) = true
      ∧ D.hasMaterial "G4_AIR" = true ∧ D.hasMaterial D.geom.sidewall_mat = true := by
  unfold Construct_AzimuthalSeg at h
  by_cases h1 : 4 < D.geom.azimuthal_n_sec
  · by_cases h2 : enclosure_depth_assertion E (sector_dims E D.geom) = true
    · by_cases h3 : D.hasMaterial "G4_AIR" = true
      · by_cases h4 : D.hasMaterial D.geom.sidewall_mat = true
        · exact ⟨h1, h2, h3, h4⟩
        · simp [h1, h2, h3, h4, Run.completes] at h
      · simp [h1, h2, h3, Run.completes] at h
    · simp [h1, h2, Run.completes] at h
  · simp [h1, Run.completes] at h

/-- With no tower in the map, `Construct_AzimuthalSeg` returns exactly when
its checks pass. -/
theorem Construct_AzimuthalSeg_no_tower (E : MathEnv α) (D : Detector α) (regs : Registries α)
    (hmap : D.geom.sector_tower_map = []) (h1 : 4 < D.geom.azimuthal_n_sec)
    (h2 : enclosure_depth_assertion E (sector_dims E D.geom) = true)
    (h3 : D.hasMaterial "G4_AIR" = true) (h4 : D.hasMaterial D.geom.sidewall_mat = true) :
    (Construct_AzimuthalSeg E D regs).completes = true := by
  unfold Construct_AzimuthalSeg
  simp [h1, h2, h3, h4, hmap, Run.loop, Run.completes]

theorem enclosure_depth_assertion_iff (E : MathEnv α) (d : SectorDims α) :
    enclosure_depth_assertion E d = true ↔ 0 ≤ d.radicand ∧ 10 * E.cm < d.enclosure_depth := by
  simp [enclosure_depth_assertion]

end Lemmas

section RealLemmas

/-- A small angle has a small tangent. -/
theorem tan_small_bounds (x : ℝ) (hx0 : 0 ≤ x) (hx1 : x ≤ 197 / 2000) :
    0 ≤ Real.tan x ∧ Real.tan x ≤ 1 / 10 := by
  have hpi3 : (3 : ℝ) < Real.pi := Real.pi_gt_three
  constructor
  · apply Real.tan_nonneg_of_nonneg_of_le_pi_div_two hx0
    linarith
  · have hs : Real.sin x ≤ x := Real.sin_le hx0
    have hc : 1 - x ^ 2 / 2 ≤ Real.cos x := Real.one_sub_sq_div_two_le_cos
    have hsq : x ^ 2 ≤ (197 / 2000) ^ 2 := pow_le_pow_left₀ hx0 hx1 2
    have hc2 : (99 / 100 : ℝ) ≤ Real.cos x := by
      norm_num at hsq
      linarith
    have hcpos : 0 < Real.cos x := by linarith
    rw [Real.tan_eq_sin_div_cos, div_le_iff₀ hcpos]
    linarith

/-- Bounds on `tan (π / 32)`. -/
theorem tan_pi_div_32_bounds : 0 ≤ Real.tan (Real.pi / 32) ∧ Real.tan (Real.pi / 32) ≤ 1 / 10 := by
  have hpi : Real.pi < 3.15 := Real.pi_lt_d2
  apply tan_small_bounds
  · positivity
  · norm_num at hpi
    linarith

theorem sample_half_chord_backend :
    (sector_dims realEnv sampleGeom).half_chord_backend = 1160 * Real.tan (Real.pi / 32) := by
  simp [sector_dims, sampleGeom, realEnv]
  norm_num

theorem sample_radicand :
    (sector_dims realEnv sampleGeom).radicand
      = 1160 ^ 2 - (1160 * Real.tan (Real.pi / 32)) * (1160 * Real.tan (Real.pi / 32)) := by
  have h := sample_half_chord_backend
  simp only [sector_dims] at h ⊢
  rw [h]
  simp [sampleGeom, realEnv]
  norm_num

theorem sample_enclosure_depth :
    (sector_dims realEnv sampleGeom).enclosure_depth
      = Real.sqrt (sector_dims realEnv sampleGeom).radicand - 900 := by
  simp [sector_dims, sampleGeom, realEnv]
  norm_num

/-- The sample configuration passes the assertion on `enclosure_depth`. -/
theorem sample_assertion :
    enclosure_depth_assertion realEnv (sector_dims realEnv sampleGeom) = true := by
  rw [enclosure_depth_assertion_iff, sample_enclosure_depth, sample_radicand]
  obtain ⟨ht0, ht1⟩ := tan_pi_div_32_bounds
  have hrad : (1152 : ℝ) ^ 2 ≤
      1160 ^ 2 - (1160 * Real.tan (Real.pi / 32)) * (1160 * Real.tan (Real.pi / 32)) := by
    nlinarith
  refine ⟨by nlinarith, ?_⟩
  have hs : (1152 : ℝ) ≤
      Real.sqrt (1160 ^ 2 - (1160 * Real.tan (Real.pi / 32)) * (1160 * Real.tan (Real.pi / 32))) :=
    Real.le_sqrt_of_sq_le hrad
  simp only [realEnv]
  linarith

/-- The sample detector is built without a fatal error. -/
theorem sample_completes :
    (Construct_AzimuthalSeg realEnv sampleDetector (emptyRegistries ℝ)).completes = true :=
  Construct_AzimuthalSeg_no_tower realEnv sampleDetector (emptyRegistries ℝ) rfl
    (by simp [sampleDetector, sampleGeom]) sample_assertion rfl rfl

end RealLemmas

/-! ### Enclosure depth and the square root (C1, C2) -/

section Sector

variable {α : Type} [LinearOrderedField α]

/-- C1: `Construct_AzimuthalSeg` returns a sector only if `enclosure_depth`
exceeds the clearance of 10 cm.  A configuration whose computed
`enclosure_depth` is at most `10 * cm` ends in a fatal error, and on every
configuration on which the construction returns, `enclosure_depth > 10 * cm`. -/
theorem enclosure_depth_exceeds_clearance (E : MathEnv α) (D : Detector α)
    (regs : Registries α) :
    ((sector_dims E D.geom).enclosure_depth ≤ 10 * E.cm →
        (Construct_AzimuthalSeg E D regs).completes = false
          ∧ (Construct_AzimuthalSeg E D regs).value? = none) ∧
    ((Construct_AzimuthalSeg E D regs).completes = true →
        10 * E.cm < (sector_dims E D.geom).enclosure_depth) := by
  have key : (Construct_AzimuthalSeg E D regs).completes = true →
      10 * E.cm < (sector_dims E D.geom).enclosure_depth := by
    intro h
    have h2 := (Construct_AzimuthalSeg_checks E D regs h).2.1
    exact ((enclosure_depth_assertion_iff E _).1 h2).2
  refine ⟨fun hle => ?_, key⟩
  cases hrun : Construct_AzimuthalSeg E D regs with
  | fatal st => simp [Run.completes, Run.value?]
  | done st v =>
    have hc : (Construct_AzimuthalSeg E D regs).completes = true := by
      rw [hrun]; rfl
    exact absurd (key hc) (not_lt.mpr hle)

end Sector

/-- C1 at the sample detector: the construction returns, and its
`enclosure_depth` exceeds `10 * cm`. -/
theorem enclosure_depth_exceeds_clearance_witness :
    (Construct_AzimuthalSeg realEnv sampleDetector (emptyRegistries ℝ)).completes = true
      ∧ 10 * realEnv.cm < (sector_dims realEnv sampleDetector.geom).enclosure_depth :=
  ⟨sample_completes,
    (enclosure_depth_exceeds_clearance realEnv sampleDetector (emptyRegistries ℝ)).2
      sample_completes⟩

section SectorRoot

variable {α : Type} [LinearOrderedField α]

end SectorRoot

section WidthBalancing

variable {α : Type} [LinearOrderedField α]

theorem foldl_add_eq_sum {ι : Type} (f : ι → α) (l : List ι) (acc : α) :
    l.foldl (fun r s => r + f s) acc = acc + (l.map f).sum := by
  induction l generalizing acc with
  | nil => simp
  | cons a t ih => simp [ih, add_assoc]

theorem sum_map_range (f : Nat → α) (n : Nat) :
    ((List.range n).map f).sum = ∑ s in Finset.range n, f s := by
  induction n with
  | zero => simp
  | succ k ih => simp [List.range_succ, Finset.sum_range_succ, ih]

/-- The loop of lines 147-151 adds up the `1 / cos` of the wedge angles. -/
theorem block_width_ratio_eq_sum (E : MathEnv α) (g : SpacalGeom α) :
    (sector_dims E g).block_width_ratio
      = ∑ s in Finset.range g.max_phi_bin_in_sec.toNat,
          1 / E.cos ((sector_dims E g).block_azimuth_angle * (1 / 2 + (s : α))
            + (sector_dims E g).edge1_tilt_angle) := by
  have h : (sector_dims E g).block_width_ratio
      = block_width_ratio_loop E (sector_dims E g).block_azimuth_angle
          (sector_dims E g).edge1_tilt_angle (List.range g.max_phi_bin_in_sec.toNat) 0 := rfl
  rw [h, block_width_ratio_loop,
    foldl_add_eq_sum (fun s : Nat => 1 / E.cos ((sector_dims E g).block_azimuth_angle
      * (1 / 2 + (s : α)) + (sector_dims E g).edge1_tilt_angle)),
    sum_map_range, zero_add]

/-- The identity behind the width balancing: with a divisor that is not
zero, the `1 / cos`-weighted wedge widths add up to the two edge widths. -/
theorem wedge_width_sum (E : MathEnv α) (g : SpacalGeom α)
    (hratio : (sector_dims E g).block_width_ratio ≠ 0) :
    (∑ s in Finset.range g.max_phi_bin_in_sec.toNat,
        (sector_dims E g).block_half_height_width
          / E.cos ((sector_dims E g).edge1_tilt_angle + ((s : α) + 1 / 2)
              * ((sector_dims E g).edge2_tilt_angle - (sector_dims E g).edge1_tilt_angle)
              / (g.max_phi_bin_in_sec : α)))
      = (sector_dims E g).block_edge1_half_width + (sector_dims E g).block_edge2_half_width := by
  have hsum := block_width_ratio_eq_sum E g
  have hangle : ∀ s : Nat,
      (sector_dims E g).edge1_tilt_angle + ((s : α) + 1 / 2)
          * ((sector_dims E g).edge2_tilt_angle - (sector_dims E g).edge1_tilt_angle)
          / (g.max_phi_bin_in_sec : α)
        = (sector_dims E g).block_azimuth_angle * (1 / 2 + (s : α))
          + (sector_dims E g).edge1_tilt_angle := by
    intro s
    have hb : (sector_dims E g).block_azimuth_angle
        = ((sector_dims E g).edge2_tilt_angle - (sector_dims E g).edge1_tilt_angle)
          / (g.max_phi_bin_in_sec : α) := rfl
    rw [hb]
    ring
  have hw : (sector_dims E g).block_half_height_width
      = ((sector_dims E g).block_edge1_half_width + (sector_dims E g).block_edge2_half_width)
        / (sector_dims E g).block_width_ratio := rfl
  calc (∑ s in Finset.range g.max_phi_bin_in_sec.toNat,
        (sector_dims E g).block_half_height_width
          / E.cos ((sector_dims E g).edge1_tilt_angle + ((s : α) + 1 / 2)
              * ((sector_dims E g).edge2_tilt_angle - (sector_dims E g).edge1_tilt_angle)
              / (g.max_phi_bin_in_sec : α)))
      = ∑ s in Finset.range g.max_phi_bin_in_sec.toNat,
        (sector_dims E g).block_half_height_width
          * (1 / E.cos ((sector_dims E g).block_azimuth_angle * (1 / 2 + (s : α))
              + (sector_dims E g).edge1_tilt_angle)) := by
        apply Finset.sum_congr rfl
        intro s _
        rw [hangle s, mul_one_div]
    _ = (sector_dims E g).block_half_height_width * (sector_dims E g).block_width_ratio := by
        rw [← Finset.mul_sum, ← hsum]
    _ = (sector_dims E g).block_edge1_half_width
          + (sector_dims E g).block_edge2_half_width := by
        rw [hw]
        exact div_mul_cancel₀ _ hratio

/-- C3: width balancing.  With `N = max_phi_bin_in_sec`, whenever the
divisor `block_width_ratio` of line 152 is not zero, the
`block_half_height_width` computed by `Construct_AzimuthalSeg` satisfies
`sum_{s<N} block_half_height_width / cos(edge1_tilt_angle + (s + 1/2) *
(edge2_tilt_angle - edge1_tilt_angle) / N) = block_edge1_half_width +
block_edge2_half_width`, where `block_edgeK_half_width =
enclosure_half_height_half_width - (sidewall_thickness * cm + 2 *
assembly_spacing * cm) / cos(edgeK_tilt_angle)`. -/
theorem width_balancing (E : MathEnv α) (g : SpacalGeom α)
    (hratio : (sector_dims E g).block_width_ratio ≠ 0) :
    (∑ s in Finset.range g.max_phi_bin_in_sec.toNat,
        (sector_dims E g).block_half_height_width
          / E.cos ((sector_dims E g).edge1_tilt_angle + ((s : α) + 1 / 2)
              * ((sector_dims E g).edge2_tilt_angle - (sector_dims E g).edge1_tilt_angle)
              / (g.max_phi_bin_in_sec : α)))
      = (sector_dims E g).block_edge1_half_width + (sector_dims E g).block_edge2_half_width
    ∧ (sector_dims E g).block_edge1_half_width
        = (sector_dims E g).enclosure_half_height_half_width
          - (g.sidewall_thickness * E.cm + 2 * g.assembly_spacing * E.cm)
            / E.cos (sector_dims E g).edge1_tilt_angle
    ∧ (sector_dims E g).block_edge2_half_width
        = (sector_dims E g).enclosure_half_height_half_width
          - (g.sidewall_thickness * E.cm + 2 * g.assembly_spacing * E.cm)
            / E.cos (sector_dims E g).edge2_tilt_angle
    ∧ 1 ≤ g.max_phi_bin_in_sec := by
  refine ⟨wedge_width_sum E g hratio, rfl, rfl, ?_⟩
  by_contra hN
  apply hratio
  have h0 : g.max_phi_bin_in_sec.toNat = 0 := by
    have : g.max_phi_bin_in_sec ≤ 0 := by omega
    exact Int.toNat_eq_zero.mpr this
  rw [block_width_ratio_eq_sum, h0]
  simp

end WidthBalancing

section RealWidthBalancing

/-- Over the reals, `atan2 y x` lies strictly between `-π/2` and `π/2` when `x > 0`. -/
theorem real_atan2_abs_lt (y x : ℝ) (hx : 0 < x) : |realEnv.atan2 y x| < Real.pi / 2 := by
  show |Complex.arg (Complex.mk x y)| < Real.pi / 2
  rw [Complex.abs_arg_lt_pi_div_two_iff]
  exact Or.inl hx

/-- A point between two angles of `(-π/2, π/2)` is in `(-π/2, π/2)`. -/
theorem between_abs_lt (a b c t : ℝ) (ha : |a| < c) (hb : |b| < c) (ht0 : 0 ≤ t) (ht1 : t ≤ 1) :
    |a + t * (b - a)| < c := by
  rw [abs_lt] at ha hb ⊢
  constructor
  · nlinarith [mul_nonneg ht0 (sub_nonneg.mpr (le_of_lt hb.1)),
      mul_nonneg (sub_nonneg.mpr ht1) (sub_nonneg.mpr (le_of_lt ha.1))]
  · nlinarith [mul_nonneg ht0 (sub_nonneg.mpr (le_of_lt hb.2)),
      mul_nonneg (sub_nonneg.mpr ht1) (sub_nonneg.mpr (le_of_lt ha.2))]

/-- Over the reals and with `enclosure_depth > 0`, every wedge angle of the
loop of lines 147-151 lies strictly between `-π/2` and `π/2`. -/
theorem real_wedge_angle_abs_lt (g : SpacalGeom ℝ)
    (hd : 0 < (sector_dims realEnv g).enclosure_depth) (s : Nat)
    (hs : s < g.max_phi_bin_in_sec.toNat) :
    |(sector_dims realEnv g).block_azimuth_angle * (1 / 2 + (s : ℝ))
        + (sector_dims realEnv g).edge1_tilt_angle| < Real.pi / 2 := by
  have hpos : 0 < (sector_dims realEnv g).enclosure_depth * (1 / 2) := by linarith
  have he1 : |(sector_dims realEnv g).edge1_tilt_angle| < Real.pi / 2 :=
    real_atan2_abs_lt _ _ hpos
  have he2 : |(sector_dims realEnv g).edge2_tilt_angle| < Real.pi / 2 :=
    real_atan2_abs_lt _ _ hpos
  have hb : (sector_dims realEnv g).block_azimuth_angle
      = ((sector_dims realEnv g).edge2_tilt_angle - (sector_dims realEnv g).edge1_tilt_angle)
        / (g.max_phi_bin_in_sec : ℝ) := rfl
  have hsN : ((s : ℤ)) < g.max_phi_bin_in_sec := by
    have := (Int.lt_toNat).mp hs
    exact this
  have hsN1 : ((s : ℝ)) + 1 ≤ (g.max_phi_bin_in_sec : ℝ) := by
    have : (s : ℤ) + 1 ≤ g.max_phi_bin_in_sec := hsN
    exact_mod_cast this
  have hNpos : (0 : ℝ) < (g.max_phi_bin_in_sec : ℝ) := by
    have : (0 : ℝ) ≤ (s : ℝ) := Nat.cast_nonneg s
    linarith
  have hrew : (sector_dims realEnv g).block_azimuth_angle * (1 / 2 + (s : ℝ))
        + (sector_dims realEnv g).edge1_tilt_angle
      = (sector_dims realEnv g).edge1_tilt_angle
        + ((1 / 2 + (s : ℝ)) / (g.max_phi_bin_in_sec : ℝ))
          * ((sector_dims realEnv g).edge2_tilt_angle
            - (sector_dims realEnv g).edge1_tilt_angle) := by
    rw [hb]
    field_simp
    ring
  rw [hrew]
  apply between_abs_lt _ _ _ _ he1 he2
  · have : (0 : ℝ) ≤ (s : ℝ) := Nat.cast_nonneg s
    positivity
  · rw [div_le_one hNpos]
    linarith

/-- Over the reals, with `enclosure_depth > 0` and at least one wedge, the
divisor `block_width_ratio` is positive. -/
theorem real_block_width_ratio_pos (g : SpacalGeom ℝ)
    (hd : 0 < (sector_dims realEnv g).enclosure_depth) (hN : 1 ≤ g.max_phi_bin_in_sec) :
    0 < (sector_dims realEnv g).block_width_ratio := by
  rw [block_width_ratio_eq_sum]
  apply Finset.sum_pos
  · intro s hs
    have hlt := real_wedge_angle_abs_lt g hd s (Finset.mem_range.mp hs)
    rw [abs_lt] at hlt
    have hc : 0 < Real.cos ((sector_dims realEnv g).block_azimuth_angle * (1 / 2 + (s : ℝ))
        + (sector_dims realEnv g).edge1_tilt_angle) :=
      Real.cos_pos_of_mem_Ioo ⟨hlt.1, hlt.2⟩
    exact one_div_pos.mpr hc
  · rw [Finset.nonempty_range_iff]
    have : 0 < g.max_phi_bin_in_sec.toNat := by
      rw [Int.lt_toNat]
      exact_mod_cast hN
    omega

theorem sample_enclosure_depth_pos : 0 < (sector_dims realEnv sampleGeom).enclosure_depth := by
  have h := (enclosure_depth_assertion_iff realEnv _).1 sample_assertion
  have hcm : (0 : ℝ) ≤ 10 * realEnv.cm := by
    simp [realEnv]
  linarith [h.2]

end RealWidthBalancing

/-- C3 at the sample configuration over the reals, where the divisor is positive. -/
theorem width_balancing_witness :
    (sector_dims realEnv sampleGeom).block_width_ratio ≠ 0
    ∧ (∑ s in Finset.range sampleGeom.max_phi_bin_in_sec.toNat,
        (sector_dims realEnv sampleGeom).block_half_height_width
          / realEnv.cos ((sector_dims realEnv sampleGeom).edge1_tilt_angle + ((s : ℝ) + 1 / 2)
              * ((sector_dims realEnv sampleGeom).edge2_tilt_angle
                - (sector_dims realEnv sampleGeom).edge1_tilt_angle)
              / (sampleGeom.max_phi_bin_in_sec : ℝ)))
      = (sector_dims realEnv sampleGeom).block_edge1_half_width
        + (sector_dims realEnv sampleGeom).block_edge2_half_width :=
  ⟨ne_of_gt (real_block_width_ratio_pos sampleGeom sample_enclosure_depth_pos
      (by simp [sampleGeom])),
   (width_balancing realEnv sampleGeom
      (ne_of_gt (real_block_width_ratio_pos sampleGeom sample_enclosure_depth_pos
        (by simp [sampleGeom])))).1⟩

section Scenario

theorem scenario_half_chord_backend (g : SpacalGeom ℝ) (hR : g.max_radius = 100)
    (hn : g.azimuthal_n_sec = 32) (ht : g.azimuthal_tilt = 0) :
    (sector_dims realEnv g).half_chord_backend = 1000 * Real.tan (Real.pi / 32) := by
  simp [sector_dims, realEnv, hR, hn, ht]
  norm_num

theorem scenario_radicand (g : SpacalGeom ℝ) (hR : g.max_radius = 100)
    (hn : g.azimuthal_n_sec = 32) (ht : g.azimuthal_tilt = 0) :
    (sector_dims realEnv g).radicand
      = 1000 ^ 2 - (1000 * Real.tan (Real.pi / 32)) * (1000 * Real.tan (Real.pi / 32)) := by
  have h := scenario_half_chord_backend g hR hn ht
  simp only [sector_dims] at h ⊢
  rw [h]
  simp [realEnv, hR]
  norm_num

theorem scenario_enclosure_depth (g : SpacalGeom ℝ) (hr : g.radius = 90) :
    (sector_dims realEnv g).enclosure_depth
      = Real.sqrt (sector_dims realEnv g).radicand - 900 := by
  simp [sector_dims, realEnv, hr]
  norm_num

/-- In the scenario the enclosure is between 0 and 10 cm deep. -/
theorem scenario_enclosure_depth_bounds (g : SpacalGeom ℝ) (hR : g.max_radius = 100)
    (hr : g.radius = 90) (hn : g.azimuthal_n_sec = 32) (ht : g.azimuthal_tilt = 0) :
    0 < (sector_dims realEnv g).enclosure_depth
      ∧ (sector_dims realEnv g).enclosure_depth ≤ 10 * realEnv.cm := by
  rw [scenario_enclosure_depth g hr, scenario_radicand g hR hn ht]
  obtain ⟨ht0, ht1⟩ := tan_pi_div_32_bounds
  have hlo : (900 : ℝ) <
      Real.sqrt (1000 ^ 2 - (1000 * Real.tan (Real.pi / 32)) * (1000 * Real.tan (Real.pi / 32))) := by
    apply Real.lt_sqrt_of_sq_lt
    nlinarith
  have hhi : Real.sqrt (1000 ^ 2
      - (1000 * Real.tan (Real.pi / 32)) * (1000 * Real.tan (Real.pi / 32))) ≤ 1000 := by
    rw [Real.sqrt_le_iff]
    constructor
    · norm_num
    · nlinarith
  simp only [realEnv]
  constructor <;> linarith

end Scenario

/-- C4 (amended): in the scenario `max_radius = 100`, `radius = 90`, 32
sectors, no tilt, four phi bins (any thickness, side wall thickness and
assembly spacing) the enclosure is less than 10 cm deep, so that
`Construct_AzimuthalSeg` ends in a fatal error at the assertion of line 168;
the `block_half_height_width` computed before the assertion makes the sum
over the four wedges of `block_half_height_width / cos(block_azimuth_angle *
(s + 1/2) + edge1_tilt_angle)` equal to `block_edge1_half_width +
block_edge2_half_width`. -/
theorem scenario_width_balancing (D : Detector ℝ) (regs : Registries ℝ)
    (hR : D.geom.max_radius = 100) (hr : D.geom.radius = 90)
    (hn : D.geom.azimuthal_n_sec = 32) (ht : D.geom.azimuthal_tilt = 0)
    (hN : D.geom.max_phi_bin_in_sec = 4) :
    (Construct_AzimuthalSeg realEnv D regs).completes = false
    ∧ (sector_dims realEnv D.geom).enclosure_depth ≤ 10 * realEnv.cm
    ∧ (∑ s in Finset.range 4,
        (sector_dims realEnv D.geom).block_half_height_width
          / Real.cos ((sector_dims realEnv D.geom).block_azimuth_angle * ((s : ℝ) + 1 / 2)
              + (sector_dims realEnv D.geom).edge1_tilt_angle))
      = (sector_dims realEnv D.geom).block_edge1_half_width
        + (sector_dims realEnv D.geom).block_edge2_half_width := by
  obtain ⟨hpos, hle⟩ := scenario_enclosure_depth_bounds D.geom hR hr hn ht
  refine ⟨?_, hle, ?_⟩
  · cases hrun : Construct_AzimuthalSeg realEnv D regs with
    | fatal st => rfl
    | done st v =>
      have hc : (Construct_AzimuthalSeg realEnv D regs).completes = true := by
        rw [hrun]; rfl
      have h2 := (Construct_AzimuthalSeg_checks realEnv D regs hc).2.1
      exact absurd ((enclosure_depth_assertion_iff realEnv _).1 h2).2 (not_lt.mpr hle)
  · have hratio : (sector_dims realEnv D.geom).block_width_ratio ≠ 0 :=
      ne_of_gt (real_block_width_ratio_pos D.geom hpos (by rw [hN]; norm_num))
    have h := wedge_width_sum realEnv D.geom hratio
    have hb : (sector_dims realEnv D.geom).block_azimuth_angle
        = ((sector_dims realEnv D.geom).edge2_tilt_angle
            - (sector_dims realEnv D.geom).edge1_tilt_angle)
          / (D.geom.max_phi_bin_in_sec : ℝ) := rfl
    have h4 : D.geom.max_phi_bin_in_sec.toNat = 4 := by rw [hN]; rfl
    rw [h4] at h
    rw [← h]
    apply Finset.sum_congr rfl
    intro s _
    have hcos : realEnv.cos = Real.cos := rfl
    rw [hcos, hb]
    congr 2
    ring

/-- C4 (amended) at the scenario with thickness 10. -/
theorem scenario_width_balancing_witness :
    (Construct_AzimuthalSeg realEnv (detectorOn scenarioGeom) (emptyRegistries ℝ)).completes
        = false
    ∧ (sector_dims realEnv (detectorOn scenarioGeom).geom).enclosure_depth ≤ 10 * realEnv.cm
    ∧ (∑ s in Finset.range 4,
        (sector_dims realEnv (detectorOn scenarioGeom).geom).block_half_height_width
          / Real.cos ((sector_dims realEnv (detectorOn scenarioGeom).geom).block_azimuth_angle
                * ((s : ℝ) + 1 / 2)
              + (sector_dims realEnv (detectorOn scenarioGeom).geom).edge1_tilt_angle))
      = (sector_dims realEnv (detectorOn scenarioGeom).geom).block_edge1_half_width
        + (sector_dims realEnv (detectorOn scenarioGeom).geom).block_edge2_half_width :=
  scenario_width_balancing (detectorOn scenarioGeom) (emptyRegistries ℝ) rfl rfl rfl rfl rfl

/-- C4 as stated fails: in the scenario, with every material known and no
tower in the map, `Construct_AzimuthalSeg` does not return. -/
theorem scenario_counterexample :
    (detectorOn scenarioGeom).geom.max_radius = 100
    ∧ (detectorOn scenarioGeom).geom.radius = 90
    ∧ (detectorOn scenarioGeom).geom.azimuthal_n_sec = 32
    ∧ (detectorOn scenarioGeom).geom.azimuthal_tilt = 0
    ∧ (detectorOn scenarioGeom).geom.max_phi_bin_in_sec = 4
    ∧ (Construct_AzimuthalSeg realEnv (detectorOn scenarioGeom) (emptyRegistries ℝ)).completes
        = false := by
  refine ⟨rfl, rfl, rfl, rfl, rfl, ?_⟩
  have hle := (scenario_enclosure_depth_bounds (detectorOn scenarioGeom).geom rfl rfl rfl rfl).2
  cases hrun : Construct_AzimuthalSeg realEnv (detectorOn scenarioGeom) (emptyRegistries ℝ) with
  | fatal st => rfl
  | done st v =>
    have hc : (Construct_AzimuthalSeg realEnv (detectorOn scenarioGeom)
        (emptyRegistries ℝ)).completes = true := by
      rw [hrun]; rfl
    have h2 := (Construct_AzimuthalSeg_checks realEnv _ _ hc).2.1
    exact absurd ((enclosure_depth_assertion_iff realEnv _).1 h2).2 (not_lt.mpr hle)

/-! ### The common fiber length (C5, C6) -/

section CommonLength

variable {α : Type} [LinearOrderedField α]

theorem std_min_le_left (a b : α) : std_min a b ≤ a := by
  unfold std_min
  split_ifs with h
  · exact le_of_lt h
  · exact le_refl a

theorem std_min_le_right (a b : α) : std_min a b ≤ b := by
  unfold std_min
  split_ifs with h
  · exact le_refl b
  · exact not_lt.mp h

theorem std_min_eq_or (a b : α) : std_min a b = a ∨ std_min a b = b := by
  unfold std_min
  split_ifs
  · exact Or.inr rfl
  · exact Or.inl rfl

/-- An entry of the map after `m[k] = v` is the new entry or an old one. -/
theorem mem_map_insert {β : Type} (k : Int) (v : β) (m : List (Int × β)) (e : Int × β)
    (he : e ∈ map_insert k v m) : e = (k, v) ∨ e ∈ m := by
  induction m with
  | nil =>
    simp only [map_insert, List.mem_singleton] at he
    exact Or.inl he
  | cons hd tl ih =>
    obtain ⟨k1, v1⟩ := hd
    simp only [map_insert] at he
    split_ifs at he with h1 h2
    · rcases List.mem_cons.mp he with h | h
      · exact Or.inl h
      · exact Or.inr h
    · rcases List.mem_cons.mp he with h | h
      · exact Or.inl h
      · exact Or.inr (List.mem_cons_of_mem _ h)
    · rcases List.mem_cons.mp he with h | h
      · exact Or.inr (h ▸ List.mem_cons_self _ _)
      · rcases ih h with h' | h'
        · exact Or.inl h'
        · exact Or.inr (List.mem_cons_of_mem _ h')

/-- A property kept by every step of a loop holds after the loop. -/
theorem foldl_invariant {σ ι : Type} (P : σ → Prop) (f : σ → ι → σ) (l : List ι) (init : σ)
    (h0 : P init) (hstep : ∀ st i, P st → P (f st i)) : P (l.foldl f init) := by
  induction l generalizing init with
  | nil => exact h0
  | cons a t ih => exact ih (f init a) (hstep init a h0)

theorem scan_cell_below (E : MathEnv α) (D : Detector α) (g : geom_tower α) (ix iy : Nat)
    (st : ScanState α) (h : ScanBelow E st) : ScanBelow E (scan_cell E D g ix iy st) := by
  unfold scan_cell
  split_ifs with hodd
  · exact h
  · intro val hval
    rcases mem_map_insert _ _ _ _ hval with hnew | hold
    · rw [hnew]
      exact std_min_le_left _ _
    · exact le_trans (std_min_le_right _ _) (h val hold)

theorem scan_fibers_below (E : MathEnv α) (D : Detector α) (g : geom_tower α) :
    ScanBelow E (scan_fibers E D g) := by
  unfold scan_fibers
  apply foldl_invariant (ScanBelow E)
  · intro val hval
    simp at hval
  · intro st ix hst
    unfold scan_row
    apply foldl_invariant (ScanBelow E) _ _ _ hst
    intro st1 iy hst1
    exact scan_cell_below E D g ix iy st1 hst1

theorem foldl_invariant_mem {σ ι : Type} (P : σ → Prop) (f : σ → ι → σ) (l : List ι)
    (init : σ) (h0 : P init) (hstep : ∀ st i, i ∈ l → P st → P (f st i)) :
    P (l.foldl f init) := by
  induction l generalizing init with
  | nil => exact h0
  | cons a t ih =>
    exact ih (f init a) (hstep init a (List.mem_cons_self _ _) h0)
      (fun st i hi hst => hstep st i (List.mem_cons_of_mem _ hi) hst)

/-- A quantity that no step of a loop increases ends below its start. -/
theorem foldl_le_init {σ ι : Type} (m : σ → α) (f : σ → ι → σ) (l : List ι) (init : σ)
    (hmono : ∀ st i, m (f st i) ≤ m st) : m (l.foldl f init) ≤ m init := by
  induction l generalizing init with
  | nil => exact le_refl _
  | cons a t ih => exact le_trans (ih (f init a)) (hmono init a)

/-- A quantity that no step increases and that step `i` puts below `len i`
ends below `len i` for every step of the loop. -/
theorem foldl_le_of_mem {σ ι : Type} (m : σ → α) (f : σ → ι → σ) (len : ι → α)
    (K : ι → Prop) (l : List ι) (init : σ) (hmono : ∀ st i, m (f st i) ≤ m st)
    (hstep : ∀ st i, K i → m (f st i) ≤ len i) :
    ∀ i ∈ l, K i → m (l.foldl f init) ≤ len i := by
  induction l generalizing init with
  | nil => intro i hi; simp at hi
  | cons a t ih =>
    intro i hi hK
    rcases List.mem_cons.mp hi with h | h
    · subst h
      exact le_trans (foldl_le_init m f t (f init i) hmono) (hstep init i hK)
    · exact ih (f init a) i h hK

theorem scan_cell_min (E : MathEnv α) (D : Detector α) (g : geom_tower α) (ix iy : Nat)
    (st : ScanState α) :
    (scan_cell E D g ix iy st).min_fiber_length
      = if (ix + iy) % 2 = 1 then st.min_fiber_length
        else std_min (chord_length E D g ix iy) st.min_fiber_length := by
  unfold scan_cell chord_length
  split_ifs <;> rfl

theorem scan_cell_min_le (E : MathEnv α) (D : Detector α) (g : geom_tower α) (ix iy : Nat)
    (st : ScanState α) :
    (scan_cell E D g ix iy st).min_fiber_length ≤ st.min_fiber_length := by
  rw [scan_cell_min]
  split_ifs
  · exact le_refl _
  · exact std_min_le_right _ _

theorem scan_cell_min_le_chord (E : MathEnv α) (D : Detector α) (g : geom_tower α)
    (ix iy : Nat) (st : ScanState α) (hk : (ix + iy) % 2 = 0) :
    (scan_cell E D g ix iy st).min_fiber_length ≤ chord_length E D g ix iy := by
  rw [scan_cell_min]
  have hne : ¬ (ix + iy) % 2 = 1 := by omega
  rw [if_neg hne]
  exact std_min_le_left _ _

theorem scan_row_min_le (E : MathEnv α) (D : Detector α) (g : geom_tower α) (ix : Nat)
    (st : ScanState α) :
    (scan_row E D g ix st).min_fiber_length ≤ st.min_fiber_length :=
  foldl_le_init (fun s : ScanState α => s.min_fiber_length) _ _ st
    (fun st1 iy => scan_cell_min_le E D g ix iy st1)

theorem scan_row_min_le_chord (E : MathEnv α) (D : Detector α) (g : geom_tower α)
    (ix iy : Nat) (st : ScanState α) (hy : iy ∈ List.range g.NFiberY.toNat)
    (hk : (ix + iy) % 2 = 0) :
    (scan_row E D g ix st).min_fiber_length ≤ chord_length E D g ix iy :=
  foldl_le_of_mem (fun s : ScanState α => s.min_fiber_length) _
    (fun iy => chord_length E D g ix iy) (fun iy => (ix + iy) % 2 = 0) _ st
    (fun st1 iy1 => scan_cell_min_le E D g ix iy1 st1)
    (fun st1 iy1 hk1 => scan_cell_min_le_chord E D g ix iy1 st1 hk1) iy hy hk

/-- The running minimum after a row is the one before it or the chord length
of a kept cell of the row. -/
theorem scan_row_min_attained (E : MathEnv α) (D : Detector α) (g : geom_tower α) (ix : Nat)
    (st : ScanState α) :
    (scan_row E D g ix st).min_fiber_length = st.min_fiber_length
      ∨ ∃ iy ∈ List.range g.NFiberY.toNat, (ix + iy) % 2 = 0
          ∧ (scan_row E D g ix st).min_fiber_length = chord_length E D g ix iy := by
  unfold scan_row
  apply foldl_invariant_mem
    (fun s : ScanState α => s.min_fiber_length = st.min_fiber_length
      ∨ ∃ iy ∈ List.range g.NFiberY.toNat, (ix + iy) % 2 = 0
          ∧ s.min_fiber_length = chord_length E D g ix iy)
  · exact Or.inl rfl
  · intro st1 iy hy hst1
    show (scan_cell E D g ix iy st1).min_fiber_length = st.min_fiber_length ∨ _
    rw [scan_cell_min]
    split_ifs with hodd
    · exact hst1
    · rcases std_min_eq_or (chord_length E D g ix iy) st1.min_fiber_length with h | h
      · exact Or.inr ⟨iy, hy, by omega, h⟩
      · rw [h]
        exact hst1

/-- The running minimum after the scan loops is below its initial value and
below the chord length of every kept cell, and it is one of these values. -/
theorem scan_fibers_min_spec (E : MathEnv α) (D : Detector α) (g : geom_tower α) :
    (scan_fibers E D g).min_fiber_length ≤ g.pDz * E.cm * 4
    ∧ (∀ ix iy : Nat, (ix : Int) < g.NFiberX → (iy : Int) < g.NFiberY → (ix + iy) % 2 = 0 →
        (scan_fibers E D g).min_fiber_length ≤ chord_length E D g ix iy)
    ∧ ((scan_fibers E D g).min_fiber_length = g.pDz * E.cm * 4
        ∨ ∃ ix iy : Nat, (ix : Int) < g.NFiberX ∧ (iy : Int) < g.NFiberY ∧ (ix + iy) % 2 = 0
            ∧ (scan_fibers E D g).min_fiber_length = chord_length E D g ix iy) := by
  have hrange : ∀ (n : Int) (i : Nat), i ∈ List.range n.toNat ↔ (i : Int) < n := by
    intro n i
    rw [List.mem_range, Int.lt_toNat]
  have hcap : (scan_fibers E D g).min_fiber_length ≤ g.pDz * E.cm * 4 :=
    foldl_le_init (fun s : ScanState α => s.min_fiber_length) _ _ _
      (fun st ix => scan_row_min_le E D g ix st)
  have hlow : ∀ ix iy : Nat, (ix : Int) < g.NFiberX → (iy : Int) < g.NFiberY →
      (ix + iy) % 2 = 0 → (scan_fibers E D g).min_fiber_length ≤ chord_length E D g ix iy := by
    intro ix iy hx hy hk
    exact foldl_le_of_mem (fun s : ScanState α => s.min_fiber_length) _
      (fun ix => chord_length E D g ix iy) (fun ix => (ix + iy) % 2 = 0) _ _
      (fun st ix1 => scan_row_min_le E D g ix1 st)
      (fun st ix1 hk1 => scan_row_min_le_chord E D g ix1 iy st ((hrange _ _).2 hy) hk1)
      ix ((hrange _ _).2 hx) hk
  have hatt : (scan_fibers E D g).min_fiber_length = g.pDz * E.cm * 4
      ∨ ∃ ix iy : Nat, (ix : Int) < g.NFiberX ∧ (iy : Int) < g.NFiberY ∧ (ix + iy) % 2 = 0
          ∧ (scan_fibers E D g).min_fiber_length = chord_length E D g ix iy := by
    unfold scan_fibers
    apply foldl_invariant_mem
      (fun s : ScanState α => s.min_fiber_length = g.pDz * E.cm * 4
        ∨ ∃ ix iy : Nat, (ix : Int) < g.NFiberX ∧ (iy : Int) < g.NFiberY ∧ (ix + iy) % 2 = 0
            ∧ s.min_fiber_length = chord_length E D g ix iy)
    · exact Or.inl rfl
    · intro st ix hx hst
      rcases scan_row_min_attained E D g ix st with h | ⟨iy, hy, hk, h⟩
      · show (scan_row E D g ix st).min_fiber_length = _ ∨ _
        rw [h]
        exact hst
      · exact Or.inr ⟨ix, iy, (hrange _ _).1 hx, (hrange _ _).1 hy, hk, h⟩
  exact ⟨hcap, hlow, hatt⟩

/-- C6 (amended): the common fiber length of
`Construct_Fibers_SameLengthFiberPerTower`, `min_fiber_length` after the scan
loops (the length handed to `Construct_Fiber` and used to rescale every
fiber), is the minimum of its initial value `4 * pDz * cm` and of the chord
lengths of all kept cells of the tower.  It is the minimum chord length over
the kept cells as soon as one kept cell has a chord of length at most
`4 * pDz * cm`. -/
theorem common_length_is_capped_minimum (E : MathEnv α) (D : Detector α) (g : geom_tower α) :
    (scan_fibers E D g).min_fiber_length ≤ g.pDz * E.cm * 4
    ∧ (∀ ix iy : Nat, (ix : Int) < g.NFiberX → (iy : Int) < g.NFiberY → (ix + iy) % 2 = 0 →
        (scan_fibers E D g).min_fiber_length ≤ chord_length E D g ix iy)
    ∧ ((scan_fibers E D g).min_fiber_length = g.pDz * E.cm * 4
        ∨ ∃ ix iy : Nat, (ix : Int) < g.NFiberX ∧ (iy : Int) < g.NFiberY ∧ (ix + iy) % 2 = 0
            ∧ (scan_fibers E D g).min_fiber_length = chord_length E D g ix iy)
    ∧ ((∃ ix iy : Nat, (ix : Int) < g.NFiberX ∧ (iy : Int) < g.NFiberY ∧ (ix + iy) % 2 = 0
          ∧ chord_length E D g ix iy ≤ g.pDz * E.cm * 4) →
        ∃ ix iy : Nat, (ix : Int) < g.NFiberX ∧ (iy : Int) < g.NFiberY ∧ (ix + iy) % 2 = 0
          ∧ (scan_fibers E D g).min_fiber_length = chord_length E D g ix iy) := by
  obtain ⟨hcap, hlow, hatt⟩ := scan_fibers_min_spec E D g
  refine ⟨hcap, hlow, hatt, ?_⟩
  rintro ⟨ix, iy, hx, hy, hk, hle⟩
  rcases hatt with h | h
  · exact ⟨ix, iy, hx, hy, hk, le_antisymm (hlow ix iy hx hy hk) (h ▸ hle)⟩
  · exact h

end CommonLength

section SampleTowers

theorem real_sqrt_of_sq (x a : ℝ) (ha : 0 ≤ a) (hx : x = a * a) : Real.sqrt x = a := by
  rw [hx]
  exact Real.sqrt_mul_self ha

theorem real_sqrt_169 : Real.sqrt 169 = 13 :=
  real_sqrt_of_sq _ 13 (by norm_num) (by norm_num)

theorem flared_chord_00 :
    (fiber_chord realEnv (1 / 10) flaredTower 0 0).1 = G4Vector3D.mk (-(1548 / 13)) 0 (645 / 13) := by
  simp [fiber_chord, chord_ends, v_zshift, flaredTower, straightTower, realEnv,
    G4Vector3D.sub, G4Vector3D.add, G4Vector3D.scale, G4Vector3D.mag, G4Vector3D.mag2]
  norm_num [real_sqrt_169]

theorem flared_chord_11 :
    (fiber_chord realEnv (1 / 10) flaredTower 1 1).1 = G4Vector3D.mk (1548 / 13) 0 (645 / 13) := by
  simp [fiber_chord, chord_ends, v_zshift, flaredTower, straightTower, realEnv,
    G4Vector3D.sub, G4Vector3D.add, G4Vector3D.scale, G4Vector3D.mag, G4Vector3D.mag2]
  norm_num [real_sqrt_169]

theorem flared_chord_length_00 : chord_length realEnv sampleDetector flaredTower 0 0 = 129 := by
  have h : sampleDetector.geom.fiber_outer_r = 1 / 10 := rfl
  unfold chord_length
  rw [h, flared_chord_00]
  apply real_sqrt_of_sq _ 129 (by norm_num)
  simp [G4Vector3D.mag2]
  norm_num

theorem flared_chord_length_11 : chord_length realEnv sampleDetector flaredTower 1 1 = 129 := by
  have h : sampleDetector.geom.fiber_outer_r = 1 / 10 := rfl
  unfold chord_length
  rw [h, flared_chord_11]
  apply real_sqrt_of_sq _ 129 (by norm_num)
  simp [G4Vector3D.mag2]
  norm_num

theorem flared_kept_cells (ix iy : Nat) (hx : (ix : Int) < flaredTower.NFiberX)
    (hy : (iy : Int) < flaredTower.NFiberY) (hk : (ix + iy) % 2 = 0) :
    chord_length realEnv sampleDetector flaredTower ix iy = 129 := by
  have hx2 : ix < 2 := by
    have : (ix : Int) < 2 := hx
    omega
  have hy2 : iy < 2 := by
    have : (iy : Int) < 2 := hy
    omega
  interval_cases ix <;> interval_cases iy
  · exact flared_chord_length_00
  · omega
  · omega
  · exact flared_chord_length_11

theorem flared_min_fiber_length :
    (scan_fibers realEnv sampleDetector flaredTower).min_fiber_length = 100 := by
  obtain ⟨hcap, _, hatt⟩ := scan_fibers_min_spec realEnv sampleDetector flaredTower
  have h100 : flaredTower.pDz * realEnv.cm * 4 = 100 := by
    simp [flaredTower, realEnv]
    norm_num
  rw [h100] at hcap hatt
  rcases hatt with h | ⟨ix, iy, hx, hy, hk, h⟩
  · exact h
  · rw [flared_kept_cells ix iy hx hy hk] at h
    rw [h] at hcap
    norm_num at hcap

end SampleTowers

/-- C6 as stated fails: the flared tower has kept cells, all with chord
length 129, and its common fiber length is the initial value
`4 * pDz * cm = 100` of `min_fiber_length`, not the minimum chord length. -/
theorem flared_tower_counterexample :
    ((0 : Nat) : Int) < flaredTower.NFiberX ∧ ((0 : Nat) : Int) < flaredTower.NFiberY
    ∧ (∀ ix iy : Nat, (ix : Int) < flaredTower.NFiberX → (iy : Int) < flaredTower.NFiberY →
        (ix + iy) % 2 = 0 → chord_length realEnv sampleDetector flaredTower ix iy = 129)
    ∧ (scan_fibers realEnv sampleDetector flaredTower).min_fiber_length = 100
    ∧ ¬ ∃ ix iy : Nat, (ix : Int) < flaredTower.NFiberX ∧ (iy : Int) < flaredTower.NFiberY
        ∧ (ix + iy) % 2 = 0
        ∧ (scan_fibers realEnv sampleDetector flaredTower).min_fiber_length
            = chord_length realEnv sampleDetector flaredTower ix iy := by
  refine ⟨by simp [flaredTower, straightTower], by simp [flaredTower, straightTower],
    flared_kept_cells, flared_min_fiber_length, ?_⟩
  rintro ⟨ix, iy, hx, hy, hk, h⟩
  rw [flared_kept_cells ix iy hx hy hk, flared_min_fiber_length] at h
  norm_num at h

/-! ### Rescaling to the common length (C7) -/

section Rescaling

variable {α : Type} [LinearOrderedField α]

theorem mag2_nonneg (v : G4Vector3D α) : 0 ≤ G4Vector3D.mag2 v := by
  unfold G4Vector3D.mag2
  nlinarith [mul_self_nonneg v.x, mul_self_nonneg v.y, mul_self_nonneg v.z]

theorem mag_nonneg (E : MathEnv α) (hE : SqrtLaws E) (v : G4Vector3D α) : 0 ≤ v.mag E :=
  hE.sqrt_nonneg _

/-- The length of a multiple of a vector. -/
theorem mag_scale (E : MathEnv α) (hE : SqrtLaws E) (v : G4Vector3D α) (k : α) :
    (v.scale k).mag E = |k| * v.mag E := by
  have h2 : G4Vector3D.mag2 (v.scale k) = (k * k) * G4Vector3D.mag2 v := by
    simp only [G4Vector3D.mag2, G4Vector3D.scale]
    ring
  have hm := mag2_nonneg v
  have hkm : 0 ≤ (k * k) * G4Vector3D.mag2 v := mul_nonneg (mul_self_nonneg k) hm
  unfold G4Vector3D.mag
  rw [h2]
  rw [← mul_self_inj_of_nonneg (hE.sqrt_nonneg _)
    (mul_nonneg (abs_nonneg k) (hE.sqrt_nonneg _))]
  rw [hE.mul_self_sqrt _ hkm]
  have : |k| * E.sqrt (G4Vector3D.mag2 v) * (|k| * E.sqrt (G4Vector3D.mag2 v))
      = (|k| * |k|) * (E.sqrt (G4Vector3D.mag2 v) * E.sqrt (G4Vector3D.mag2 v)) := by ring
  rw [this, hE.mul_self_sqrt _ hm, abs_mul_abs_self]

/-- With `pDz ≥ 0` the common fiber length is not negative. -/
theorem common_length_nonneg (E : MathEnv α) (hE : SqrtLaws E) (hcm : 0 ≤ E.cm)
    (D : Detector α) (g : geom_tower α) (hDz : 0 ≤ g.pDz) :
    0 ≤ (scan_fibers E D g).min_fiber_length := by
  rcases (scan_fibers_min_spec E D g).2.2 with h | ⟨ix, iy, _, _, _, h⟩
  · rw [h]
    positivity
  · rw [h]
    exact hE.sqrt_nonneg _

/-- For a 2 by 2 grid with fiber id `2 * ix + iy` the map `fiber_par` holds
the chords of the cells `(0, 0)` and `(1, 1)` under the ids 0 and 3. -/
theorem scan_fibers_two_by_two (E : MathEnv α) (D : Detector α) (g : geom_tower α)
    (hx : g.NFiberX = 2) (hy : g.NFiberY = 2)
    (hid : g.compose_fiber_id = fun ix iy => 2 * ix + iy) :
    (scan_fibers E D g).fiber_par
      = [(0, fiber_chord E D.geom.fiber_outer_r g 0 0),
         (3, fiber_chord E D.geom.fiber_outer_r g 1 1)] := by
  simp [scan_fibers, scan_row, scan_cell, hx, hy, hid, List.range_succ, map_insert]

end Rescaling

section RealRescaling

/-- The real square root has the properties the statements use. -/
theorem real_sqrt_laws : SqrtLaws realEnv where
  sqrt_nonneg := fun x => Real.sqrt_nonneg x
  mul_self_sqrt := fun _ hx => Real.mul_self_sqrt hx

theorem straight_chord_00 :
    fiber_chord realEnv (1 / 10) straightTower 0 0
      = (G4Vector3D.mk 0 0 129, G4Vector3D.mk (-10) (-10) 0) := by
  simp [fiber_chord, chord_ends, v_zshift, straightTower, realEnv,
    G4Vector3D.sub, G4Vector3D.add, G4Vector3D.scale, G4Vector3D.sdiv, G4Vector3D.mag,
    G4Vector3D.mag2]
  norm_num [real_sqrt_169]

theorem straight_chord_11 :
    fiber_chord realEnv (1 / 10) straightTower 1 1
      = (G4Vector3D.mk 0 0 129, G4Vector3D.mk 10 10 0) := by
  simp [fiber_chord, chord_ends, v_zshift, straightTower, realEnv,
    G4Vector3D.sub, G4Vector3D.add, G4Vector3D.scale, G4Vector3D.sdiv, G4Vector3D.mag,
    G4Vector3D.mag2]
  norm_num [real_sqrt_169]

theorem real_mag_z (c : ℝ) : (G4Vector3D.mk 0 0 c).mag realEnv = |c| := by
  show Real.sqrt (G4Vector3D.mag2 (G4Vector3D.mk 0 0 c)) = |c|
  simp [G4Vector3D.mag2, Real.sqrt_mul_self_eq_abs]

theorem two_by_two_kept (ix iy : Nat) (hx : (ix : Int) < 2) (hy : (iy : Int) < 2)
    (hk : (ix + iy) % 2 = 0) : (ix = 0 ∧ iy = 0) ∨ (ix = 1 ∧ iy = 1) := by
  omega

theorem straight_min_fiber_length :
    (scan_fibers realEnv sampleDetector straightTower).min_fiber_length = 129 := by
  obtain ⟨hcap, hlow, hatt⟩ := scan_fibers_min_spec realEnv sampleDetector straightTower
  have h0 : chord_length realEnv sampleDetector straightTower 0 0 = 129 := by
    have h : sampleDetector.geom.fiber_outer_r = 1 / 10 := rfl
    unfold chord_length
    rw [h, straight_chord_00, real_mag_z]
    norm_num
  have h1 : chord_length realEnv sampleDetector straightTower 1 1 = 129 := by
    have h : sampleDetector.geom.fiber_outer_r = 1 / 10 := rfl
    unfold chord_length
    rw [h, straight_chord_11, real_mag_z]
    norm_num
  have hle := hlow 0 0 (by simp [straightTower]) (by simp [straightTower]) (by norm_num)
  rw [h0] at hle
  rcases hatt with h | ⟨ix, iy, hx, hy, hk, h⟩
  · have h260 : straightTower.pDz * realEnv.cm * 4 = 260 := by
      simp [straightTower, realEnv]
      norm_num
    rw [h260] at h
    rw [h] at hle
    norm_num at hle
  · rcases two_by_two_kept ix iy hx hy hk with ⟨rfl, rfl⟩ | ⟨rfl, rfl⟩
    · rw [h, h0]
    · rw [h, h1]

end RealRescaling

theorem straight_chord_length_00 :
    chord_length realEnv sampleDetector straightTower 0 0 = 129 := by
  have h : sampleDetector.geom.fiber_outer_r = 1 / 10 := rfl
  unfold chord_length
  rw [h, straight_chord_00, real_mag_z]
  norm_num

/-- C6 (amended) at the straight tower over the reals, whose chords are
shorter than `4 * pDz * cm`: the common length is a chord length. -/
theorem common_length_is_capped_minimum_witness :
    ∃ ix iy : Nat, (ix : Int) < straightTower.NFiberX ∧ (iy : Int) < straightTower.NFiberY
      ∧ (ix + iy) % 2 = 0
      ∧ (scan_fibers realEnv sampleDetector straightTower).min_fiber_length
          = chord_length realEnv sampleDetector straightTower ix iy :=
  (common_length_is_capped_minimum realEnv sampleDetector straightTower).2.2.2
    ⟨0, 0, by simp [straightTower], by simp [straightTower], by norm_num, by
      rw [straight_chord_length_00]
      norm_num [straightTower, realEnv]⟩

/-! ### The average fiber length cut (C8) -/

section AverageCut

variable {α : Type} [LinearOrderedField α]

/-- With every assertion of its body true, the placement loop returns, having
registered one placement, counted one fiber and recorded one cut for each
entry in turn. -/
theorem same_length_loop_done (E : MathEnv α) (D : Detector α) (g : geom_tower α)
    (LV_tower : String) (fiber_length : α) (hg : D.gdml_config = true)
    (l : List (Int × (G4Vector3D α × G4Vector3D α)))
    (hl : ∀ val ∈ l, 0 ≤ val.2.1.mag E - fiber_length) (st : PlaceState α) :
    Run.loop (same_length_body E D g LV_tower fiber_length) l st
      = Run.done
          { regs :=
              { calo_vol := st.regs.calo_vol
                block_vol := st.regs.block_vol
                fiber_vol := st.regs.fiber_vol
                  ++ l.map (fun val => (same_length_physi E D g LV_tower fiber_length val, val.1))
                gdml_excluded := st.regs.gdml_excluded
                  ++ l.map (fun val => same_length_physi E D g LV_tower fiber_length val) }
            fiber_count := st.fiber_count + (l.length : Int)
            fiber_cut := st.fiber_cut ++ l.map (fun val => val.2.1.mag E - fiber_length) } () := by
  induction l generalizing st with
  | nil => simp [Run.loop]
  | cons a t ih =>
    have ha : 0 ≤ a.2.1.mag E - fiber_length := hl a (List.mem_cons_self _ _)
    have ht : ∀ val ∈ t, 0 ≤ val.2.1.mag E - fiber_length :=
      fun val hval => hl val (List.mem_cons_of_mem _ hval)
    simp only [Run.loop, same_length_body, ha, hg, not_true_eq_false, if_false]
    rw [ih ht]
    simp [add_assoc, add_comm]

end AverageCut

section Packing

variable {α : Type} [LinearOrderedField α]

/-- With `gdml_config` set, the inner loop of `Construct_Fibers` returns,
having placed one fiber for each cell of the row with an even index sum. -/
theorem exact_row_done (E : MathEnv α) (D : Detector α) (g : geom_tower α) (LV_tower : String)
    (hg : D.gdml_config = true) (ix : Nat) (ys : List Nat) (st : CountState α) :
    Run.loop (exact_length_body E D g LV_tower ix) ys st
      = Run.done
          { regs :=
              { calo_vol := st.regs.calo_vol
                block_vol := st.regs.block_vol
                fiber_vol := st.regs.fiber_vol
                  ++ (kept_cells [ix] ys).map (fun c =>
                    (exact_length_physi E D g LV_tower c.1 c.2,
                      g.compose_fiber_id (c.1 : Int) (c.2 : Int)))
                gdml_excluded := st.regs.gdml_excluded
                  ++ (kept_cells [ix] ys).map (fun c => exact_length_physi E D g LV_tower c.1 c.2) }
            fiber_cnt := st.fiber_cnt + ((kept_cells [ix] ys).length : Int) } () := by
  induction ys generalizing st with
  | nil => simp [Run.loop, kept_cells]
  | cons a t ih =>
    by_cases hodd : (ix + a) % 2 = 1
    · have hne : ¬ (ix + a) % 2 = 0 := by omega
      simp only [Run.loop, exact_length_body, hodd, if_true]
      rw [ih]
      simp [kept_cells, List.filter_cons, hne]
    · have hev : (ix + a) % 2 = 0 := by omega
      simp only [Run.loop, exact_length_body, hodd, hg, not_true_eq_false, if_false]
      rw [ih]
      simp [kept_cells, List.filter_cons, hev, add_assoc, add_comm]

theorem kept_cells_cons (ix : Nat) (xs ys : List Nat) :
    kept_cells (ix :: xs) ys = kept_cells [ix] ys ++ kept_cells xs ys := by
  simp [kept_cells]

/-- With `gdml_config` set, the loops of `Construct_Fibers` return, having
placed one fiber for each cell with an even index sum. -/
theorem exact_grid_done (E : MathEnv α) (D : Detector α) (g : geom_tower α) (LV_tower : String)
    (hg : D.gdml_config = true) (xs ys : List Nat) (st : CountState α) :
    Run.loop (fun ix st1 => Run.loop (exact_length_body E D g LV_tower ix) ys st1) xs st
      = Run.done
          { regs :=
              { calo_vol := st.regs.calo_vol
                block_vol := st.regs.block_vol
                fiber_vol := st.regs.fiber_vol
                  ++ (kept_cells xs ys).map (fun c =>
                    (exact_length_physi E D g LV_tower c.1 c.2,
                      g.compose_fiber_id (c.1 : Int) (c.2 : Int)))
                gdml_excluded := st.regs.gdml_excluded
                  ++ (kept_cells xs ys).map (fun c => exact_length_physi E D g LV_tower c.1 c.2) }
            fiber_cnt := st.fiber_cnt + ((kept_cells xs ys).length : Int) } () := by
  induction xs generalizing st with
  | nil => simp [Run.loop, kept_cells]
  | cons a t ih =>
    simp only [Run.loop]
    rw [exact_row_done E D g LV_tower hg a ys st]
    dsimp only
    rw [ih, kept_cells_cons a t ys]
    simp [add_assoc]

theorem mem_kept_cells (xs ys : List Nat) (ix iy : Nat) :
    (ix, iy) ∈ kept_cells xs ys ↔ ix ∈ xs ∧ iy ∈ ys ∧ (ix + iy) % 2 = 0 := by
  simp only [kept_cells, List.mem_flatMap, List.mem_map, List.mem_filter, decide_eq_true_eq,
    Prod.mk.injEq]
  constructor
  · rintro ⟨a, ha, b, ⟨hb, hk⟩, rfl, rfl⟩
    exact ⟨ha, hb, hk⟩
  · rintro ⟨hx, hy, hk⟩
    exact ⟨ix, hx, iy, ⟨hy, hk⟩, rfl, rfl⟩

theorem nodup_kept_cells (xs ys : List Nat) (hxs : xs.Nodup) (hys : ys.Nodup) :
    (kept_cells xs ys).Nodup := by
  unfold kept_cells
  rw [List.nodup_flatMap]
  constructor
  · intro ix _
    apply List.Nodup.map
    · intro a b hab
      exact (Prod.mk.inj hab).2
    · exact hys.filter _
  · apply List.Pairwise.imp _ hxs
    intro a b hab
    rw [Function.onFun, List.disjoint_left]
    intro c hca hcb
    simp only [List.mem_map] at hca hcb
    obtain ⟨_, _, rfl⟩ := hca
    obtain ⟨_, _, h⟩ := hcb
    exact hab (Prod.mk.inj h).1.symm

/-- Number of cells with an even index sum in one row. -/
theorem length_kept_row (ix n : Nat) :
    (kept_cells [ix] (List.range n)).length = (n + 1 - ix % 2) / 2 := by
  induction n with
  | zero =>
    simp [kept_cells]
    omega
  | succ k ih =>
    simp only [kept_cells, List.flatMap_cons, List.flatMap_nil, List.append_nil,
      List.length_map] at ih ⊢
    rw [List.range_succ, List.filter_append, List.length_append, ih]
    by_cases hk : (ix + k) % 2 = 0
    · simp [List.filter_cons, hk]
      omega
    · simp [List.filter_cons, hk]
      omega

/-- Number of cells with an even index sum in the first `k` rows of width `n`. -/
theorem length_kept_cells (k n : Nat) :
    (kept_cells (List.range k) (List.range n)).length = (k * n + 1) / 2 := by
  induction k with
  | zero => simp [kept_cells]
  | succ j ih =>
    have happ : kept_cells (List.range (j + 1)) (List.range n)
        = kept_cells (List.range j) (List.range n) ++ kept_cells [j] (List.range n) := by
      simp [kept_cells, List.range_succ, List.flatMap_append]
    rw [happ, List.length_append, ih, length_kept_row, Nat.succ_mul]
    have hp : (j * n) % 2 = ((j % 2) * (n % 2)) % 2 := Nat.mul_mod j n 2
    generalize j * n = p at hp ⊢
    rcases Nat.mod_two_eq_zero_or_one j with hj | hj <;>
      rcases Nat.mod_two_eq_zero_or_one n with hn | hn <;>
      rw [hj, hn] at hp <;> simp at hp <;> omega

/-- For a natural number `n`, `ceil(n / 2) = (n + 1) / 2`. -/
theorem ceil_half (n : Nat) : ⌈((n : ℚ)) / 2⌉ = (((n + 1) / 2 : Nat) : Int) := by
  rw [Int.ceil_eq_iff]
  rcases Nat.even_or_odd' n with ⟨m, hm | hm⟩
  · have h1 : (n + 1) / 2 = m := by omega
    rw [h1, hm]
    push_cast
    constructor <;> linarith
  · have h1 : (n + 1) / 2 = m + 1 := by omega
    rw [h1, hm]
    push_cast
    constructor <;> linarith

/-- C9: triangular packing.  For every tower with `NFiberX, NFiberY ≥ 2`
(and `gdml_config` set, the assertion of the loop), `Construct_Fibers`
returns, having placed and registered exactly one fiber for each grid cell
`(ix, iy)` of `[0, NFiberX) × [0, NFiberY)` with `(ix + iy) mod 2 = 0` and none
for another cell, and the fiber count it returns is
`ceil(NFiberX * NFiberY / 2)`. -/
theorem triangular_packing (E : MathEnv α) (D : Detector α) (g : geom_tower α)
    (LV_tower : String) (regs : Registries α) (hx : 2 ≤ g.NFiberX) (hy : 2 ≤ g.NFiberY)
    (hg : D.gdml_config = true) :
    ∃ (st : Registries α) (cells : List (Nat × Nat)),
      Construct_Fibers E D g LV_tower regs
        = Run.done st ⌈(((g.NFiberX * g.NFiberY : Int) : ℚ)) / 2⌉
      ∧ st.fiber_vol = regs.fiber_vol ++ cells.map (fun c =>
          (exact_length_physi E D g LV_tower c.1 c.2, g.compose_fiber_id (c.1 : Int) (c.2 : Int)))
      ∧ cells.Nodup
      ∧ (∀ ix iy : Nat, (ix, iy) ∈ cells ↔
          ((ix : Int) < g.NFiberX ∧ (iy : Int) < g.NFiberY ∧ (ix + iy) % 2 = 0))
      ∧ (cells.length : Int) = ⌈(((g.NFiberX * g.NFiberY : Int) : ℚ)) / 2⌉ := by
  have hcount : ((kept_cells (List.range g.NFiberX.toNat) (List.range g.NFiberY.toNat)).length
      : Int) = ⌈(((g.NFiberX * g.NFiberY : Int) : ℚ)) / 2⌉ := by
    rw [length_kept_cells, ← ceil_half]
    have h1 : ((g.NFiberX.toNat : Int)) = g.NFiberX := Int.toNat_of_nonneg (by omega)
    have h2 : ((g.NFiberY.toNat : Int)) = g.NFiberY := Int.toNat_of_nonneg (by omega)
    have h3 : ((g.NFiberX.toNat * g.NFiberY.toNat : Nat) : ℚ)
        = (((g.NFiberX * g.NFiberY : Int)) : ℚ) := by
      have h3i : ((g.NFiberX.toNat * g.NFiberY.toNat : Nat) : Int)
          = g.NFiberX * g.NFiberY := by
        push_cast
        rw [h1, h2]
      rw [← h3i]
      norm_cast
    rw [h3]
  refine ⟨{ calo_vol := regs.calo_vol
            block_vol := regs.block_vol
            fiber_vol := regs.fiber_vol
              ++ (kept_cells (List.range g.NFiberX.toNat) (List.range g.NFiberY.toNat)).map
                (fun c => (exact_length_physi E D g LV_tower c.1 c.2,
                  g.compose_fiber_id (c.1 : Int) (c.2 : Int)))
            gdml_excluded := regs.gdml_excluded
              ++ (kept_cells (List.range g.NFiberX.toNat) (List.range g.NFiberY.toNat)).map
                (fun c => exact_length_physi E D g LV_tower c.1 c.2) },
    kept_cells (List.range g.NFiberX.toNat) (List.range g.NFiberY.toNat), ?_, rfl,
    nodup_kept_cells _ _ (List.nodup_range _) (List.nodup_range _), ?_, hcount⟩
  · simp only [Construct_Fibers,
      exact_grid_done E D g LV_tower hg (List.range g.NFiberX.toNat)
        (List.range g.NFiberY.toNat) { regs := regs, fiber_cnt := 0 }]
    rw [← hcount]
    simp
  · intro ix iy
    rw [mem_kept_cells, List.mem_range, List.mem_range, Int.lt_toNat, Int.lt_toNat]

end Packing

/-- C9 at the straight tower over the reals: a 2 by 2 grid gets two fibers. -/
theorem triangular_packing_witness :
    ∃ (st : Registries ℝ) (cells : List (Nat × Nat)),
      Construct_Fibers realEnv sampleDetector straightTower "CEMC_Tower_7" (emptyRegistries ℝ)
        = Run.done st ⌈(((straightTower.NFiberX * straightTower.NFiberY : Int) : ℚ)) / 2⌉
      ∧ st.fiber_vol = (emptyRegistries ℝ).fiber_vol ++ cells.map (fun c =>
          (exact_length_physi realEnv sampleDetector straightTower "CEMC_Tower_7" c.1 c.2,
            straightTower.compose_fiber_id (c.1 : Int) (c.2 : Int)))
      ∧ cells.Nodup
      ∧ (∀ ix iy : Nat, (ix, iy) ∈ cells ↔
          ((ix : Int) < straightTower.NFiberX ∧ (iy : Int) < straightTower.NFiberY
            ∧ (ix + iy) % 2 = 0))
      ∧ (cells.length : Int)
          = ⌈(((straightTower.NFiberX * straightTower.NFiberY : Int) : ℚ)) / 2⌉ :=
  triangular_packing realEnv sampleDetector straightTower "CEMC_Tower_7" (emptyRegistries ℝ)
    (by simp [straightTower]) (by simp [straightTower]) rfl

/-! ### Frames of the registries -/

theorem fiberFrame_refl {α : Type} (a : Registries α) : FiberFrame a a :=
  ⟨rfl, rfl, [], by simp⟩

theorem fiberFrame_trans {α : Type} {a b c : Registries α} (h1 : FiberFrame a b) (h2 : FiberFrame b c) :
    FiberFrame a c := by
  obtain ⟨hc1, hb1, e1, hf1⟩ := h1
  obtain ⟨hc2, hb2, e2, hf2⟩ := h2
  exact ⟨hc2.trans hc1, hb2.trans hb1, e1 ++ e2, by rw [hf2, hf1, List.append_assoc]⟩

theorem towerFrame_refl {α : Type} (a : Registries α) : TowerFrame a a :=
  ⟨rfl, ⟨[], by simp⟩, [], by simp⟩

theorem towerFrame_trans {α : Type} {a b c : Registries α} (h1 : TowerFrame a b) (h2 : TowerFrame b c) :
    TowerFrame a c := by
  obtain ⟨hc1, ⟨b1, hb1⟩, e1, hf1⟩ := h1
  obtain ⟨hc2, ⟨b2, hb2⟩, e2, hf2⟩ := h2
  exact ⟨hc2.trans hc1, ⟨b1 ++ b2, by rw [hb2, hb1, List.append_assoc]⟩,
    e1 ++ e2, by rw [hf2, hf1, List.append_assoc]⟩

section Frames
variable {α : Type} [LinearOrderedField α]

/-- A relation between states that every step of a loop respects holds
between the state before the loop and the state it ends in. -/
theorem Run.loop_state_rel {ι σ : Type} (R : σ → σ → Prop) (hrefl : ∀ s, R s s)
    (htrans : ∀ a b c, R a b → R b c → R a c) (body : ι → σ → Run σ Unit)
    (hbody : ∀ i st, R st (body i st).state) (l : List ι) (st : σ) :
    R st (Run.loop body l st).state := by
  induction l generalizing st with
  | nil => exact hrefl st
  | cons i rest ih =>
    have hb := hbody i st
    simp only [Run.loop]
    cases hrun : body i st with
    | done st1 v =>
      rw [hrun] at hb
      exact htrans _ _ _ hb (ih st1)
    | fatal st1 =>
      rw [hrun] at hb
      exact hb

theorem same_length_body_frame (E : MathEnv α) (D : Detector α) (g : geom_tower α)
    (LV_tower : String) (fiber_length : α) (val : Int × (G4Vector3D α × G4Vector3D α))
    (st : PlaceState α) :
    FiberFrame st.regs (same_length_body E D g LV_tower fiber_length val st).state.regs := by
  by_cases h1 : 0 ≤ val.2.1.mag E - fiber_length
  · by_cases h2 : D.gdml_config = true
    · simp only [same_length_body, h1, h2, not_true_eq_false, if_false, Run.state]
      exact ⟨rfl, rfl, _, rfl⟩
    · simp only [same_length_body, h1, h2, not_true_eq_false, not_false_eq_true, if_false,
        if_true, Run.state]
      exact ⟨rfl, rfl, _, rfl⟩
  · simp only [same_length_body, h1, not_false_eq_true, if_true, Run.state]
    exact fiberFrame_refl _

theorem exact_length_body_frame (E : MathEnv α) (D : Detector α) (g : geom_tower α)
    (LV_tower : String) (ix iy : Nat) (st : CountState α) :
    FiberFrame st.regs (exact_length_body E D g LV_tower ix iy st).state.regs := by
  by_cases h1 : (ix + iy) % 2 = 1
  · simp only [exact_length_body, h1, if_true, Run.state]
    exact fiberFrame_refl _
  · by_cases h2 : D.gdml_config = true
    · simp only [exact_length_body, h1, h2, not_true_eq_false, if_false, Run.state]
      exact ⟨rfl, rfl, _, rfl⟩
    · simp only [exact_length_body, h1, h2, not_false_eq_true, if_false, if_true, Run.state]
      exact ⟨rfl, rfl, _, rfl⟩

theorem Construct_Fibers_SameLengthFiberPerTower_frame (E : MathEnv α) (D : Detector α)
    (g : geom_tower α) (LV_tower : String) (regs : Registries α) :
    FiberFrame regs (Construct_Fibers_SameLengthFiberPerTower E D g LV_tower regs).state := by
  have h := Run.loop_state_rel (fun a b : PlaceState α => FiberFrame a.regs b.regs)
    (fun s => fiberFrame_refl _) (fun _ _ _ h1 h2 => fiberFrame_trans h1 h2)
    (same_length_body E D g LV_tower (scan_fibers E D g).min_fiber_length)
    (same_length_body_frame E D g LV_tower _) (scan_fibers E D g).fiber_par
    { regs := regs, fiber_count := 0, fiber_cut := [] }
  unfold Construct_Fibers_SameLengthFiberPerTower
  cases hrun : Run.loop (same_length_body E D g LV_tower (scan_fibers E D g).min_fiber_length)
      (scan_fibers E D g).fiber_par { regs := regs, fiber_count := 0, fiber_cut := [] } with
  | done st v => rw [hrun] at h; simpa [hrun, Run.state] using h
  | fatal st => rw [hrun] at h; simpa [hrun, Run.state] using h

theorem Construct_Fibers_frame (E : MathEnv α) (D : Detector α) (g : geom_tower α)
    (LV_tower : String) (regs : Registries α) :
    FiberFrame regs (Construct_Fibers E D g LV_tower regs).state := by
  have hrow : ∀ (ix : Nat) (st : CountState α), FiberFrame st.regs
      (Run.loop (exact_length_body E D g LV_tower ix) (List.range g.NFiberY.toNat) st).state.regs :=
    fun ix st => Run.loop_state_rel (fun a b : CountState α => FiberFrame a.regs b.regs)
      (fun s => fiberFrame_refl _) (fun _ _ _ h1 h2 => fiberFrame_trans h1 h2)
      (exact_length_body E D g LV_tower ix) (exact_length_body_frame E D g LV_tower ix) _ st
  have h := Run.loop_state_rel (fun a b : CountState α => FiberFrame a.regs b.regs)
    (fun s => fiberFrame_refl _) (fun _ _ _ h1 h2 => fiberFrame_trans h1 h2)
    (fun ix st => Run.loop (exact_length_body E D g LV_tower ix) (List.range g.NFiberY.toNat) st)
    hrow (List.range g.NFiberX.toNat) { regs := regs, fiber_cnt := 0 }
  unfold Construct_Fibers
  cases hrun : Run.loop
      (fun ix st => Run.loop (exact_length_body E D g LV_tower ix) (List.range g.NFiberY.toNat) st)
      (List.range g.NFiberX.toNat) { regs := regs, fiber_cnt := 0 } with
  | done st v => rw [hrun] at h; simpa [hrun, Run.state] using h
  | fatal st => rw [hrun] at h; simpa [hrun, Run.state] using h

theorem Construct_Tower_no_material (E : MathEnv α) (D : Detector α) (g : geom_tower α)
    (regs : Registries α) (hmat : D.hasMaterial D.geom.absorber_mat = false) :
    Construct_Tower E D g regs = Run.fatal regs := by
  simp [Construct_Tower, hmat]

theorem Construct_Tower_other (E : MathEnv α) (D : Detector α) (g : geom_tower α)
    (regs : Registries α) (code : Int) (hcfg : D.geom.config = config_t.other code) :
    Construct_Tower E D g regs = Run.fatal regs := by
  simp [Construct_Tower, hcfg]

theorem Construct_Tower_tilted (E : MathEnv α) (D : Detector α) (g : geom_tower α)
    (regs : Registries α) (hmat : D.hasMaterial D.geom.absorber_mat = true)
    (hcfg : D.geom.config = config_t.kFullProjective_2DTaper_Tilted) :
    (∀ st, Construct_Fibers E D g (block_logic E D g).name regs = Run.fatal st →
        Construct_Tower E D g regs = Run.fatal st)
    ∧ (∀ st cnt, Construct_Fibers E D g (block_logic E D g).name regs = Run.done st cnt →
        Construct_Tower E D g regs = Run.done st (block_logic E D g)) := by
  constructor
  · intro st h
    simp [Construct_Tower, hmat, hcfg, h]
  · intro st cnt h
    simp [Construct_Tower, hmat, hcfg, h]

theorem Construct_Tower_same_length (E : MathEnv α) (D : Detector α) (g : geom_tower α)
    (regs : Registries α) (hmat : D.hasMaterial D.geom.absorber_mat = true)
    (hcfg : D.geom.config = config_t.kFullProjective_2DTaper_Tilted_SameLengthFiberPerTower) :
    (∀ st, Construct_Fibers_SameLengthFiberPerTower E D g (block_logic E D g).name regs
          = Run.fatal st →
        Construct_Tower E D g regs = Run.fatal st)
    ∧ (∀ st res, Construct_Fibers_SameLengthFiberPerTower E D g (block_logic E D g).name regs
          = Run.done st res →
        Construct_Tower E D g regs = Run.done st (block_logic E D g)) := by
  constructor
  · intro st h
    simp [Construct_Tower, hmat, hcfg, h]
  · intro st res h
    simp [Construct_Tower, hmat, hcfg, h]

/-- `Construct_Tower` leaves `calo_vol` and `block_vol` alone and only adds to
`fiber_vol`; a returned volume is `block_logic`. -/
theorem Construct_Tower_frame (E : MathEnv α) (D : Detector α) (g : geom_tower α)
    (regs : Registries α) :
    FiberFrame regs (Construct_Tower E D g regs).state
      ∧ ∀ st LV, Construct_Tower E D g regs = Run.done st LV → LV = block_logic E D g := by
  cases hmat : D.hasMaterial D.geom.absorber_mat with
  | false =>
    rw [Construct_Tower_no_material E D g regs hmat]
    exact ⟨fiberFrame_refl _, fun st LV h => by cases h⟩
  | true =>
    cases hcfg : D.geom.config with
    | kFullProjective_2DTaper_Tilted =>
      have h := Construct_Fibers_frame E D g (block_logic E D g).name regs
      cases hrun : Construct_Fibers E D g (block_logic E D g).name regs with
      | done st v =>
        rw [hrun] at h
        rw [(Construct_Tower_tilted E D g regs hmat hcfg).2 st v hrun]
        exact ⟨h, fun st1 LV heq => by cases heq; rfl⟩
      | fatal st =>
        rw [hrun] at h
        rw [(Construct_Tower_tilted E D g regs hmat hcfg).1 st hrun]
        exact ⟨h, fun st1 LV heq => by cases heq⟩
    | kFullProjective_2DTaper_Tilted_SameLengthFiberPerTower =>
      have h := Construct_Fibers_SameLengthFiberPerTower_frame E D g (block_logic E D g).name regs
      cases hrun : Construct_Fibers_SameLengthFiberPerTower E D g
          (block_logic E D g).name regs with
      | done st v =>
        rw [hrun] at h
        rw [(Construct_Tower_same_length E D g regs hmat hcfg).2 st v hrun]
        exact ⟨h, fun st1 LV heq => by cases heq; rfl⟩
      | fatal st =>
        rw [hrun] at h
        rw [(Construct_Tower_same_length E D g regs hmat hcfg).1 st hrun]
        exact ⟨h, fun st1 LV heq => by cases heq⟩
    | other code =>
      rw [Construct_Tower_other E D g regs code hcfg]
      exact ⟨fiberFrame_refl _, fun st LV h => by cases h⟩

/-- One step of the tower loop: a fatal stop of `Construct_Tower`, or its
return followed by one entry at the end of `block_vol`. -/
theorem tower_body_cases (E : MathEnv α) (D : Detector α) (d : SectorDims α)
    (val : Int × geom_tower α) (regs : Registries α) :
    (∃ st, Construct_Tower E D val.2 regs = Run.fatal st
        ∧ tower_body E D d val regs = Run.fatal st)
    ∨ (∃ st, Construct_Tower E D val.2 regs = Run.done st (block_logic E D val.2)
        ∧ tower_body E D d val regs
          = Run.done { st with block_vol := st.block_vol
              ++ [(block_phys E D d val.2 (block_logic E D val.2), val.2.id)] } ()) := by
  have hLV := (Construct_Tower_frame E D val.2 regs).2
  cases hrun : Construct_Tower E D val.2 regs with
  | fatal st =>
    left
    exact ⟨st, rfl, by simp [tower_body, hrun]⟩
  | done st LV =>
    right
    have h := hLV st LV hrun
    subst h
    exact ⟨st, rfl, by simp [tower_body, hrun]⟩

theorem tower_body_frame (E : MathEnv α) (D : Detector α) (d : SectorDims α)
    (val : Int × geom_tower α) (regs : Registries α) :
    TowerFrame regs (tower_body E D d val regs).state := by
  obtain ⟨hc, hb, e, hf⟩ := (Construct_Tower_frame E D val.2 regs).1
  rcases tower_body_cases E D d val regs with ⟨st, h1, h2⟩ | ⟨st, h1, h2⟩
  · rw [h1] at hc hb hf
    rw [h2]
    exact ⟨hc, ⟨[], by simp [Run.state] at hb ⊢; exact hb⟩, e, hf⟩
  · rw [h1] at hc hb hf
    rw [h2]
    simp only [Run.state] at hc hb hf ⊢
    exact ⟨hc, ⟨_, by rw [hb]⟩, e, hf⟩

theorem tower_loop_frame (E : MathEnv α) (D : Detector α) (d : SectorDims α)
    (l : List (Int × geom_tower α)) (regs : Registries α) :
    TowerFrame regs (Run.loop (tower_body E D d) l regs).state :=
  Run.loop_state_rel TowerFrame towerFrame_refl (fun _ _ _ h1 h2 => towerFrame_trans h1 h2)
    (tower_body E D d) (tower_body_frame E D d) l regs

/-- A tower loop that returns has added one entry to `block_vol` for each
entry of the map, in the order of the map. -/
theorem tower_loop_block_vol (E : MathEnv α) (D : Detector α) (d : SectorDims α)
    (l : List (Int × geom_tower α)) (regs st : Registries α)
    (h : Run.loop (tower_body E D d) l regs = Run.done st ()) :
    st.block_vol = regs.block_vol
      ++ l.map (fun val => (block_phys E D d val.2 (block_logic E D val.2), val.2.id)) := by
  induction l generalizing regs with
  | nil =>
    simp only [Run.loop] at h
    cases h
    simp
  | cons val rest ih =>
    have hb := (Construct_Tower_frame E D val.2 regs).1.2.1
    rcases tower_body_cases E D d val regs with ⟨st1, h1, h2⟩ | ⟨st1, h1, h2⟩
    · simp only [Run.loop, h2] at h
      cases h
    · simp only [Run.loop, h2] at h
      rw [h1] at hb
      simp only [Run.state] at hb
      rw [ih _ h]
      simp [hb]

theorem sector_checks_iff (E : MathEnv α) (D : Detector α) :
    sector_checks E D = true ↔
      4 < D.geom.azimuthal_n_sec ∧ enclosure_depth_assertion E (sector_dims E D.geom) = true
        ∧ D.hasMaterial "G4_AIR" = true ∧ D.hasMaterial D.geom.sidewall_mat = true := by
  simp [sector_checks, and_assoc]

/-- A failed check stops `Construct_AzimuthalSeg` with the registries untouched. -/
theorem Construct_AzimuthalSeg_checks_fail (E : MathEnv α) (D : Detector α)
    (regs : Registries α) (h : sector_checks E D = false) :
    Construct_AzimuthalSeg E D regs = Run.fatal regs := by
  have hn : ¬ (4 < D.geom.azimuthal_n_sec ∧ enclosure_depth_assertion E (sector_dims E D.geom) = true
      ∧ D.hasMaterial "G4_AIR" = true ∧ D.hasMaterial D.geom.sidewall_mat = true) := by
    rw [← sector_checks_iff, h]
    simp
  unfold Construct_AzimuthalSeg
  by_cases h1 : 4 < D.geom.azimuthal_n_sec
  · by_cases h2 : enclosure_depth_assertion E (sector_dims E D.geom) = true
    · by_cases h3 : D.hasMaterial "G4_AIR" = true
      · by_cases h4 : D.hasMaterial D.geom.sidewall_mat = true
        · exact absurd ⟨h1, h2, h3, h4⟩ hn
        · simp [h1, h2, h3, h4]
      · simp [h1, h2, h3]
    · simp [h1, h2]
  · simp [h1]

/-- With every check passed, `Construct_AzimuthalSeg` registers the walls and
is then the tower loop. -/
theorem Construct_AzimuthalSeg_checks_pass (E : MathEnv α) (D : Detector α)
    (regs : Registries α) (h : sector_checks E D = true) :
    (∀ st, Run.loop (tower_body E D (sector_dims E D.geom)) D.geom.sector_tower_map
          { regs with calo_vol := regs.calo_vol ++ wall_entries E D (sector_dims E D.geom) }
          = Run.fatal st →
        Construct_AzimuthalSeg E D regs = Run.fatal st)
    ∧ (∀ st, Run.loop (tower_body E D (sector_dims E D.geom)) D.geom.sector_tower_map
          { regs with calo_vol := regs.calo_vol ++ wall_entries E D (sector_dims E D.geom) }
          = Run.done st () →
        Construct_AzimuthalSeg E D regs
          = Run.done st (sec_logic E D (sector_dims E D.geom), [])) := by
  obtain ⟨h1, h2, h3, h4⟩ := (sector_checks_iff E D).1 h
  constructor
  · intro st hl
    simp [Construct_AzimuthalSeg, h1, h2, h3, h4, hl]
  · intro st hl
    simp [Construct_AzimuthalSeg, h1, h2, h3, h4, hl]

/-- With every check passed, the run of `Construct_AzimuthalSeg` ends in the
state in which the tower loop ends. -/
theorem Construct_AzimuthalSeg_state (E : MathEnv α) (D : Detector α)
    (regs : Registries α) (h : sector_checks E D = true) :
    (Construct_AzimuthalSeg E D regs).state
        = (Run.loop (tower_body E D (sector_dims E D.geom)) D.geom.sector_tower_map
            { regs with calo_vol := regs.calo_vol
                ++ wall_entries E D (sector_dims E D.geom) }).state
    ∧ (Construct_AzimuthalSeg E D regs).completes
        = (Run.loop (tower_body E D (sector_dims E D.geom)) D.geom.sector_tower_map
            { regs with calo_vol := regs.calo_vol
                ++ wall_entries E D (sector_dims E D.geom) }).completes := by
  obtain ⟨hf, hd⟩ := Construct_AzimuthalSeg_checks_pass E D regs h
  cases hl : Run.loop (tower_body E D (sector_dims E D.geom)) D.geom.sector_tower_map
      { regs with calo_vol := regs.calo_vol ++ wall_entries E D (sector_dims E D.geom) } with
  | fatal st => rw [hf st hl]; exact ⟨rfl, rfl⟩
  | done st v => rw [hd st hl]; exact ⟨rfl, rfl⟩

/-- With every check passed, `calo_vol` ends as it was with the walls added. -/
theorem Construct_AzimuthalSeg_calo_vol (E : MathEnv α) (D : Detector α)
    (regs : Registries α) (h : sector_checks E D = true) :
    (Construct_AzimuthalSeg E D regs).state.calo_vol
      = regs.calo_vol ++ wall_entries E D (sector_dims E D.geom) := by
  rw [(Construct_AzimuthalSeg_state E D regs h).1]
  exact (tower_loop_frame E D _ _ _).1

theorem checks_of_completes (E : MathEnv α) (D : Detector α) (regs : Registries α)
    (h : (Construct_AzimuthalSeg E D regs).completes = true) : sector_checks E D = true := by
  cases hc : sector_checks E D with
  | true => rfl
  | false =>
    rw [Construct_AzimuthalSeg_checks_fail E D regs hc] at h
    simp [Run.completes] at h

/-- With `gdml_config` set, `Construct_Fibers` returns. -/
theorem Construct_Fibers_returns (E : MathEnv α) (D : Detector α) (g : geom_tower α)
    (LV_tower : String) (regs : Registries α) (hg : D.gdml_config = true) :
    ∃ st cnt, Construct_Fibers E D g LV_tower regs = Run.done st cnt := by
  cases hrun : Construct_Fibers E D g LV_tower regs with
  | done st cnt => exact ⟨st, cnt, rfl⟩
  | fatal st =>
    simp [Construct_Fibers,
      exact_grid_done E D g LV_tower hg (List.range g.NFiberX.toNat)
        (List.range g.NFiberY.toNat) { regs := regs, fiber_cnt := 0 }] at hrun

/-- With `gdml_config` set, `Construct_Fibers_SameLengthFiberPerTower` returns. -/
theorem Construct_Fibers_SameLengthFiberPerTower_returns (E : MathEnv α) (D : Detector α)
    (g : geom_tower α) (LV_tower : String) (regs : Registries α) (hg : D.gdml_config = true) :
    ∃ st res, Construct_Fibers_SameLengthFiberPerTower E D g LV_tower regs = Run.done st res := by
  have hall : ∀ val ∈ (scan_fibers E D g).fiber_par,
      0 ≤ val.2.1.mag E - (scan_fibers E D g).min_fiber_length :=
    fun val hval => sub_nonneg.mpr (scan_fibers_below E D g val hval)
  cases hrun : Construct_Fibers_SameLengthFiberPerTower E D g LV_tower regs with
  | done st res => exact ⟨st, res, rfl⟩
  | fatal st =>
    simp [Construct_Fibers_SameLengthFiberPerTower,
      same_length_loop_done E D g LV_tower (scan_fibers E D g).min_fiber_length hg
        (scan_fibers E D g).fiber_par hall
        { regs := regs, fiber_count := 0, fiber_cut := [] }] at hrun

/-- With the absorber material known, `gdml_config` set and a recognised
configuration, `Construct_Tower` returns. -/
theorem Construct_Tower_returns (E : MathEnv α) (D : Detector α) (g : geom_tower α)
    (regs : Registries α) (hmat : D.hasMaterial D.geom.absorber_mat = true)
    (hg : D.gdml_config = true) (hcfg : ∀ code, D.geom.config ≠ config_t.other code) :
    ∃ st, Construct_Tower E D g regs = Run.done st (block_logic E D g) := by
  cases hc : D.geom.config with
  | kFullProjective_2DTaper_Tilted =>
    obtain ⟨st, cnt, h⟩ := Construct_Fibers_returns E D g (block_logic E D g).name regs hg
    exact ⟨st, (Construct_Tower_tilted E D g regs hmat hc).2 st cnt h⟩
  | kFullProjective_2DTaper_Tilted_SameLengthFiberPerTower =>
    obtain ⟨st, res, h⟩ :=
      Construct_Fibers_SameLengthFiberPerTower_returns E D g (block_logic E D g).name regs hg
    exact ⟨st, (Construct_Tower_same_length E D g regs hmat hc).2 st res h⟩
  | other code => exact absurd hc (hcfg code)

theorem tower_loop_returns (E : MathEnv α) (D : Detector α) (d : SectorDims α)
    (hmat : D.hasMaterial D.geom.absorber_mat = true) (hg : D.gdml_config = true)
    (hcfg : ∀ code, D.geom.config ≠ config_t.other code)
    (l : List (Int × geom_tower α)) (regs : Registries α) :
    ∃ st, Run.loop (tower_body E D d) l regs = Run.done st () := by
  induction l generalizing regs with
  | nil => exact ⟨regs, rfl⟩
  | cons val rest ih =>
    obtain ⟨st0, h0⟩ := Construct_Tower_returns E D val.2 regs hmat hg hcfg
    rcases tower_body_cases E D d val regs with ⟨st1, h1, _⟩ | ⟨st1, _, h2⟩
    · rw [h0] at h1
      cases h1
    · simp only [Run.loop, h2]
      exact ih _

/-- `Construct_AzimuthalSeg` returns when its checks pass, the absorber
material is known, `gdml_config` is set and the configuration is recognised. -/
theorem Construct_AzimuthalSeg_returns (E : MathEnv α) (D : Detector α) (regs : Registries α)
    (hchk : sector_checks E D = true) (hmat : D.hasMaterial D.geom.absorber_mat = true)
    (hg : D.gdml_config = true) (hcfg : ∀ code, D.geom.config ≠ config_t.other code) :
    (Construct_AzimuthalSeg E D regs).completes = true := by
  obtain ⟨st, h⟩ := tower_loop_returns E D (sector_dims E D.geom) hmat hg hcfg
    D.geom.sector_tower_map
    { regs with calo_vol := regs.calo_vol ++ wall_entries E D (sector_dims E D.geom) }
  rw [(Construct_AzimuthalSeg_checks_pass E D regs hchk).2 st h]
  rfl

end Frames

/-! ### Dispatch on the configuration (C13) -/

section Dispatch
variable {α : Type} [LinearOrderedField α]

end Dispatch

section RealChecks

theorem sample_checks : sector_checks realEnv sampleDetector = true := by
  rw [sector_checks_iff]
  exact ⟨by simp [sampleDetector, sampleGeom], sample_assertion, rfl, rfl⟩

theorem tower_checks : sector_checks realEnv (detectorOn towerGeom) = true := by
  rw [sector_checks_iff]
  exact ⟨by simp [detectorOn, towerGeom, sampleGeom], sample_assertion, rfl, rfl⟩

theorem unknown_config_checks : sector_checks realEnv (detectorOn unknownConfigGeom) = true := by
  rw [sector_checks_iff]
  exact ⟨by simp [detectorOn, unknownConfigGeom, towerGeom, sampleGeom], sample_assertion,
    rfl, rfl⟩

theorem tower_completes :
    (Construct_AzimuthalSeg realEnv (detectorOn towerGeom) (emptyRegistries ℝ)).completes
      = true :=
  Construct_AzimuthalSeg_returns realEnv (detectorOn towerGeom) (emptyRegistries ℝ)
    tower_checks rfl rfl (by intro code h; simp [detectorOn, towerGeom, sampleGeom] at h)

end RealChecks

/-! ### Towers and walls in the registries (C14, C15, C16) -/

section Placement
variable {α : Type} [LinearOrderedField α]

/-- C14: for every sector tower map on which `Construct_AzimuthalSeg`
completes, `block_vol` has gained exactly one entry (placed tower, tower id)
for each entry of the map, in the order of the map; the placed tower carries
the tower's id as copy number and the entry has it as value.  With the map in
ascending key order and keyed by the tower id, the towers are so processed
in ascending order of tower id. -/
theorem one_block_per_tower (E : MathEnv α) (D : Detector α) (regs : Registries α)
    (hc : (Construct_AzimuthalSeg E D regs).completes = true)
    (hsorted : D.geom.sector_tower_map.Pairwise (fun a b => a.1 < b.1))
    (hkey : ∀ val ∈ D.geom.sector_tower_map, val.1 = val.2.id) :
    (Construct_AzimuthalSeg E D regs).state.block_vol
        = regs.block_vol ++ D.geom.sector_tower_map.map (fun val =>
            (block_phys E D (sector_dims E D.geom) val.2 (block_logic E D val.2), val.2.id))
    ∧ (∀ (g : geom_tower α) (LV : G4LogicalVolume α),
        (block_phys E D (sector_dims E D.geom) g LV).copyNo = g.id)
    ∧ (D.geom.sector_tower_map.map (fun val => val.2.id)).Pairwise (fun a b => a < b) := by
  have hchk := checks_of_completes E D regs hc
  refine ⟨?_, fun g LV => rfl, ?_⟩
  · rw [(Construct_AzimuthalSeg_state E D regs hchk).1]
    have hcl := hc
    rw [(Construct_AzimuthalSeg_state E D regs hchk).2] at hcl
    cases hl : Run.loop (tower_body E D (sector_dims E D.geom)) D.geom.sector_tower_map
        { regs with calo_vol := regs.calo_vol ++ wall_entries E D (sector_dims E D.geom) } with
    | fatal st =>
      rw [hl] at hcl
      simp [Run.completes] at hcl
    | done st v =>
      have h := tower_loop_block_vol E D _ _ _ st hl
      simpa [Run.state] using h
  · rw [List.pairwise_map]
    apply List.Pairwise.imp_of_mem _ hsorted
    intro a b ha hb hab
    rw [← hkey a ha, ← hkey b hb]
    exact hab

/-- C15: when `sidewall_thickness = s > 0` and the checks of
`Construct_AzimuthalSeg` pass, `calo_vol` gains exactly four end walls, tagged
1000, 1001, 1100 and 1101 and translated along z by `(s/2 + g) * cm`,
`(L/2 - (s/2 + g)) * cm`, `-(s/2 + g) * cm` and `-(L/2 - (s/2 + g)) * cm`
(`g = assembly_spacing`, `L = length`), followed by the side walls: the walls
1100 and 1101 mirror the walls 1000 and 1001 in z. -/
theorem end_walls_placed (E : MathEnv α) (D : Detector α) (regs : Registries α)
    (hchk : sector_checks E D = true) (hs : 0 < D.geom.sidewall_thickness) :
    (Construct_AzimuthalSeg E D regs).state.calo_vol
        = regs.calo_vol
          ++ [(end_wall_physi E D (sector_dims E D.geom)
                (1000, (D.geom.sidewall_thickness / 2 + D.geom.assembly_spacing) * E.cm), 1000),
              (end_wall_physi E D (sector_dims E D.geom)
                (1001, (D.geom.length / 2
                  - (D.geom.sidewall_thickness / 2 + D.geom.assembly_spacing)) * E.cm), 1001),
              (end_wall_physi E D (sector_dims E D.geom)
                (1100, -((D.geom.sidewall_thickness / 2 + D.geom.assembly_spacing) * E.cm)), 1100),
              (end_wall_physi E D (sector_dims E D.geom)
                (1101, -((D.geom.length / 2
                  - (D.geom.sidewall_thickness / 2 + D.geom.assembly_spacing)) * E.cm)), 1101)]
          ++ signs.map (fun val => (side_wall_physi E D (sector_dims E D.geom) val, val.1))
    ∧ (∀ (tag : Int) (z : α),
        (end_wall_physi E D (sector_dims E D.geom) (tag, z)).transform = [G4Elementary.TranslateZ z]
        ∧ (end_wall_physi E D (sector_dims E D.geom) (tag, z)).copyNo = tag
        ∧ (end_wall_physi E D (sector_dims E D.geom) (tag, z)).logic
            = end_wall_logic E D (sector_dims E D.geom))
    ∧ (∀ val ∈ signs, val.1 ≠ 1000 ∧ val.1 ≠ 1001 ∧ val.1 ≠ 1100 ∧ val.1 ≠ 1101) := by
  refine ⟨?_, fun tag z => ⟨rfl, rfl, rfl⟩, ?_⟩
  · rw [Construct_AzimuthalSeg_calo_vol E D regs hchk]
    have h0 : D.geom.sidewall_thickness * E.cm / 2 + D.geom.assembly_spacing * E.cm
        = (D.geom.sidewall_thickness / 2 + D.geom.assembly_spacing) * E.cm := by ring
    have h1 : D.geom.length * E.cm / 2
          - (D.geom.sidewall_thickness / 2 + D.geom.assembly_spacing) * E.cm
        = (D.geom.length / 2
          - (D.geom.sidewall_thickness / 2 + D.geom.assembly_spacing)) * E.cm := by ring
    simp only [wall_entries, hs, if_true, z_locations, List.map_cons, List.map_nil, h0, h1,
      List.append_assoc]
  · intro val hval
    simp only [signs, List.mem_cons, List.mem_singleton, List.not_mem_nil, or_false] at hval
    rcases hval with rfl | rfl | rfl | rfl <;> decide

/-- C16: when `sidewall_thickness > 0` and the checks of
`Construct_AzimuthalSeg` pass, `calo_vol` gains, after the end walls, exactly
four side walls, one for each `(sign_z, sign_azimuth)`: 2000 = (+,+),
2001 = (+,-), 2100 = (-,+), 2101 = (-,-).  The wall with signs
`(sign_z, sign_azimuth)` is translated along z by `sign_z * (length * cm / 4)`,
along x by `sign_azimuth * enclosure_half_height_half_width` and rotated about
z by `edge1_tilt_angle` when `sign_azimuth > 0`, by `edge2_tilt_angle`
otherwise. -/
theorem side_walls_placed (E : MathEnv α) (D : Detector α) (regs : Registries α)
    (hchk : sector_checks E D = true) (hs : 0 < D.geom.sidewall_thickness) :
    (Construct_AzimuthalSeg E D regs).state.calo_vol
        = regs.calo_vol
          ++ (z_locations E D).map
              (fun val => (end_wall_physi E D (sector_dims E D.geom) val, val.1))
          ++ [(side_wall_physi E D (sector_dims E D.geom) (2000, (1, 1)), 2000),
              (side_wall_physi E D (sector_dims E D.geom) (2001, (1, -1)), 2001),
              (side_wall_physi E D (sector_dims E D.geom) (2100, (-1, 1)), 2100),
              (side_wall_physi E D (sector_dims E D.geom) (2101, (-1, -1)), 2101)]
    ∧ (∀ (tag sign_z sign_azimuth : Int),
        (side_wall_physi E D (sector_dims E D.geom) (tag, (sign_z, sign_azimuth))).transform
          = [G4Elementary.TranslateZ ((sign_z : α) * (D.geom.length * E.cm / 4)),
             G4Elementary.TranslateY (sector_dims E D.geom).enclosure_center,
             G4Elementary.TranslateX
               ((sign_azimuth : α) * (sector_dims E D.geom).enclosure_half_height_half_width),
             G4Elementary.RotateZ
               (if 0 < sign_azimuth then (sector_dims E D.geom).edge1_tilt_angle
                else (sector_dims E D.geom).edge2_tilt_angle),
             G4Elementary.TranslateX (-(sign_azimuth : α)
               * (D.geom.sidewall_thickness * E.cm / 2 + D.geom.sidewall_outer_torr * E.cm))]
        ∧ (side_wall_physi E D (sector_dims E D.geom) (tag, (sign_z, sign_azimuth))).copyNo = tag)
    ∧ (∀ val ∈ z_locations E D,
        val.1 ≠ 2000 ∧ val.1 ≠ 2001 ∧ val.1 ≠ 2100 ∧ val.1 ≠ 2101) := by
  refine ⟨?_, fun tag sz sa => ⟨rfl, rfl⟩, ?_⟩
  · rw [Construct_AzimuthalSeg_calo_vol E D regs hchk]
    simp only [wall_entries, hs, if_true, signs, List.map_cons, List.map_nil, List.append_assoc]
  · intro val hval
    simp only [z_locations, List.mem_cons, List.mem_singleton, List.not_mem_nil,
      or_false] at hval
    rcases hval with rfl | rfl | rfl | rfl <;> simp

end Placement

/-- C14 at the detector with the towers 7 and 9: two entries, in this order. -/
theorem one_block_per_tower_witness :
    ((Construct_AzimuthalSeg realEnv (detectorOn towerGeom)
        (emptyRegistries ℝ)).state.block_vol).map Prod.snd = [7, 9] := by
  rw [(one_block_per_tower realEnv (detectorOn towerGeom) (emptyRegistries ℝ) tower_completes
    (by simp [detectorOn, towerGeom])
    (by simp [detectorOn, towerGeom, straightTower])).1]
  simp [detectorOn, towerGeom, emptyRegistries, straightTower]

/-- C15 at the sample detector: eight walls in all. -/
theorem end_walls_placed_witness :
    ((Construct_AzimuthalSeg realEnv sampleDetector (emptyRegistries ℝ)).state.calo_vol).map
        Prod.snd
      = [1000, 1001, 1100, 1101, 2000, 2001, 2100, 2101] := by
  rw [(end_walls_placed realEnv sampleDetector (emptyRegistries ℝ) sample_checks
    (by norm_num [sampleDetector, sampleGeom])).1]
  simp [signs, emptyRegistries]

/-- C16 at the sample detector: the side walls come after the end walls. -/
theorem side_walls_placed_witness :
    (((Construct_AzimuthalSeg realEnv sampleDetector (emptyRegistries ℝ)).state.calo_vol).map
        Prod.snd).drop 4
      = [2000, 2001, 2100, 2101] := by
  rw [(side_walls_placed realEnv sampleDetector (emptyRegistries ℝ) sample_checks
    (by norm_num [sampleDetector, sampleGeom])).1]
  simp [z_locations, emptyRegistries]

/-! ### Fatal errors and the registries (C19, C20) -/

section Fatal
variable {α : Type} [LinearOrderedField α]

/-- A fatal stop of `Construct_Tower` for the first tower of the map stops the
tower loop in the same state. -/
theorem tower_loop_first_fatal (E : MathEnv α) (D : Detector α) (d : SectorDims α)
    (val : Int × geom_tower α) (rest : List (Int × geom_tower α)) (regs st : Registries α)
    (h : Construct_Tower E D val.2 regs = Run.fatal st) :
    Run.loop (tower_body E D d) (val :: rest) regs = Run.fatal st := by
  rcases tower_body_cases E D d val regs with ⟨st1, h1, h2⟩ | ⟨st1, h1, _⟩
  · rw [h] at h1
    cases h1
    simp only [Run.loop, h2]
  · rw [h] at h1
    cases h1

/-- Past the checks, a fatal stop of `Construct_Tower` for the first tower of
the map stops `Construct_AzimuthalSeg` in the same state. -/
theorem Construct_AzimuthalSeg_first_fatal (E : MathEnv α) (D : Detector α)
    (regs st : Registries α) (hchk : sector_checks E D = true) (val : Int × geom_tower α)
    (rest : List (Int × geom_tower α)) (hmap : D.geom.sector_tower_map = val :: rest)
    (h : Construct_Tower E D val.2
        { regs with calo_vol := regs.calo_vol ++ wall_entries E D (sector_dims E D.geom) }
      = Run.fatal st) :
    Construct_AzimuthalSeg E D regs = Run.fatal st := by
  have hl := tower_loop_first_fatal E D (sector_dims E D.geom) val rest _ st h
  rw [← hmap] at hl
  exact (Construct_AzimuthalSeg_checks_pass E D regs hchk).1 st hl

/-- C19 (amended): a fatal error in one of the checks before the first
placement (sector count, enclosure depth, the two materials) leaves the
registries exactly as they were.  Past the checks there is no rollback:
however the run ends, `calo_vol` holds its old entries followed by the walls,
and `block_vol` and `fiber_vol` hold their old entries followed by those of
the towers and fibers placed before the run ended. -/
theorem registries_after_fatal (E : MathEnv α) (D : Detector α) (regs : Registries α) :
    (sector_checks E D = false → Construct_AzimuthalSeg E D regs = Run.fatal regs)
    ∧ (sector_checks E D = true →
        (Construct_AzimuthalSeg E D regs).state.calo_vol
            = regs.calo_vol ++ wall_entries E D (sector_dims E D.geom)
        ∧ (∃ ext, (Construct_AzimuthalSeg E D regs).state.block_vol = regs.block_vol ++ ext)
        ∧ (∃ ext, (Construct_AzimuthalSeg E D regs).state.fiber_vol = regs.fiber_vol ++ ext)) := by
  refine ⟨Construct_AzimuthalSeg_checks_fail E D regs, fun hchk => ?_⟩
  have hframe := tower_loop_frame E D (sector_dims E D.geom) D.geom.sector_tower_map
    { regs with calo_vol := regs.calo_vol ++ wall_entries E D (sector_dims E D.geom) }
  rw [← (Construct_AzimuthalSeg_state E D regs hchk).1] at hframe
  exact ⟨hframe.1, hframe.2.1, hframe.2.2⟩

/-- C20: a material that is requested and not found stops the construction
with a fatal error before a volume is made of it.  Without `G4_AIR` or
without the side wall material `Construct_AzimuthalSeg` stops with the
registries untouched; without the absorber material `Construct_Tower` stops
with the registries as it found them, so that with a tower in the map
`Construct_AzimuthalSeg` does not return and registers no tower and no fiber. -/
theorem missing_material_is_fatal (E : MathEnv α) (D : Detector α) (regs : Registries α) :
    (D.hasMaterial "G4_AIR" = false → Construct_AzimuthalSeg E D regs = Run.fatal regs)
    ∧ (D.hasMaterial D.geom.sidewall_mat = false →
        Construct_AzimuthalSeg E D regs = Run.fatal regs)
    ∧ (D.hasMaterial D.geom.absorber_mat = false →
        (∀ (g : geom_tower α) (regs1 : Registries α),
            Construct_Tower E D g regs1 = Run.fatal regs1)
        ∧ (D.geom.sector_tower_map ≠ [] →
            (Construct_AzimuthalSeg E D regs).completes = false
            ∧ (Construct_AzimuthalSeg E D regs).state.block_vol = regs.block_vol
            ∧ (Construct_AzimuthalSeg E D regs).state.fiber_vol = regs.fiber_vol)) := by
  refine ⟨fun h => ?_, fun h => ?_, fun h => ⟨fun g regs1 =>
    Construct_Tower_no_material E D g regs1 h, fun hne => ?_⟩⟩
  · apply Construct_AzimuthalSeg_checks_fail
    simp [sector_checks, h]
  · apply Construct_AzimuthalSeg_checks_fail
    simp [sector_checks, h]
  · cases hchk : sector_checks E D with
    | false =>
      rw [Construct_AzimuthalSeg_checks_fail E D regs hchk]
      exact ⟨rfl, rfl, rfl⟩
    | true =>
      cases hmap : D.geom.sector_tower_map with
      | nil => exact absurd hmap hne
      | cons val rest =>
        rw [Construct_AzimuthalSeg_first_fatal E D regs _ hchk val rest hmap
          (Construct_Tower_no_material E D val.2 _ h)]
        exact ⟨rfl, rfl, rfl⟩

end Fatal

/-- C19 as stated fails: with a tower in the map and a configuration value
that `Construct_Tower` does not know, `Construct_AzimuthalSeg` ends in a fatal
error after it has registered the eight walls in `calo_vol`. -/
theorem unknown_config_counterexample :
    (Construct_AzimuthalSeg realEnv (detectorOn unknownConfigGeom)
        (emptyRegistries ℝ)).completes = false
    ∧ ((Construct_AzimuthalSeg realEnv (detectorOn unknownConfigGeom)
        (emptyRegistries ℝ)).state.calo_vol).map Prod.snd
        = [1000, 1001, 1100, 1101, 2000, 2001, 2100, 2101]
    ∧ (Construct_AzimuthalSeg realEnv (detectorOn unknownConfigGeom)
        (emptyRegistries ℝ)).state.calo_vol ≠ (emptyRegistries ℝ).calo_vol := by
  have hcalo := Construct_AzimuthalSeg_calo_vol realEnv (detectorOn unknownConfigGeom)
    (emptyRegistries ℝ) unknown_config_checks
  have hs : (0 : ℝ) < (detectorOn unknownConfigGeom).geom.sidewall_thickness := by
    norm_num [detectorOn, unknownConfigGeom, towerGeom, sampleGeom]
  have htags : ((Construct_AzimuthalSeg realEnv (detectorOn unknownConfigGeom)
      (emptyRegistries ℝ)).state.calo_vol).map Prod.snd
      = [1000, 1001, 1100, 1101, 2000, 2001, 2100, 2101] := by
    rw [hcalo]
    simp [wall_entries, hs, z_locations, signs, emptyRegistries]
  refine ⟨?_, htags, ?_⟩
  · rw [Construct_AzimuthalSeg_first_fatal realEnv (detectorOn unknownConfigGeom)
      (emptyRegistries ℝ) _ unknown_config_checks _ _ rfl
      (Construct_Tower_other realEnv (detectorOn unknownConfigGeom) _ _ 0 rfl)]
    rfl
  · intro h
    rw [h] at htags
    simp [emptyRegistries] at htags

/-- C19 (amended) at the detector with the unknown configuration value. -/
theorem registries_after_fatal_witness :
    (Construct_AzimuthalSeg realEnv (detectorOn unknownConfigGeom)
        (emptyRegistries ℝ)).state.calo_vol
      = (emptyRegistries ℝ).calo_vol ++ wall_entries realEnv (detectorOn unknownConfigGeom)
          (sector_dims realEnv (detectorOn unknownConfigGeom).geom) :=
  ((registries_after_fatal realEnv (detectorOn unknownConfigGeom) (emptyRegistries ℝ)).2
    unknown_config_checks).1

/-! ### The fallback rotation axis (C11) -/

section Axis

/-- The angle CLHEP computes between the z axis and a positive multiple of it. -/
theorem real_angle_z (c : ℝ) (hc : 0 < c) :
    realEnv.angle (G4Vector3D.mk 0 0 1) (G4Vector3D.mk 0 0 c) = 0 := by
  have h1 : Real.sqrt (G4Vector3D.mag2 (G4Vector3D.mk (0 : ℝ) 0 1)) = 1 := by
    simp [G4Vector3D.mag2]
  have h2 : Real.sqrt (G4Vector3D.mag2 (G4Vector3D.mk (0 : ℝ) 0 c)) = c := by
    simp [G4Vector3D.mag2, Real.sqrt_mul_self (le_of_lt hc)]
  show Real.arccos (if 0 < Real.sqrt (G4Vector3D.mag2 (G4Vector3D.mk (0 : ℝ) 0 1))
        * Real.sqrt (G4Vector3D.mag2 (G4Vector3D.mk (0 : ℝ) 0 c))
      then max (-1) (min 1 (((0 : ℝ) * 0 + 0 * 0 + 1 * c)
        / (Real.sqrt (G4Vector3D.mag2 (G4Vector3D.mk (0 : ℝ) 0 1))
          * Real.sqrt (G4Vector3D.mag2 (G4Vector3D.mk (0 : ℝ) 0 c))))) else 0) = 0
  rw [h1, h2]
  have hcc : ((0 : ℝ) * 0 + 0 * 0 + 1 * c) / (1 * c) = 1 := by
    field_simp
  have hpos : (0 : ℝ) < 1 * c := by linarith
  rw [if_pos hpos, hcc, min_self, max_eq_right (by norm_num : (-1 : ℝ) ≤ 1), Real.arccos_one]

/-- The placement of a fiber along the z axis. -/
theorem real_fiber_place_z (c : ℝ) (hc : 0 < c) (center : G4Vector3D ℝ) :
    fiber_place realEnv center (G4Vector3D.mk 0 0 c)
      = [G4Elementary.Translate3D center.x center.y center.z,
         G4Elementary.Rotate3D 0 (G4Vector3D.mk 1 0 0)] := by
  simp only [fiber_place, real_angle_z c hc, rotation_axis, if_true]

/-- C11: the degenerate-axis rule in both layouts.  Over the reals, for every
fiber vector `(0, 0, c)` with `c > 0`, parallel to the local z axis, the
rotation angle is zero, the cross product of the z axis with the vector is
the zero vector, and the placement of `Construct_Fibers` and of
`Construct_Fibers_SameLengthFiberPerTower` rotates by the angle zero about
the fallback axis `(1, 0, 0)`. -/
theorem degenerate_axis_rule (c : ℝ) (hc : 0 < c) :
    realEnv.angle (G4Vector3D.mk 0 0 1) (G4Vector3D.mk 0 0 c) = 0
    ∧ (G4Vector3D.mk 0 0 1).cross (G4Vector3D.mk 0 0 c) = G4Vector3D.mk 0 0 0
    ∧ rotation_axis (realEnv.angle (G4Vector3D.mk 0 0 1) (G4Vector3D.mk 0 0 c))
        (G4Vector3D.mk 0 0 c) = G4Vector3D.mk 1 0 0
    ∧ (∀ (D : Detector ℝ) (g : geom_tower ℝ) (LV_tower : String) (ix iy : Nat),
        (fiber_chord realEnv D.geom.fiber_outer_r g ix iy).1 = G4Vector3D.mk 0 0 c →
        (exact_length_physi realEnv D g LV_tower ix iy).transform
          = [G4Elementary.Translate3D (fiber_chord realEnv D.geom.fiber_outer_r g ix iy).2.x
               (fiber_chord realEnv D.geom.fiber_outer_r g ix iy).2.y
               (fiber_chord realEnv D.geom.fiber_outer_r g ix iy).2.z,
             G4Elementary.Rotate3D 0 (G4Vector3D.mk 1 0 0)])
    ∧ (∀ (D : Detector ℝ) (g : geom_tower ℝ) (LV_tower : String) (fiber_length : ℝ)
        (val : Int × (G4Vector3D ℝ × G4Vector3D ℝ)),
        rescaled realEnv fiber_length val.2.1 = G4Vector3D.mk 0 0 c →
        (same_length_physi realEnv D g LV_tower fiber_length val).transform
          = [G4Elementary.Translate3D (recentred realEnv fiber_length val.2.1 val.2.2).x
               (recentred realEnv fiber_length val.2.1 val.2.2).y
               (recentred realEnv fiber_length val.2.1 val.2.2).z,
             G4Elementary.Rotate3D 0 (G4Vector3D.mk 1 0 0)]) := by
  refine ⟨real_angle_z c hc, ?_, ?_, ?_, ?_⟩
  · simp [G4Vector3D.cross]
  · rw [real_angle_z c hc]
    simp [rotation_axis]
  · intro D g LV_tower ix iy h
    show fiber_place realEnv (fiber_chord realEnv D.geom.fiber_outer_r g ix iy).2
      (fiber_chord realEnv D.geom.fiber_outer_r g ix iy).1 = _
    rw [h]
    exact real_fiber_place_z c hc _
  · intro D g LV_tower fiber_length val h
    show fiber_place realEnv (recentred realEnv fiber_length val.2.1 val.2.2)
      (rescaled realEnv fiber_length val.2.1) = _
    rw [h]
    exact real_fiber_place_z c hc _

end Axis

/-- C11 at the straight tower, whose fibers have the vector `(0, 0, 129)`. -/
theorem degenerate_axis_rule_witness :
    (exact_length_physi realEnv sampleDetector straightTower "CEMC_Tower_7" 0 0).transform
      = [G4Elementary.Translate3D (-10) (-10) 0, G4Elementary.Rotate3D 0 (G4Vector3D.mk 1 0 0)] := by
  have hr : sampleDetector.geom.fiber_outer_r = 1 / 10 := rfl
  have h := (degenerate_axis_rule 129 (by norm_num)).2.2.2.1 sampleDetector straightTower
    "CEMC_Tower_7" 0 0 (by rw [hr, straight_chord_00])
  rw [h, hr, straight_chord_00]

/-! ### Small fiber grids (C12) -/

section SmallGrids
variable {α : Type} [LinearOrderedField α]

end SmallGrids

section HalfWidths

/-- With zero tilt the inner and outer half widths of the envelope are the
inner radius and the reduced outer radius times `tan(π / n)`. -/
theorem zero_tilt_half_widths (g : SpacalGeom ℝ) (ht : g.azimuthal_tilt = 0) :
    (sector_dims realEnv g).inner_half_width
        = g.radius * realEnv.cm * Real.tan (Real.pi / (g.azimuthal_n_sec : ℝ))
    ∧ (sector_dims realEnv g).outter_half_width
        = (sector_dims realEnv g).reduced_outer_radius
          * Real.tan (Real.pi / (g.azimuthal_n_sec : ℝ)) := by
  have h1 : Real.tan (0 - Real.pi / (g.azimuthal_n_sec : ℝ))
      = - Real.tan (Real.pi / (g.azimuthal_n_sec : ℝ)) := by
    rw [zero_sub, Real.tan_neg]
  constructor
  · simp only [sector_dims, realEnv, ht, h1, zero_add]
    ring
  · simp only [sector_dims, realEnv, ht, h1, zero_add]
    ring

theorem real_tan_sector_pos (n : Int) (hn : 4 < n) : 0 < Real.tan (Real.pi / (n : ℝ)) := by
  have hn' : (4 : ℝ) < (n : ℝ) := by exact_mod_cast hn
  have hpi := Real.pi_pos
  apply Real.tan_pos_of_pos_of_lt_pi_div_two
  · positivity
  · rw [div_lt_div_iff₀ (by linarith) (by norm_num)]
    nlinarith

/-- C17 (amended): `Construct_AzimuthalSeg` checks none of the half widths.
On every configuration on which it completes (over the reals, with at least
one phi bin) `enclosure_depth > 10 * cm`, and `block_half_height_width` is
positive exactly when `block_edge1_half_width + block_edge2_half_width` is;
with zero tilt `inner_half_width = radius * cm * tan(π / n)` and
`outter_half_width = reduced_outer_radius * tan(π / n)`, which are positive
when `radius > 0`. -/
theorem half_widths_after_completion (D : Detector ℝ) (regs : Registries ℝ)
    (hc : (Construct_AzimuthalSeg realEnv D regs).completes = true)
    (hN : 1 ≤ D.geom.max_phi_bin_in_sec) :
    10 * realEnv.cm < (sector_dims realEnv D.geom).enclosure_depth
    ∧ (0 < (sector_dims realEnv D.geom).block_half_height_width
        ↔ 0 < (sector_dims realEnv D.geom).block_edge1_half_width
            + (sector_dims realEnv D.geom).block_edge2_half_width)
    ∧ (D.geom.azimuthal_tilt = 0 →
        (sector_dims realEnv D.geom).inner_half_width
            = D.geom.radius * realEnv.cm * Real.tan (Real.pi / (D.geom.azimuthal_n_sec : ℝ))
        ∧ (sector_dims realEnv D.geom).outter_half_width
            = (sector_dims realEnv D.geom).reduced_outer_radius
              * Real.tan (Real.pi / (D.geom.azimuthal_n_sec : ℝ))
        ∧ (0 < D.geom.radius →
            0 < (sector_dims realEnv D.geom).inner_half_width
            ∧ 0 < (sector_dims realEnv D.geom).outter_half_width)) := by
  obtain ⟨hn, hassert, _, _⟩ := Construct_AzimuthalSeg_checks realEnv D regs hc
  have hdepth := ((enclosure_depth_assertion_iff realEnv _).1 hassert).2
  have hcm : realEnv.cm = 10 := rfl
  have hpos : 0 < (sector_dims realEnv D.geom).enclosure_depth := by
    rw [hcm] at hdepth
    linarith
  have hratio := real_block_width_ratio_pos D.geom hpos hN
  refine ⟨hdepth, ?_, fun ht => ?_⟩
  · have hw : (sector_dims realEnv D.geom).block_half_height_width
        = ((sector_dims realEnv D.geom).block_edge1_half_width
            + (sector_dims realEnv D.geom).block_edge2_half_width)
          / (sector_dims realEnv D.geom).block_width_ratio := rfl
    rw [hw]
    constructor
    · intro h
      by_contra hneg
      have hle := not_lt.mp hneg
      have : ((sector_dims realEnv D.geom).block_edge1_half_width
            + (sector_dims realEnv D.geom).block_edge2_half_width)
          / (sector_dims realEnv D.geom).block_width_ratio ≤ 0 :=
        div_nonpos_of_nonpos_of_nonneg hle (le_of_lt hratio)
      linarith
    · intro h
      exact div_pos h hratio
  · obtain ⟨hin, hout⟩ := zero_tilt_half_widths D.geom ht
    refine ⟨hin, hout, fun hr => ?_⟩
    have htan := real_tan_sector_pos D.geom.azimuthal_n_sec hn
    have hror : (sector_dims realEnv D.geom).reduced_outer_radius
        = (sector_dims realEnv D.geom).enclosure_depth + D.geom.radius * realEnv.cm := by
      have hd : (sector_dims realEnv D.geom).enclosure_depth
          = (sector_dims realEnv D.geom).reduced_outer_radius - D.geom.radius * realEnv.cm := rfl
      rw [hd]
      ring
    rw [hin, hout, hror, hcm]
    constructor
    · positivity
    · have : 0 < (sector_dims realEnv D.geom).enclosure_depth + D.geom.radius * 10 := by
        linarith
      positivity

theorem wide_spacing_checks : sector_checks realEnv (detectorOn wideSpacingGeom) = true := by
  rw [sector_checks_iff]
  exact ⟨by simp [detectorOn, wideSpacingGeom, sampleGeom], sample_assertion, rfl, rfl⟩

theorem wide_spacing_completes :
    (Construct_AzimuthalSeg realEnv (detectorOn wideSpacingGeom) (emptyRegistries ℝ)).completes
      = true :=
  Construct_AzimuthalSeg_returns realEnv (detectorOn wideSpacingGeom) (emptyRegistries ℝ)
    wide_spacing_checks rfl rfl
    (by intro code h; simp [detectorOn, wideSpacingGeom, sampleGeom] at h)

/-- In the sample configuration the half width of the enclosure at its centre
is below 103 mm. -/
theorem sample_enclosure_half_width_le :
    (sector_dims realEnv sampleGeom).enclosure_half_height_half_width ≤ 103 := by
  obtain ⟨ht0, ht1⟩ := tan_pi_div_32_bounds
  have hrad := sample_radicand
  have hs : Real.sqrt (sector_dims realEnv sampleGeom).radicand ≤ 1160 := by
    rw [Real.sqrt_le_iff]
    refine ⟨by norm_num, ?_⟩
    rw [hrad]
    nlinarith [mul_self_nonneg (1160 * Real.tan (Real.pi / 32))]
  have hs0 := Real.sqrt_nonneg (sector_dims realEnv sampleGeom).radicand
  have he : (sector_dims realEnv sampleGeom).enclosure_half_height_half_width
      = (1 / 2) * (Real.sqrt (sector_dims realEnv sampleGeom).radicand + 900)
        * Real.tan (Real.pi / 32) := by
    simp [sector_dims, sampleGeom, realEnv]
    norm_num
  rw [he]
  nlinarith

/-- An edge width of the wide-spacing configuration is negative. -/
theorem wide_spacing_edge_neg (e : ℝ) (he : |e| < Real.pi / 2) :
    (sector_dims realEnv sampleGeom).enclosure_half_height_half_width
      - (0 * 10 + 2 * 10 * 10) / Real.cos e < 0 := by
  have hw := sample_enclosure_half_width_le
  rw [abs_lt] at he
  have hc : 0 < Real.cos e := Real.cos_pos_of_mem_Ioo ⟨he.1, he.2⟩
  have hc1 : Real.cos e ≤ 1 := Real.cos_le_one e
  have h200 : (200 : ℝ) ≤ (0 * 10 + 2 * 10 * 10) / Real.cos e := by
    rw [le_div_iff₀ hc]
    nlinarith
  linarith

end HalfWidths

/-- C17 as stated fails: without side walls and with an assembly spacing of
10 cm the construction returns and `block_half_height_width` is negative. -/
theorem wide_spacing_counterexample :
    (Construct_AzimuthalSeg realEnv (detectorOn wideSpacingGeom) (emptyRegistries ℝ)).completes
      = true
    ∧ (sector_dims realEnv (detectorOn wideSpacingGeom).geom).block_half_height_width < 0 := by
  refine ⟨wide_spacing_completes, ?_⟩
  have hpos : 0 < (sector_dims realEnv wideSpacingGeom).enclosure_depth :=
    sample_enclosure_depth_pos
  have hratio := real_block_width_ratio_pos wideSpacingGeom hpos
    (by simp [wideSpacingGeom, sampleGeom])
  have hhalf : 0 < (sector_dims realEnv wideSpacingGeom).enclosure_depth * (1 / 2) := by
    linarith
  have h1 := wide_spacing_edge_neg _ (real_atan2_abs_lt
    (sector_dims realEnv wideSpacingGeom).width_adj1 _ hhalf)
  have h2 := wide_spacing_edge_neg _ (real_atan2_abs_lt
    (sector_dims realEnv wideSpacingGeom).width_adj2 _ hhalf)
  have hw : (sector_dims realEnv (detectorOn wideSpacingGeom).geom).block_half_height_width
      = ((sector_dims realEnv wideSpacingGeom).block_edge1_half_width
          + (sector_dims realEnv wideSpacingGeom).block_edge2_half_width)
        / (sector_dims realEnv wideSpacingGeom).block_width_ratio := rfl
  rw [hw]
  apply div_neg_of_neg_of_pos _ hratio
  have e1 : (sector_dims realEnv wideSpacingGeom).block_edge1_half_width
      = (sector_dims realEnv sampleGeom).enclosure_half_height_half_width
        - (0 * 10 + 2 * 10 * 10)
          / Real.cos (realEnv.atan2 (sector_dims realEnv wideSpacingGeom).width_adj1
              ((sector_dims realEnv wideSpacingGeom).enclosure_depth * (1 / 2))) := rfl
  have e2 : (sector_dims realEnv wideSpacingGeom).block_edge2_half_width
      = (sector_dims realEnv sampleGeom).enclosure_half_height_half_width
        - (0 * 10 + 2 * 10 * 10)
          / Real.cos (realEnv.atan2 (sector_dims realEnv wideSpacingGeom).width_adj2
              ((sector_dims realEnv wideSpacingGeom).enclosure_depth * (1 / 2))) := rfl
  rw [e1, e2]
  linarith

/-- C17 (amended) at the sample detector. -/
theorem half_widths_after_completion_witness :
    10 * realEnv.cm < (sector_dims realEnv sampleDetector.geom).enclosure_depth
    ∧ 0 < (sector_dims realEnv sampleDetector.geom).inner_half_width
    ∧ 0 < (sector_dims realEnv sampleDetector.geom).outter_half_width :=
  have h := half_widths_after_completion sampleDetector (emptyRegistries ℝ) sample_completes
    (by simp [sampleDetector, sampleGeom])
  ⟨h.1, ((h.2.2 rfl).2.2 (by norm_num [sampleDetector, sampleGeom])).1,
    ((h.2.2 rfl).2.2 (by norm_num [sampleDetector, sampleGeom])).2⟩

/-! ### Verbosity (C18) -/

theorem Run.loop_map {ι σ τ κ : Type} (f : σ → κ) (f' : τ → κ)
    (body : ι → σ → Run σ Unit) (body' : ι → τ → Run τ Unit)
    (h : ∀ i s t, f s = f' t → (body i s).map f id = (body' i t).map f' id) :
    ∀ (is : List ι) (s : σ) (t : τ), f s = f' t →
      (Run.loop body is s).map f id = (Run.loop body' is t).map f' id := by
  intro is
  induction is with
  | nil =>
    intro s t hst
    simp [Run.loop, Run.map, hst]
  | cons i rest ih =>
    intro s t hst
    have hb := h i s t hst
    cases h1 : body i s with
    | done s1 v1 =>
      cases h2 : body' i t with
      | done t1 w1 =>
        rw [h1, h2] at hb
        simp only [Run.map, Run.done.injEq] at hb
        simp only [Run.loop, h1, h2]
        exact ih s1 t1 hb.1
      | fatal t1 =>
        rw [h1, h2] at hb
        simp [Run.map] at hb
    | fatal s1 =>
      cases h2 : body' i t with
      | done t1 w1 =>
        rw [h1, h2] at hb
        simp [Run.map] at hb
      | fatal t1 =>
        rw [h1, h2] at hb
        simp only [Run.loop, h1, h2]
        exact hb

theorem registry_geometry_eq_iff {α : Type} (a b : Registries α) :
    registry_geometry a = registry_geometry b ↔
      a.calo_vol.map (fun e => (placed_geometry e.1, e.2))
          = b.calo_vol.map (fun e => (placed_geometry e.1, e.2))
      ∧ a.block_vol.map (fun e => (placed_geometry e.1, e.2))
          = b.block_vol.map (fun e => (placed_geometry e.1, e.2))
      ∧ a.fiber_vol.map (fun e => (placed_geometry e.1, e.2))
          = b.fiber_vol.map (fun e => (placed_geometry e.1, e.2))
      ∧ a.gdml_excluded.map placed_geometry = b.gdml_excluded.map placed_geometry := by
  simp [registry_geometry]

section Verbosity

variable {α : Type} [LinearOrderedField α]

theorem same_length_physi_verbosity (E : MathEnv α) (D : Detector α) (v cv : Int)
    (g : geom_tower α) (LV_tower : String) (fiber_length : α)
    (val : Int × (G4Vector3D α × G4Vector3D α)) :
    placed_geometry (same_length_physi E (with_verbosity D v cv) g LV_tower fiber_length val)
      = placed_geometry (same_length_physi E D g LV_tower fiber_length val) := rfl

theorem exact_length_physi_verbosity (E : MathEnv α) (D : Detector α) (v cv : Int)
    (g : geom_tower α) (LV_tower : String) (ix iy : Nat) :
    placed_geometry (exact_length_physi E (with_verbosity D v cv) g LV_tower ix iy)
      = placed_geometry (exact_length_physi E D g LV_tower ix iy) := rfl

theorem block_phys_verbosity (E : MathEnv α) (D : Detector α) (v cv : Int)
    (d : SectorDims α) (g : geom_tower α) (LV : G4LogicalVolume α) :
    placed_geometry (block_phys E (with_verbosity D v cv) d g LV)
      = placed_geometry (block_phys E D d g LV) := rfl

theorem scan_fibers_verbosity (E : MathEnv α) (D : Detector α) (v cv : Int) (g : geom_tower α) :
    scan_fibers E (with_verbosity D v cv) g = scan_fibers E D g := rfl

theorem block_logic_verbosity (E : MathEnv α) (D : Detector α) (v cv : Int) (g : geom_tower α) :
    block_logic E (with_verbosity D v cv) g = block_logic E D g := rfl

theorem sector_dims_verbosity (E : MathEnv α) (D : Detector α) (v cv : Int) :
    sector_dims E (with_verbosity D v cv).geom = sector_dims E D.geom := rfl

theorem sec_logic_verbosity (E : MathEnv α) (D : Detector α) (v cv : Int) (d : SectorDims α) :
    sec_logic E (with_verbosity D v cv) d = sec_logic E D d := rfl

theorem wall_entries_verbosity (E : MathEnv α) (D : Detector α) (v cv : Int)
    (d : SectorDims α) :
    wall_entries E (with_verbosity D v cv) d = wall_entries E D d := rfl

theorem same_length_body_verbosity (E : MathEnv α) (D : Detector α) (v cv : Int)
    (g : geom_tower α) (LV_tower : String) (fiber_length : α)
    (val : Int × (G4Vector3D α × G4Vector3D α)) (s t : PlaceState α)
    (hst : (registry_geometry s.regs, s.fiber_count, s.fiber_cut)
      = (registry_geometry t.regs, t.fiber_count, t.fiber_cut)) :
    (same_length_body E (with_verbosity D v cv) g LV_tower fiber_length val s).map
        (fun st => (registry_geometry st.regs, st.fiber_count, st.fiber_cut)) id
      = (same_length_body E D g LV_tower fiber_length val t).map
        (fun st => (registry_geometry st.regs, st.fiber_count, st.fiber_cut)) id := by
  simp only [Prod.mk.injEq, registry_geometry_eq_iff] at hst
  obtain ⟨⟨h1, h2, h3, h4⟩, h5, h6⟩ := hst
  have hp := same_length_physi_verbosity E D v cv g LV_tower fiber_length val
  have hg : (with_verbosity D v cv).gdml_config = D.gdml_config := rfl
  by_cases hlen : 0 ≤ val.2.1.mag E - fiber_length
  · by_cases hgd : D.gdml_config = true
    · simp [same_length_body, hlen, hg, hgd, Run.map, registry_geometry_eq_iff, h1, h2, h3, h4,
        h5, h6, hp]
    · simp [same_length_body, hlen, hg, hgd, Run.map, registry_geometry_eq_iff, h1, h2, h3, h4,
        h5, h6, hp]
  · simp [same_length_body, hlen, Run.map, registry_geometry_eq_iff, h1, h2, h3, h4, h5, h6]

theorem exact_length_body_verbosity (E : MathEnv α) (D : Detector α) (v cv : Int)
    (g : geom_tower α) (LV_tower : String) (ix iy : Nat) (s t : CountState α)
    (hst : (registry_geometry s.regs, s.fiber_cnt) = (registry_geometry t.regs, t.fiber_cnt)) :
    (exact_length_body E (with_verbosity D v cv) g LV_tower ix iy s).map
        (fun st => (registry_geometry st.regs, st.fiber_cnt)) id
      = (exact_length_body E D g LV_tower ix iy t).map
        (fun st => (registry_geometry st.regs, st.fiber_cnt)) id := by
  simp only [Prod.mk.injEq, registry_geometry_eq_iff] at hst
  obtain ⟨⟨h1, h2, h3, h4⟩, h5⟩ := hst
  have hp := exact_length_physi_verbosity E D v cv g LV_tower ix iy
  have hg : (with_verbosity D v cv).gdml_config = D.gdml_config := rfl
  by_cases hpar : (ix + iy) % 2 = 1
  · simp [exact_length_body, hpar, Run.map, registry_geometry_eq_iff, h1, h2, h3, h4, h5]
  · by_cases hgd : D.gdml_config = true
    · simp [exact_length_body, hpar, hg, hgd, Run.map, registry_geometry_eq_iff, h1, h2, h3, h4,
        h5, hp]
    · simp [exact_length_body, hpar, hg, hgd, Run.map, registry_geometry_eq_iff, h1, h2, h3, h4,
        h5, hp]

theorem Construct_Fibers_SameLengthFiberPerTower_verbosity (E : MathEnv α) (D : Detector α)
    (v cv : Int) (g : geom_tower α) (LV_tower : String) (a b : Registries α)
    (hab : registry_geometry a = registry_geometry b) :
    (Construct_Fibers_SameLengthFiberPerTower E (with_verbosity D v cv) g LV_tower a).map
        registry_geometry SameLengthResult.fiber_count
      = (Construct_Fibers_SameLengthFiberPerTower E D g LV_tower b).map
        registry_geometry SameLengthResult.fiber_count := by
  have hl := Run.loop_map
    (fun st : PlaceState α => (registry_geometry st.regs, st.fiber_count, st.fiber_cut))
    (fun st : PlaceState α => (registry_geometry st.regs, st.fiber_count, st.fiber_cut))
    (same_length_body E (with_verbosity D v cv) g LV_tower (scan_fibers E D g).min_fiber_length)
    (same_length_body E D g LV_tower (scan_fibers E D g).min_fiber_length)
    (fun val s t h => same_length_body_verbosity E D v cv g LV_tower _ val s t h)
    (scan_fibers E D g).fiber_par
    { regs := a, fiber_count := 0, fiber_cut := [] }
    { regs := b, fiber_count := 0, fiber_cut := [] } (by simp [hab])
  simp only [Construct_Fibers_SameLengthFiberPerTower, scan_fibers_verbosity]
  cases h1 : Run.loop
      (same_length_body E (with_verbosity D v cv) g LV_tower (scan_fibers E D g).min_fiber_length)
      (scan_fibers E D g).fiber_par { regs := a, fiber_count := 0, fiber_cut := [] } with
  | done s1 u1 =>
    cases h2 : Run.loop
        (same_length_body E D g LV_tower (scan_fibers E D g).min_fiber_length)
        (scan_fibers E D g).fiber_par { regs := b, fiber_count := 0, fiber_cut := [] } with
    | done t1 w1 =>
      rw [h1, h2] at hl
      simp only [Run.map, Run.done.injEq, Prod.mk.injEq] at hl
      simp [Run.map, hl.1.1, hl.1.2.1]
    | fatal t1 =>
      rw [h1, h2] at hl
      simp [Run.map] at hl
  | fatal s1 =>
    cases h2 : Run.loop
        (same_length_body E D g LV_tower (scan_fibers E D g).min_fiber_length)
        (scan_fibers E D g).fiber_par { regs := b, fiber_count := 0, fiber_cut := [] } with
    | done t1 w1 =>
      rw [h1, h2] at hl
      simp [Run.map] at hl
    | fatal t1 =>
      rw [h1, h2] at hl
      simp only [Run.map, Run.fatal.injEq, Prod.mk.injEq] at hl
      simp [Run.map, hl.1]

theorem Construct_Fibers_verbosity (E : MathEnv α) (D : Detector α)
    (v cv : Int) (g : geom_tower α) (LV_tower : String) (a b : Registries α)
    (hab : registry_geometry a = registry_geometry b) :
    (Construct_Fibers E (with_verbosity D v cv) g LV_tower a).map registry_geometry id
      = (Construct_Fibers E D g LV_tower b).map registry_geometry id := by
  have hl := Run.loop_map
    (fun st : CountState α => (registry_geometry st.regs, st.fiber_cnt))
    (fun st : CountState α => (registry_geometry st.regs, st.fiber_cnt))
    (fun ix st => Run.loop (exact_length_body E (with_verbosity D v cv) g LV_tower ix)
      (List.range g.NFiberY.toNat) st)
    (fun ix st => Run.loop (exact_length_body E D g LV_tower ix) (List.range g.NFiberY.toNat) st)
    (fun ix s t h => Run.loop_map _ _ _ _
      (fun iy s1 t1 h1 => exact_length_body_verbosity E D v cv g LV_tower ix iy s1 t1 h1)
      (List.range g.NFiberY.toNat) s t h)
    (List.range g.NFiberX.toNat)
    { regs := a, fiber_cnt := 0 } { regs := b, fiber_cnt := 0 } (by simp [hab])
  simp only [Construct_Fibers]
  cases h1 : Run.loop
      (fun ix st => Run.loop (exact_length_body E (with_verbosity D v cv) g LV_tower ix)
        (List.range g.NFiberY.toNat) st)
      (List.range g.NFiberX.toNat) { regs := a, fiber_cnt := 0 } with
  | done s1 u1 =>
    cases h2 : Run.loop
        (fun ix st => Run.loop (exact_length_body E D g LV_tower ix)
          (List.range g.NFiberY.toNat) st)
        (List.range g.NFiberX.toNat) { regs := b, fiber_cnt := 0 } with
    | done t1 w1 =>
      rw [h1, h2] at hl
      simp only [Run.map, Run.done.injEq, Prod.mk.injEq] at hl
      simp [Run.map, hl.1.1, hl.1.2]
    | fatal t1 =>
      rw [h1, h2] at hl
      simp [Run.map] at hl
  | fatal s1 =>
    cases h2 : Run.loop
        (fun ix st => Run.loop (exact_length_body E D g LV_tower ix)
          (List.range g.NFiberY.toNat) st)
        (List.range g.NFiberX.toNat) { regs := b, fiber_cnt := 0 } with
    | done t1 w1 =>
      rw [h1, h2] at hl
      simp [Run.map] at hl
    | fatal t1 =>
      rw [h1, h2] at hl
      simp only [Run.map, Run.fatal.injEq, Prod.mk.injEq] at hl
      simp [Run.map, hl.1]

theorem Construct_Tower_verbosity (E : MathEnv α) (D : Detector α)
    (v cv : Int) (g : geom_tower α) (a b : Registries α)
    (hab : registry_geometry a = registry_geometry b) :
    (Construct_Tower E (with_verbosity D v cv) g a).map registry_geometry id
      = (Construct_Tower E D g b).map registry_geometry id := by
  by_cases hmat : D.hasMaterial D.geom.absorber_mat = true
  · cases hc : D.geom.config with
    | kFullProjective_2DTaper_Tilted =>
      have hf := Construct_Fibers_verbosity E D v cv g (block_logic E D g).name a b hab
      obtain ⟨t1, t2⟩ := Construct_Tower_tilted E D g b hmat hc
      obtain ⟨s1, s2⟩ := Construct_Tower_tilted E (with_verbosity D v cv) g a hmat hc
      cases h1 : Construct_Fibers E (with_verbosity D v cv) g (block_logic E D g).name a with
      | done x1 c1 =>
        cases h2 : Construct_Fibers E D g (block_logic E D g).name b with
        | done x2 c2 =>
          rw [h1, h2] at hf
          simp only [Run.map, Run.done.injEq] at hf
          rw [s2 x1 c1 h1, t2 x2 c2 h2]
          simp [Run.map, hf.1, block_logic_verbosity]
        | fatal x2 =>
          rw [h1, h2] at hf
          simp [Run.map] at hf
      | fatal x1 =>
        cases h2 : Construct_Fibers E D g (block_logic E D g).name b with
        | done x2 c2 =>
          rw [h1, h2] at hf
          simp [Run.map] at hf
        | fatal x2 =>
          rw [h1, h2] at hf
          simp only [Run.map, Run.fatal.injEq] at hf
          rw [s1 x1 h1, t1 x2 h2]
          simp [Run.map, hf]
    | kFullProjective_2DTaper_Tilted_SameLengthFiberPerTower =>
      have hf := Construct_Fibers_SameLengthFiberPerTower_verbosity E D v cv g
        (block_logic E D g).name a b hab
      obtain ⟨t1, t2⟩ := Construct_Tower_same_length E D g b hmat hc
      obtain ⟨s1, s2⟩ := Construct_Tower_same_length E (with_verbosity D v cv) g a hmat hc
      cases h1 : Construct_Fibers_SameLengthFiberPerTower E (with_verbosity D v cv) g
          (block_logic E D g).name a with
      | done x1 c1 =>
        cases h2 : Construct_Fibers_SameLengthFiberPerTower E D g (block_logic E D g).name b with
        | done x2 c2 =>
          rw [h1, h2] at hf
          simp only [Run.map, Run.done.injEq] at hf
          rw [s2 x1 c1 h1, t2 x2 c2 h2]
          simp [Run.map, hf.1, block_logic_verbosity]
        | fatal x2 =>
          rw [h1, h2] at hf
          simp [Run.map] at hf
      | fatal x1 =>
        cases h2 : Construct_Fibers_SameLengthFiberPerTower E D g (block_logic E D g).name b with
        | done x2 c2 =>
          rw [h1, h2] at hf
          simp [Run.map] at hf
        | fatal x2 =>
          rw [h1, h2] at hf
          simp only [Run.map, Run.fatal.injEq] at hf
          rw [s1 x1 h1, t1 x2 h2]
          simp [Run.map, hf]
    | other code =>
      rw [Construct_Tower_other E D g b code hc,
        Construct_Tower_other E (with_verbosity D v cv) g a code hc]
      simp [Run.map, hab]
  · have hmat1 : D.hasMaterial D.geom.absorber_mat = false := by simpa using hmat
    rw [Construct_Tower_no_material E D g b hmat1,
      Construct_Tower_no_material E (with_verbosity D v cv) g a hmat1]
    simp [Run.map, hab]

theorem tower_body_verbosity (E : MathEnv α) (D : Detector α) (v cv : Int) (d : SectorDims α)
    (val : Int × geom_tower α) (a b : Registries α)
    (hab : registry_geometry a = registry_geometry b) :
    (tower_body E (with_verbosity D v cv) d val a).map registry_geometry id
      = (tower_body E D d val b).map registry_geometry id := by
  have ht := Construct_Tower_verbosity E D v cv val.2 a b hab
  have hp := block_phys_verbosity E D v cv d val.2
  cases h1 : Construct_Tower E (with_verbosity D v cv) val.2 a with
  | done x1 c1 =>
    cases h2 : Construct_Tower E D val.2 b with
    | done x2 c2 =>
      rw [h1, h2] at ht
      simp only [Run.map, Run.done.injEq, id] at ht
      obtain ⟨hx, hcc⟩ := ht
      subst hcc
      rw [registry_geometry_eq_iff] at hx
      simp [tower_body, h1, h2, Run.map, registry_geometry_eq_iff, hx.1, hx.2.1, hx.2.2.1,
        hx.2.2.2, hp]
    | fatal x2 =>
      rw [h1, h2] at ht
      simp [Run.map] at ht
  | fatal x1 =>
    cases h2 : Construct_Tower E D val.2 b with
    | done x2 c2 =>
      rw [h1, h2] at ht
      simp [Run.map] at ht
    | fatal x2 =>
      rw [h1, h2] at ht
      simp only [Run.map, Run.fatal.injEq] at ht
      simp [tower_body, h1, h2, Run.map, ht]

theorem Construct_AzimuthalSeg_verbosity (E : MathEnv α) (D : Detector α) (v cv : Int)
    (a b : Registries α) (hab : registry_geometry a = registry_geometry b) :
    (Construct_AzimuthalSeg E (with_verbosity D v cv) a).map registry_geometry id
      = (Construct_AzimuthalSeg E D b).map registry_geometry id := by
  have hchk : sector_checks E (with_verbosity D v cv) = sector_checks E D := rfl
  cases hc : sector_checks E D with
  | false =>
    rw [Construct_AzimuthalSeg_checks_fail E D b hc,
      Construct_AzimuthalSeg_checks_fail E (with_verbosity D v cv) a (hchk.trans hc)]
    simp [Run.map, hab]
  | true =>
    obtain ⟨t1, t2⟩ := Construct_AzimuthalSeg_checks_pass E D b hc
    obtain ⟨s1, s2⟩ := Construct_AzimuthalSeg_checks_pass E (with_verbosity D v cv) a
      (hchk.trans hc)
    rw [registry_geometry_eq_iff] at hab
    have hl := Run.loop_map registry_geometry registry_geometry
      (tower_body E (with_verbosity D v cv) (sector_dims E D.geom))
      (tower_body E D (sector_dims E D.geom))
      (fun val s t h => tower_body_verbosity E D v cv _ val s t h)
      D.geom.sector_tower_map
      { a with calo_vol := a.calo_vol ++ wall_entries E D (sector_dims E D.geom) }
      { b with calo_vol := b.calo_vol ++ wall_entries E D (sector_dims E D.geom) }
      (by simp [registry_geometry_eq_iff, hab.1, hab.2.1, hab.2.2.1, hab.2.2.2])
    cases h1 : Run.loop (tower_body E (with_verbosity D v cv) (sector_dims E D.geom))
        D.geom.sector_tower_map
        { a with calo_vol := a.calo_vol ++ wall_entries E D (sector_dims E D.geom) } with
    | done x1 c1 =>
      cases h2 : Run.loop (tower_body E D (sector_dims E D.geom)) D.geom.sector_tower_map
          { b with calo_vol := b.calo_vol ++ wall_entries E D (sector_dims E D.geom) } with
      | done x2 c2 =>
        rw [h1, h2] at hl
        simp only [Run.map, Run.done.injEq] at hl
        rw [s2 x1 h1, t2 x2 h2]
        simp [Run.map, hl.1, sec_logic_verbosity, sector_dims_verbosity]
      | fatal x2 =>
        rw [h1, h2] at hl
        simp [Run.map] at hl
    | fatal x1 =>
      cases h2 : Run.loop (tower_body E D (sector_dims E D.geom)) D.geom.sector_tower_map
          { b with calo_vol := b.calo_vol ++ wall_entries E D (sector_dims E D.geom) } with
      | done x2 c2 =>
        rw [h1, h2] at hl
        simp [Run.map] at hl
      | fatal x2 =>
        rw [h1, h2] at hl
        simp only [Run.map, Run.fatal.injEq] at hl
        rw [s1 x1 h1, t1 x2 h2]
        simp [Run.map, hl]

end Verbosity

/-- C18: verbosity is observability only. For every detector and every other
pair of levels `Verbosity()` and construction verbosity, the sector dimensions
are the same and a run of `Construct_AzimuthalSeg`, of `Construct_Tower` and
of either fiber layout from the same registries ends the same way (returns or
stops), with the same returned volume or fiber count and with the same
geometry in `calo_vol`, `block_vol` and `fiber_vol`: the same placements in
the same order with the same solids, transforms, names, mother volumes, copy
numbers and ids. What a placement carries besides is the request for an
overlap check, which the code makes at construction verbosity 2 (towers) and
3 (fibers) when `overlapcheck` is set. -/
theorem verbosity_is_observability_only {α : Type} [LinearOrderedField α] (E : MathEnv α)
    (D : Detector α) (verbosity construction_verbose : Int) (g : geom_tower α)
    (LV_tower : String) (regs : Registries α) :
    sector_dims E (with_verbosity D verbosity construction_verbose).geom = sector_dims E D.geom
    ∧ (Construct_AzimuthalSeg E (with_verbosity D verbosity construction_verbose) regs).map
          registry_geometry id
        = (Construct_AzimuthalSeg E D regs).map registry_geometry id
    ∧ (Construct_Tower E (with_verbosity D verbosity construction_verbose) g regs).map
          registry_geometry id
        = (Construct_Tower E D g regs).map registry_geometry id
    ∧ (Construct_Fibers E (with_verbosity D verbosity construction_verbose) g LV_tower regs).map
          registry_geometry id
        = (Construct_Fibers E D g LV_tower regs).map registry_geometry id
    ∧ (Construct_Fibers_SameLengthFiberPerTower E
          (with_verbosity D verbosity construction_verbose) g LV_tower regs).map
          registry_geometry SameLengthResult.fiber_count
        = (Construct_Fibers_SameLengthFiberPerTower E D g LV_tower regs).map
          registry_geometry SameLengthResult.fiber_count :=
  ⟨sector_dims_verbosity E D verbosity construction_verbose,
    Construct_AzimuthalSeg_verbosity E D verbosity construction_verbose regs regs rfl,
    Construct_Tower_verbosity E D verbosity construction_verbose g regs regs rfl,
    Construct_Fibers_verbosity E D verbosity construction_verbose g LV_tower regs regs rfl,
    Construct_Fibers_SameLengthFiberPerTower_verbosity E D verbosity construction_verbose g
      LV_tower regs regs rfl⟩

/-! ### The rescaling about the front end (C21, C25, C28) -/

section FrontEnd

variable {α : Type} [LinearOrderedField α]

/-- The front end `center_fiber - 0.5 * vector_fiber` is the same before and
after lines 441-442, whatever the two lengths are. -/
theorem recentred_front (E : MathEnv α) (fiber_length : α) (v c : G4Vector3D α) :
    (recentred E fiber_length v c).sub ((rescaled E fiber_length v).scale (1 / 2))
      = c.sub (v.scale (1 / 2)) := by
  simp only [recentred, rescaled, G4Vector3D.add, G4Vector3D.sub, G4Vector3D.scale,
    G4Vector3D.mk.injEq]
  refine ⟨?_, ?_, ?_⟩ <;> ring

/-- The back end after lines 441-442 is the old back end moved back along the
fiber by the fraction `1 - fiber_length / optimal_fiber_length` of its vector. -/
theorem recentred_back (E : MathEnv α) (fiber_length : α) (v c : G4Vector3D α) :
    (recentred E fiber_length v c).add ((rescaled E fiber_length v).scale (1 / 2))
      = (c.add (v.scale (1 / 2))).sub (v.scale (1 - fiber_length / v.mag E)) := by
  simp only [recentred, rescaled, G4Vector3D.add, G4Vector3D.sub, G4Vector3D.scale,
    G4Vector3D.mk.injEq]
  refine ⟨?_, ?_, ?_⟩ <;> ring

/-- The centre after line 441 is the old centre moved toward the front end by
half of that fraction. -/
theorem recentred_center (E : MathEnv α) (fiber_length : α) (v c : G4Vector3D α) :
    recentred E fiber_length v c
      = c.sub (v.scale ((1 - fiber_length / v.mag E) * (1 / 2))) := by
  simp only [recentred, G4Vector3D.add, G4Vector3D.sub, G4Vector3D.scale,
    G4Vector3D.mk.injEq]
  refine ⟨?_, ?_, ?_⟩ <;> ring

/-- The length of the piece `(1 - fiber_length / optimal) * vector` that is cut. -/
theorem cut_length (E : MathEnv α) (hE : SqrtLaws E) (fiber_length : α) (v : G4Vector3D α)
    (hopt : 0 < v.mag E) (hle : fiber_length ≤ v.mag E) (k : α) (hk : 0 ≤ k) :
    (v.scale ((1 - fiber_length / v.mag E) * k)).mag E = (v.mag E - fiber_length) * k := by
  have hr : fiber_length / v.mag E ≤ 1 := (div_le_one hopt).2 hle
  rw [mag_scale E hE, abs_of_nonneg (mul_nonneg (by linarith) hk)]
  field_simp

/-- A vector of positive length is not the zero vector. -/
theorem scale_eq_zero_of_mag_pos (E : MathEnv α) (hE : SqrtLaws E) (v : G4Vector3D α)
    (hopt : 0 < v.mag E) (k : α) (h : v.scale k = G4Vector3D.mk 0 0 0) : k = 0 := by
  have hm := mag_scale E hE v k
  rw [h] at hm
  have h0 : (G4Vector3D.mk (0 : α) 0 0).mag E = 0 := by
    have hz := hE.mul_self_sqrt (0 : α) (le_refl 0)
    have : G4Vector3D.mag2 (G4Vector3D.mk (0 : α) 0 0) = 0 := by simp [G4Vector3D.mag2]
    unfold G4Vector3D.mag
    rw [this]
    exact mul_self_eq_zero.1 hz
  rw [h0] at hm
  have : |k| = 0 := by
    rcases mul_eq_zero.1 hm.symm with h1 | h1
    · exact h1
    · exact absurd h1 (ne_of_gt hopt)
  exact abs_eq_zero.1 this

theorem recentred_eq_iff (E : MathEnv α) (hE : SqrtLaws E) (fiber_length : α)
    (v c : G4Vector3D α) (hopt : 0 < v.mag E) :
    recentred E fiber_length v c = c ↔ fiber_length = v.mag E := by
  constructor
  · intro h
    have hz : v.scale ((fiber_length / v.mag E - 1) * (1 / 2)) = G4Vector3D.mk 0 0 0 := by
      simp only [recentred, G4Vector3D.add, G4Vector3D.scale] at h
      have hx := congrArg G4Vector3D.x h
      have hy := congrArg G4Vector3D.y h
      have hz := congrArg G4Vector3D.z h
      simp only at hx hy hz
      simp only [G4Vector3D.scale, G4Vector3D.mk.injEq]
      exact ⟨by linarith, by linarith, by linarith⟩
    have hk := scale_eq_zero_of_mag_pos E hE v hopt _ hz
    have hk1 : fiber_length / v.mag E - 1 = 0 := by
      rcases mul_eq_zero.1 hk with h1 | h1
      · exact h1
      · norm_num at h1
    have hk2 : fiber_length / v.mag E = 1 := by linarith
    rw [div_eq_one_iff_eq (ne_of_gt hopt)] at hk2
    exact hk2
  · intro h
    have hk : fiber_length / v.mag E = 1 := by
      rw [h]
      exact div_self (ne_of_gt hopt)
    cases c
    simp [recentred, hk, G4Vector3D.add, G4Vector3D.scale]

end FrontEnd

/-- C28: the rescaling of lines 441-442 keeps the front end of every fiber.
For every fiber of positive optimal length that is not shorter than the
length it is cut to, the placement uses `center' = center +
(fiber_length / optimal_fiber_length - 1) * 0.5 * vector` and `vector' =
(fiber_length / optimal_fiber_length) * vector`; its front end `center' - 0.5
* vector'` is `center - 0.5 * vector`, and its back end is the old back end
less the piece `(1 - fiber_length / optimal_fiber_length) * vector`, of length
`optimal_fiber_length - fiber_length`: the whole cut is at the back. -/
theorem front_end_is_kept {α : Type} [LinearOrderedField α] (E : MathEnv α) (hE : SqrtLaws E)
    (D : Detector α) (g : geom_tower α) (LV_tower : String) (fiber_length : α)
    (val : Int × (G4Vector3D α × G4Vector3D α)) (hopt : 0 < val.2.1.mag E)
    (hle : fiber_length ≤ val.2.1.mag E) :
    (same_length_physi E D g LV_tower fiber_length val).transform
        = fiber_place E (recentred E fiber_length val.2.1 val.2.2)
            (rescaled E fiber_length val.2.1)
    ∧ recentred E fiber_length val.2.1 val.2.2
        = val.2.2.add (val.2.1.scale ((fiber_length / val.2.1.mag E - 1) * (1 / 2)))
    ∧ rescaled E fiber_length val.2.1 = val.2.1.scale (fiber_length / val.2.1.mag E)
    ∧ (recentred E fiber_length val.2.1 val.2.2).sub
          ((rescaled E fiber_length val.2.1).scale (1 / 2))
        = val.2.2.sub (val.2.1.scale (1 / 2))
    ∧ (recentred E fiber_length val.2.1 val.2.2).add
          ((rescaled E fiber_length val.2.1).scale (1 / 2))
        = (val.2.2.add (val.2.1.scale (1 / 2))).sub
            (val.2.1.scale (1 - fiber_length / val.2.1.mag E))
    ∧ (val.2.1.scale (1 - fiber_length / val.2.1.mag E)).mag E
        = val.2.1.mag E - fiber_length := by
  refine ⟨rfl, rfl, rfl, recentred_front E _ _ _, recentred_back E _ _ _, ?_⟩
  have h := cut_length E hE fiber_length val.2.1 hopt hle 1 (by norm_num)
  simpa using h

/-- C28 at a fiber of length 129 along z that is cut to 100: the front end
stays at `z = -129 / 2`. -/
theorem front_end_is_kept_witness :
    (recentred realEnv 100 (G4Vector3D.mk 0 0 129) (G4Vector3D.mk (-10) (-10) 0)).sub
        ((rescaled realEnv 100 (G4Vector3D.mk 0 0 129)).scale (1 / 2))
      = (G4Vector3D.mk (-10 : ℝ) (-10) 0).sub ((G4Vector3D.mk (0 : ℝ) 0 129).scale (1 / 2)) :=
  (front_end_is_kept realEnv real_sqrt_laws sampleDetector straightTower "CEMC_Tower_7" 100
    (0, (G4Vector3D.mk 0 0 129, G4Vector3D.mk (-10) (-10) 0))
    (by rw [real_mag_z]; norm_num) (by rw [real_mag_z]; norm_num)).2.2.2.1

/-- C21 (amended): in `Construct_Fibers_SameLengthFiberPerTower` the rescaling
is about the front end of the fiber, not about its centre.  For every stored
fiber of positive optimal length, the centre of the placed fiber is the centre
of the optimal chord moved toward the front end by half of the cut,
`(optimal_fiber_length - fiber_length) / 2`; it is the centre of the chord
only when the fiber is not cut.  The front end stays where it is and the back
end moves inward by the whole cut `optimal_fiber_length - fiber_length`. -/
theorem rescaling_moves_center {α : Type} [LinearOrderedField α] (E : MathEnv α)
    (hE : SqrtLaws E) (D : Detector α) (g : geom_tower α) (LV_tower : String)
    (val : Int × (G4Vector3D α × G4Vector3D α)) (hval : val ∈ (scan_fibers E D g).fiber_par)
    (hopt : 0 < val.2.1.mag E) :
    (same_length_physi E D g LV_tower (scan_fibers E D g).min_fiber_length val).transform
        = fiber_place E (recentred E (scan_fibers E D g).min_fiber_length val.2.1 val.2.2)
            (rescaled E (scan_fibers E D g).min_fiber_length val.2.1)
    ∧ recentred E (scan_fibers E D g).min_fiber_length val.2.1 val.2.2
        = val.2.2.sub (val.2.1.scale
            ((1 - (scan_fibers E D g).min_fiber_length / val.2.1.mag E) * (1 / 2)))
    ∧ (val.2.1.scale
          ((1 - (scan_fibers E D g).min_fiber_length / val.2.1.mag E) * (1 / 2))).mag E
        = (val.2.1.mag E - (scan_fibers E D g).min_fiber_length) * (1 / 2)
    ∧ (recentred E (scan_fibers E D g).min_fiber_length val.2.1 val.2.2 = val.2.2
        ↔ (scan_fibers E D g).min_fiber_length = val.2.1.mag E)
    ∧ (recentred E (scan_fibers E D g).min_fiber_length val.2.1 val.2.2).sub
          ((rescaled E (scan_fibers E D g).min_fiber_length val.2.1).scale (1 / 2))
        = val.2.2.sub (val.2.1.scale (1 / 2))
    ∧ (recentred E (scan_fibers E D g).min_fiber_length val.2.1 val.2.2).add
          ((rescaled E (scan_fibers E D g).min_fiber_length val.2.1).scale (1 / 2))
        = (val.2.2.add (val.2.1.scale (1 / 2))).sub
            (val.2.1.scale (1 - (scan_fibers E D g).min_fiber_length / val.2.1.mag E))
    ∧ (val.2.1.scale (1 - (scan_fibers E D g).min_fiber_length / val.2.1.mag E)).mag E
        = val.2.1.mag E - (scan_fibers E D g).min_fiber_length := by
  have hle : (scan_fibers E D g).min_fiber_length ≤ val.2.1.mag E :=
    scan_fibers_below E D g val hval
  refine ⟨rfl, recentred_center E _ _ _,
    cut_length E hE _ val.2.1 hopt hle (1 / 2) (by norm_num),
    recentred_eq_iff E hE _ _ _ hopt, recentred_front E _ _ _, recentred_back E _ _ _, ?_⟩
  have h := cut_length E hE _ val.2.1 hopt hle 1 (by norm_num)
  simpa using h

theorem flared_fiber_par_00 :
    (0, fiber_chord realEnv (1 / 10) flaredTower 0 0)
      ∈ (scan_fibers realEnv sampleDetector flaredTower).fiber_par := by
  rw [scan_fibers_two_by_two realEnv sampleDetector flaredTower rfl rfl rfl]
  have h : sampleDetector.geom.fiber_outer_r = 1 / 10 := rfl
  rw [h]
  simp

theorem flared_center_00 :
    (fiber_chord realEnv (1 / 10) flaredTower 0 0).2 = G4Vector3D.mk (-70) (-10) 0 := by
  simp [fiber_chord, chord_ends, v_zshift, flaredTower, straightTower, realEnv,
    G4Vector3D.sub, G4Vector3D.add, G4Vector3D.scale, G4Vector3D.sdiv]
  norm_num

theorem flared_mag_00 : (fiber_chord realEnv (1 / 10) flaredTower 0 0).1.mag realEnv = 129 :=
  flared_chord_length_00

/-- C21 as stated fails: in the flared tower the fiber of the cell `(0, 0)`
has optimal length 129 and is cut to the common length 100; the centre of its
optimal chord is at `z = 0` and the centre of the placed fiber at
`z = -145 / 26`. -/
theorem flared_center_counterexample :
    (0, fiber_chord realEnv (1 / 10) flaredTower 0 0)
        ∈ (scan_fibers realEnv sampleDetector flaredTower).fiber_par
    ∧ (fiber_chord realEnv (1 / 10) flaredTower 0 0).1.mag realEnv = 129
    ∧ (scan_fibers realEnv sampleDetector flaredTower).min_fiber_length = 100
    ∧ (fiber_chord realEnv (1 / 10) flaredTower 0 0).2.z = 0
    ∧ (recentred realEnv (scan_fibers realEnv sampleDetector flaredTower).min_fiber_length
        (fiber_chord realEnv (1 / 10) flaredTower 0 0).1
        (fiber_chord realEnv (1 / 10) flaredTower 0 0).2).z = -(145 / 26) := by
  refine ⟨flared_fiber_par_00, flared_mag_00, flared_min_fiber_length, ?_, ?_⟩
  · rw [flared_center_00]
  · unfold recentred
    rw [flared_mag_00, flared_min_fiber_length, flared_center_00, flared_chord_00]
    simp [G4Vector3D.add, G4Vector3D.scale]
    norm_num

/-- C21 (amended) at the fiber of the cell `(0, 0)` of the flared tower. -/
theorem rescaling_moves_center_witness :
    ((fiber_chord realEnv (1 / 10) flaredTower 0 0).1.scale
        ((1 - (scan_fibers realEnv sampleDetector flaredTower).min_fiber_length
            / (fiber_chord realEnv (1 / 10) flaredTower 0 0).1.mag realEnv) * (1 / 2))).mag realEnv
      = ((fiber_chord realEnv (1 / 10) flaredTower 0 0).1.mag realEnv
          - (scan_fibers realEnv sampleDetector flaredTower).min_fiber_length) * (1 / 2) :=
  (rescaling_moves_center realEnv real_sqrt_laws sampleDetector flaredTower "CEMC_Tower_7"
    (0, fiber_chord realEnv (1 / 10) flaredTower 0 0) flared_fiber_par_00
    (by rw [flared_mag_00]; norm_num)).2.2.1

/-- C25: the common length still clears every chord.  In
`Construct_Fibers_SameLengthFiberPerTower`, for every tower with `pDz ≥ 0` and
every stored fiber of positive optimal length, each point `center' - vector'/2
+ t * vector'`, `0 ≤ t ≤ 1`, of the placed fiber is a point `center - vector/2
+ s * vector`, `0 ≤ s ≤ 1`, of the optimal chord of that fiber. -/
theorem placed_fiber_within_chord {α : Type} [LinearOrderedField α] (E : MathEnv α)
    (hE : SqrtLaws E) (hcm : 0 ≤ E.cm) (D : Detector α) (g : geom_tower α)
    (LV_tower : String) (hDz : 0 ≤ g.pDz)
    (val : Int × (G4Vector3D α × G4Vector3D α)) (hval : val ∈ (scan_fibers E D g).fiber_par)
    (hopt : 0 < val.2.1.mag E) :
    (same_length_physi E D g LV_tower (scan_fibers E D g).min_fiber_length val).transform
        = fiber_place E (recentred E (scan_fibers E D g).min_fiber_length val.2.1 val.2.2)
            (rescaled E (scan_fibers E D g).min_fiber_length val.2.1)
    ∧ ∀ t : α, 0 ≤ t → t ≤ 1 → ∃ s : α, 0 ≤ s ∧ s ≤ 1
        ∧ ((recentred E (scan_fibers E D g).min_fiber_length val.2.1 val.2.2).sub
              ((rescaled E (scan_fibers E D g).min_fiber_length val.2.1).scale (1 / 2))).add
            ((rescaled E (scan_fibers E D g).min_fiber_length val.2.1).scale t)
          = (val.2.2.sub (val.2.1.scale (1 / 2))).add (val.2.1.scale s) := by
  have hle : (scan_fibers E D g).min_fiber_length ≤ val.2.1.mag E :=
    scan_fibers_below E D g val hval
  have h0 : 0 ≤ (scan_fibers E D g).min_fiber_length := common_length_nonneg E hE hcm D g hDz
  have hr0 : 0 ≤ (scan_fibers E D g).min_fiber_length / val.2.1.mag E :=
    div_nonneg h0 (le_of_lt hopt)
  have hr1 : (scan_fibers E D g).min_fiber_length / val.2.1.mag E ≤ 1 := (div_le_one hopt).2 hle
  refine ⟨rfl, fun t ht0 ht1 => ?_⟩
  refine ⟨(scan_fibers E D g).min_fiber_length / val.2.1.mag E * t, mul_nonneg hr0 ht0, ?_, ?_⟩
  · calc (scan_fibers E D g).min_fiber_length / val.2.1.mag E * t ≤ 1 * 1 :=
        mul_le_mul hr1 ht1 ht0 (by norm_num)
      _ = 1 := by norm_num
  · rw [recentred_front]
    simp only [rescaled, G4Vector3D.add, G4Vector3D.sub, G4Vector3D.scale, G4Vector3D.mk.injEq]
    refine ⟨?_, ?_, ?_⟩ <;> ring

/-- C25 at the fiber of the cell `(0, 0)` of the flared tower: the back end of
the placed fiber (`t = 1`) is a point of the optimal chord. -/
theorem placed_fiber_within_chord_witness :
    ∃ s : ℝ, 0 ≤ s ∧ s ≤ 1
      ∧ ((recentred realEnv (scan_fibers realEnv sampleDetector flaredTower).min_fiber_length
              (fiber_chord realEnv (1 / 10) flaredTower 0 0).1
              (fiber_chord realEnv (1 / 10) flaredTower 0 0).2).sub
            ((rescaled realEnv (scan_fibers realEnv sampleDetector flaredTower).min_fiber_length
              (fiber_chord realEnv (1 / 10) flaredTower 0 0).1).scale (1 / 2))).add
          ((rescaled realEnv (scan_fibers realEnv sampleDetector flaredTower).min_fiber_length
              (fiber_chord realEnv (1 / 10) flaredTower 0 0).1).scale 1)
        = ((fiber_chord realEnv (1 / 10) flaredTower 0 0).2.sub
            ((fiber_chord realEnv (1 / 10) flaredTower 0 0).1.scale (1 / 2))).add
          ((fiber_chord realEnv (1 / 10) flaredTower 0 0).1.scale s) :=
  (placed_fiber_within_chord realEnv real_sqrt_laws (by simp [realEnv]) sampleDetector
    flaredTower "CEMC_Tower_7" (by norm_num [flaredTower])
    (0, fiber_chord realEnv (1 / 10) flaredTower 0 0) flared_fiber_par_00
    (by rw [flared_mag_00]; norm_num)).2 1 (by norm_num) (by norm_num)

/-! ### The fiber vector (C23) -/

section FiberVector

variable {α : Type} [LinearOrderedField α]

/-- The vector of `fiber_chord` as one multiple of `v2 - v1`. -/
theorem fiber_chord_vector (E : MathEnv α) (r : α) (g : geom_tower α) (ix iy : Nat) :
    (fiber_chord E r g ix iy).1
      = ((chord_ends E r g ix iy).2.sub (chord_ends E r g ix iy).1).scale
          ((((chord_ends E r g ix iy).2.sub (chord_ends E r g ix iy).1).mag E - r)
            / ((chord_ends E r g ix iy).2.sub (chord_ends E r g ix iy).1).mag E * E.cm) := by
  simp only [fiber_chord, G4Vector3D.scale, G4Vector3D.mk.injEq]
  refine ⟨?_, ?_, ?_⟩ <;> ring

/-- The front end of a chord `a`, `b` shrunk by `r` over its length `m`. -/
theorem shrunk_front (a b : G4Vector3D α) (r m cm : α) (hm : m ≠ 0) :
    (((b.add a).sdiv 2).scale cm).sub (((b.sub a).scale ((m - r) / m * cm)).scale (1 / 2))
      = (a.add ((b.sub a).scale (r / 2 / m))).scale cm := by
  cases a
  cases b
  simp only [G4Vector3D.add, G4Vector3D.sub, G4Vector3D.scale, G4Vector3D.sdiv,
    G4Vector3D.mk.injEq]
  refine ⟨?_, ?_, ?_⟩ <;> field_simp <;> ring

/-- The back end of a chord `a`, `b` shrunk by `r` over its length `m`. -/
theorem shrunk_back (a b : G4Vector3D α) (r m cm : α) (hm : m ≠ 0) :
    (((b.add a).sdiv 2).scale cm).add (((b.sub a).scale ((m - r) / m * cm)).scale (1 / 2))
      = (b.sub ((b.sub a).scale (r / 2 / m))).scale cm := by
  cases a
  cases b
  simp only [G4Vector3D.add, G4Vector3D.sub, G4Vector3D.scale, G4Vector3D.sdiv,
    G4Vector3D.mk.injEq]
  refine ⟨?_, ?_, ?_⟩ <;> field_simp <;> ring

end FiberVector

/-- C23: the fiber vector is the chord `v2 - v1` shrunk by the outer radius
of the fiber.  For every cell whose chord end points `v1` and `v2` satisfy
`|v2 - v1| > fiber_outer_r ≥ 0`, the vector that `Construct_Fibers` places and
that `Construct_Fibers_SameLengthFiberPerTower` stores for a kept cell is a
positive multiple of `v2 - v1` of length `(|v2 - v1| - fiber_outer_r) * cm`,
and the centre is `(v2 + v1) / 2 * cm`: the front end is `v1` and the back end
`v2` moved inward along the chord by `fiber_outer_r / 2`. -/
theorem fiber_vector_is_shrunk_chord {α : Type} [LinearOrderedField α] (E : MathEnv α)
    (hE : SqrtLaws E) (hcm : 0 < E.cm) (D : Detector α) (g : geom_tower α) (LV_tower : String)
    (ix iy : Nat) (hr0 : 0 ≤ D.geom.fiber_outer_r)
    (hr : D.geom.fiber_outer_r
      < ((chord_ends E D.geom.fiber_outer_r g ix iy).2.sub
          (chord_ends E D.geom.fiber_outer_r g ix iy).1).mag E) :
    (fiber_chord E D.geom.fiber_outer_r g ix iy).1
        = ((chord_ends E D.geom.fiber_outer_r g ix iy).2.sub
            (chord_ends E D.geom.fiber_outer_r g ix iy).1).scale
            ((((chord_ends E D.geom.fiber_outer_r g ix iy).2.sub
                (chord_ends E D.geom.fiber_outer_r g ix iy).1).mag E - D.geom.fiber_outer_r)
              / ((chord_ends E D.geom.fiber_outer_r g ix iy).2.sub
                (chord_ends E D.geom.fiber_outer_r g ix iy).1).mag E * E.cm)
    ∧ 0 < (((chord_ends E D.geom.fiber_outer_r g ix iy).2.sub
              (chord_ends E D.geom.fiber_outer_r g ix iy).1).mag E - D.geom.fiber_outer_r)
            / ((chord_ends E D.geom.fiber_outer_r g ix iy).2.sub
              (chord_ends E D.geom.fiber_outer_r g ix iy).1).mag E * E.cm
    ∧ (fiber_chord E D.geom.fiber_outer_r g ix iy).1.mag E
        = (((chord_ends E D.geom.fiber_outer_r g ix iy).2.sub
            (chord_ends E D.geom.fiber_outer_r g ix iy).1).mag E - D.geom.fiber_outer_r) * E.cm
    ∧ (fiber_chord E D.geom.fiber_outer_r g ix iy).2
        = (((chord_ends E D.geom.fiber_outer_r g ix iy).2.add
            (chord_ends E D.geom.fiber_outer_r g ix iy).1).sdiv 2).scale E.cm
    ∧ (fiber_chord E D.geom.fiber_outer_r g ix iy).2.sub
          ((fiber_chord E D.geom.fiber_outer_r g ix iy).1.scale (1 / 2))
        = ((chord_ends E D.geom.fiber_outer_r g ix iy).1.add
            (((chord_ends E D.geom.fiber_outer_r g ix iy).2.sub
              (chord_ends E D.geom.fiber_outer_r g ix iy).1).scale
              (D.geom.fiber_outer_r / 2
                / ((chord_ends E D.geom.fiber_outer_r g ix iy).2.sub
                  (chord_ends E D.geom.fiber_outer_r g ix iy).1).mag E))).scale E.cm
    ∧ (fiber_chord E D.geom.fiber_outer_r g ix iy).2.add
          ((fiber_chord E D.geom.fiber_outer_r g ix iy).1.scale (1 / 2))
        = ((chord_ends E D.geom.fiber_outer_r g ix iy).2.sub
            (((chord_ends E D.geom.fiber_outer_r g ix iy).2.sub
              (chord_ends E D.geom.fiber_outer_r g ix iy).1).scale
              (D.geom.fiber_outer_r / 2
                / ((chord_ends E D.geom.fiber_outer_r g ix iy).2.sub
                  (chord_ends E D.geom.fiber_outer_r g ix iy).1).mag E))).scale E.cm
    ∧ (((chord_ends E D.geom.fiber_outer_r g ix iy).2.sub
          (chord_ends E D.geom.fiber_outer_r g ix iy).1).scale
          (D.geom.fiber_outer_r / 2
            / ((chord_ends E D.geom.fiber_outer_r g ix iy).2.sub
              (chord_ends E D.geom.fiber_outer_r g ix iy).1).mag E)).mag E
        = D.geom.fiber_outer_r / 2
    ∧ (exact_length_physi E D g LV_tower ix iy).transform
        = fiber_place E (fiber_chord E D.geom.fiber_outer_r g ix iy).2
            (fiber_chord E D.geom.fiber_outer_r g ix iy).1
    ∧ ((ix + iy) % 2 = 0 → ∀ st : ScanState α,
        (scan_cell E D g ix iy st).fiber_par
          = map_insert (g.compose_fiber_id (ix : Int) (iy : Int))
              (fiber_chord E D.geom.fiber_outer_r g ix iy) st.fiber_par) := by
  have hm : 0 < ((chord_ends E D.geom.fiber_outer_r g ix iy).2.sub
      (chord_ends E D.geom.fiber_outer_r g ix iy).1).mag E := lt_of_le_of_lt hr0 hr
  have hk : 0 < (((chord_ends E D.geom.fiber_outer_r g ix iy).2.sub
        (chord_ends E D.geom.fiber_outer_r g ix iy).1).mag E - D.geom.fiber_outer_r)
      / ((chord_ends E D.geom.fiber_outer_r g ix iy).2.sub
        (chord_ends E D.geom.fiber_outer_r g ix iy).1).mag E * E.cm :=
    mul_pos (div_pos (by linarith) hm) hcm
  have hv := fiber_chord_vector E D.geom.fiber_outer_r g ix iy
  refine ⟨hv, hk, ?_, rfl, ?_, ?_, ?_, rfl, ?_⟩
  · rw [hv, mag_scale E hE, abs_of_pos hk]
    field_simp
  · rw [hv]
    exact shrunk_front _ _ _ _ _ (ne_of_gt hm)
  · rw [hv]
    exact shrunk_back _ _ _ _ _ (ne_of_gt hm)
  · rw [mag_scale E hE, abs_of_nonneg (div_nonneg (by linarith) (le_of_lt hm))]
    field_simp
    ring
  · intro hpar st
    have hne : ¬ (ix + iy) % 2 = 1 := by omega
    simp [scan_cell, hne]

theorem straight_chord_ends_00 :
    chord_ends realEnv (1 / 10) straightTower 0 0
      = (G4Vector3D.mk (-1) (-1) (-(13 / 2)), G4Vector3D.mk (-1) (-1) (13 / 2)) := by
  simp [chord_ends, v_zshift, straightTower, realEnv, G4Vector3D.sub, G4Vector3D.add,
    G4Vector3D.scale]
  norm_num

theorem straight_chord_ends_mag_00 :
    ((chord_ends realEnv sampleDetector.geom.fiber_outer_r straightTower 0 0).2.sub
        (chord_ends realEnv sampleDetector.geom.fiber_outer_r straightTower 0 0).1).mag realEnv
      = 13 := by
  have h : sampleDetector.geom.fiber_outer_r = 1 / 10 := rfl
  rw [h, straight_chord_ends_00]
  have h13 : (G4Vector3D.mk (-1 : ℝ) (-1) (13 / 2)).sub (G4Vector3D.mk (-1) (-1) (-(13 / 2)))
      = G4Vector3D.mk 0 0 13 := by
    simp [G4Vector3D.sub]
  rw [h13, real_mag_z]
  norm_num

/-- C23 at the cell `(0, 0)` of the straight tower: a chord of 13 cm and a
fiber of `(13 - 0.1) * cm`. -/
theorem fiber_vector_is_shrunk_chord_witness :
    (fiber_chord realEnv sampleDetector.geom.fiber_outer_r straightTower 0 0).1.mag realEnv
      = (((chord_ends realEnv sampleDetector.geom.fiber_outer_r straightTower 0 0).2.sub
          (chord_ends realEnv sampleDetector.geom.fiber_outer_r straightTower 0 0).1).mag realEnv
          - sampleDetector.geom.fiber_outer_r) * realEnv.cm :=
  (fiber_vector_is_shrunk_chord realEnv real_sqrt_laws (by simp [realEnv]) sampleDetector
    straightTower "CEMC_Tower_7" 0 0 (by norm_num [sampleDetector, sampleGeom])
    (by rw [straight_chord_ends_mag_00]; norm_num [sampleDetector, sampleGeom])).2.2.1

/-! ### The 4 x 4 lattice (C22) -/

section Lattice

variable {α : Type} [LinearOrderedField α]

/-- The centre of every chord is at `z = 0`: the shifts `-v_zshift` of `v1`
and `+v_zshift` of `v2` cancel in `(v2 + v1) / 2`. -/
theorem chord_center_z (E : MathEnv α) (r : α) (g : geom_tower α) (ix iy : Nat) :
    (fiber_chord E r g ix iy).2.z = 0 := by
  simp [fiber_chord, chord_ends, v_zshift, G4Vector3D.add, G4Vector3D.sub, G4Vector3D.scale,
    G4Vector3D.sdiv]

theorem chord_center_y_flip (E : MathEnv α) (r : α) (g : geom_tower α) (hy : g.NFiberY = 4)
    (ix jx iy : Nat) (hiy : iy ≤ 3) :
    (fiber_chord E r g jx (3 - iy)).2.y = -(fiber_chord E r g ix iy).2.y := by
  simp only [fiber_chord, chord_ends, v_zshift, G4Vector3D.add, G4Vector3D.sub,
    G4Vector3D.scale, G4Vector3D.sdiv, hy]
  push_cast [Nat.cast_sub hiy]
  ring

theorem chord_center_x_flip (E : MathEnv α) (r : α) (g : geom_tower α) (hx : g.NFiberX = 4)
    (hy : g.NFiberY = 4) (h12 : g.pDx1 = g.pDx2) (h34 : g.pDx3 = g.pDx4)
    (ix iy : Nat) (hix : ix ≤ 3) (hiy : iy ≤ 3) :
    (fiber_chord E r g (3 - ix) (3 - iy)).2.x = -(fiber_chord E r g ix iy).2.x := by
  simp only [fiber_chord, chord_ends, v_zshift, G4Vector3D.add, G4Vector3D.sub,
    G4Vector3D.scale, G4Vector3D.sdiv, hx, hy, h12, h34]
  push_cast [Nat.cast_sub hix, Nat.cast_sub hiy]
  ring

theorem four_weights (n : Int) (hn : n = 4) :
    (List.range 4).map (fun i : Nat => (i : α) / ((n : α) - 1) * 2 - 1)
      = [-1, -(1 / 3), 1 / 3, 1] := by
  have h : List.range 4 = [0, 1, 2, 3] := by decide
  rw [h, hn]
  simp only [List.map, List.cons.injEq, and_true]
  push_cast
  refine ⟨?_, ?_, ?_, ?_⟩ <;> norm_num

end Lattice

/-- C22 (amended): for every tower with `NFiberX = NFiberY = 4` the weights
`2 * i / 3 - 1` of the grid are `-1, -1/3, 1/3, 1`.  In `Construct_Fibers`
every placed fiber centre has `z = 0`, the centres of the cells `(ix, iy)` and
`(3 - ix, 3 - iy)` have opposite `y`, and they have opposite `x` when `pDx1 =
pDx2` and `pDx3 = pDx4`.  In `Construct_Fibers_SameLengthFiberPerTower` the
centre of the placed fiber is moved along the fiber, to
`z = (fiber_length / optimal_fiber_length - 1) * 0.5 * vector.z`. -/
theorem four_by_four_lattice {α : Type} [LinearOrderedField α] (E : MathEnv α)
    (D : Detector α) (g : geom_tower α) (LV_tower : String)
    (hx : g.NFiberX = 4) (hy : g.NFiberY = 4) :
    (List.range 4).map (fun i : Nat => (i : α) / ((g.NFiberX : α) - 1) * 2 - 1)
        = [-1, -(1 / 3), 1 / 3, 1]
    ∧ (List.range 4).map (fun i : Nat => (i : α) / ((g.NFiberY : α) - 1) * 2 - 1)
        = [-1, -(1 / 3), 1 / 3, 1]
    ∧ (∀ ix iy : Nat,
        (exact_length_physi E D g LV_tower ix iy).transform
            = fiber_place E (fiber_chord E D.geom.fiber_outer_r g ix iy).2
                (fiber_chord E D.geom.fiber_outer_r g ix iy).1
        ∧ (fiber_chord E D.geom.fiber_outer_r g ix iy).2.z = 0)
    ∧ (∀ ix iy : Nat, ix ≤ 3 → iy ≤ 3 →
        (fiber_chord E D.geom.fiber_outer_r g (3 - ix) (3 - iy)).2.y
          = -(fiber_chord E D.geom.fiber_outer_r g ix iy).2.y)
    ∧ (g.pDx1 = g.pDx2 → g.pDx3 = g.pDx4 → ∀ ix iy : Nat, ix ≤ 3 → iy ≤ 3 →
        (fiber_chord E D.geom.fiber_outer_r g (3 - ix) (3 - iy)).2.x
          = -(fiber_chord E D.geom.fiber_outer_r g ix iy).2.x)
    ∧ (∀ (fiber_length : α) (fiber_ID : Int) (ix iy : Nat),
        (same_length_physi E D g LV_tower fiber_length
            (fiber_ID, fiber_chord E D.geom.fiber_outer_r g ix iy)).transform
          = fiber_place E
              (recentred E fiber_length (fiber_chord E D.geom.fiber_outer_r g ix iy).1
                (fiber_chord E D.geom.fiber_outer_r g ix iy).2)
              (rescaled E fiber_length (fiber_chord E D.geom.fiber_outer_r g ix iy).1)
        ∧ (recentred E fiber_length (fiber_chord E D.geom.fiber_outer_r g ix iy).1
              (fiber_chord E D.geom.fiber_outer_r g ix iy).2).z
            = (fiber_length / (fiber_chord E D.geom.fiber_outer_r g ix iy).1.mag E - 1)
                * (1 / 2) * (fiber_chord E D.geom.fiber_outer_r g ix iy).1.z) := by
  refine ⟨four_weights g.NFiberX hx, four_weights g.NFiberY hy,
    fun ix iy => ⟨rfl, chord_center_z E _ g ix iy⟩,
    fun ix iy _ hiy => chord_center_y_flip E _ g hy ix (3 - ix) iy hiy,
    fun h12 h34 ix iy hix hiy => chord_center_x_flip E _ g hx hy h12 h34 ix iy hix hiy,
    fun fiber_length fiber_ID ix iy => ⟨rfl, ?_⟩⟩
  have hz := chord_center_z E D.geom.fiber_outer_r g ix iy
  simp only [recentred, G4Vector3D.add, G4Vector3D.scale, hz]
  ring

theorem skew_center_00 :
    (fiber_chord realEnv (1 / 10) skewTower 0 0).2 = G4Vector3D.mk (-10) (-10) 0 := by
  simp [fiber_chord, chord_ends, v_zshift, skewTower, straightTower, realEnv,
    G4Vector3D.sub, G4Vector3D.add, G4Vector3D.scale, G4Vector3D.sdiv]
  norm_num

theorem skew_center_33 :
    (fiber_chord realEnv (1 / 10) skewTower 3 3).2 = G4Vector3D.mk 15 10 0 := by
  simp [fiber_chord, chord_ends, v_zshift, skewTower, straightTower, realEnv,
    G4Vector3D.sub, G4Vector3D.add, G4Vector3D.scale, G4Vector3D.sdiv]
  norm_num

/-- C22 as stated fails: in the 4 x 4 tower with `pTheta = 0`, `pDx1 = 1.1`
and `pDx2 = 2.1`, `Construct_Fibers` places the fiber of the cell `(0, 0)` at
`(-10, -10, 0)` and the fiber of the cell `(3, 3)` at `(15, 10, 0)`. -/
theorem skew_tower_counterexample :
    skewTower.NFiberX = 4 ∧ skewTower.NFiberY = 4 ∧ skewTower.pTheta = 0
    ∧ (exact_length_physi realEnv sampleDetector skewTower "CEMC_Tower_7" 0 0).transform.head?
        = some (G4Elementary.Translate3D (-10) (-10) 0)
    ∧ (exact_length_physi realEnv sampleDetector skewTower "CEMC_Tower_7" 3 3).transform.head?
        = some (G4Elementary.Translate3D 15 10 0) := by
  have h : sampleDetector.geom.fiber_outer_r = 1 / 10 := rfl
  refine ⟨rfl, rfl, rfl, ?_, ?_⟩
  · simp only [exact_length_physi, fiber_place, h, skew_center_00, List.head?]
  · simp only [exact_length_physi, fiber_place, h, skew_center_33, List.head?]

/-- C22 (amended) at the cell `(0, 0)` of the 4 x 4 tower. -/
theorem four_by_four_lattice_witness :
    (fiber_chord realEnv sampleDetector.geom.fiber_outer_r skewTower (3 - 0) (3 - 0)).2.y
      = -(fiber_chord realEnv sampleDetector.geom.fiber_outer_r skewTower 0 0).2.y :=
  (four_by_four_lattice realEnv sampleDetector skewTower "CEMC_Tower_7" rfl rfl).2.2.2.1 0 0
    (by norm_num) (by norm_num)

/-! ### The symmetric wedge (C30) and the division (C26) -/

section ZeroTilt

theorem real_atan2_zero (x : ℝ) (hx : 0 < x) : realEnv.atan2 0 x = 0 := by
  show Complex.arg (Complex.mk x 0) = 0
  have h : Complex.mk x 0 = (x : ℂ) := rfl
  rw [h]
  exact Complex.arg_ofReal_of_nonneg (le_of_lt hx)

theorem real_atan2_neg (y x : ℝ) (hx : 0 < x) : realEnv.atan2 (-y) x = -realEnv.atan2 y x := by
  show Complex.arg (Complex.mk x (-y)) = -Complex.arg (Complex.mk x y)
  have h : Complex.mk x (-y) = (starRingEnd ℂ) (Complex.mk x y) := rfl
  rw [h, Complex.arg_conj]
  have hlt := real_atan2_abs_lt y x hx
  have hne : Complex.arg (Complex.mk x y) ≠ Real.pi := by
    intro heq
    have : |Complex.arg (Complex.mk x y)| < Real.pi / 2 := hlt
    rw [heq, abs_of_pos Real.pi_pos] at this
    linarith [Real.pi_pos]
  rw [if_neg hne]

/-- With zero tilt the two width adjustments are opposite. -/
theorem zero_tilt_width_adj (g : SpacalGeom ℝ) (ht : g.azimuthal_tilt = 0) :
    (sector_dims realEnv g).width_adj1 = -(sector_dims realEnv g).width_adj2
    ∧ (sector_dims realEnv g).width_adj2
        = Real.tan (Real.pi / (g.azimuthal_n_sec : ℝ))
          * (sector_dims realEnv g).enclosure_depth * (1 / 2) := by
  have h1 : Real.tan (0 - Real.pi / (g.azimuthal_n_sec : ℝ))
      = - Real.tan (Real.pi / (g.azimuthal_n_sec : ℝ)) := by
    rw [zero_sub, Real.tan_neg]
  constructor
  · simp only [sector_dims, realEnv, ht, h1, zero_add]
    ring
  · simp only [sector_dims, realEnv, ht, zero_add]

end ZeroTilt

/-- C30: with zero tilt the envelope is the symmetric wedge of half-angle
`π / n`.  Over the reals, for every configuration with `azimuthal_tilt = 0`,
`azimuthal_n_sec = n > 4` and `enclosure_depth > 0`, the sector dimensions of
`Construct_AzimuthalSeg` have `center_adj = 0`, `center_tilt_angle = 0`,
`edge1_tilt_angle = -edge2_tilt_angle`, `edge1_half_depth = edge2_half_depth`,
`inner_half_width = radius * cm * tan(π / n)` and `outter_half_width =
reduced_outer_radius * tan(π / n)`, with `tan(π / n) > 0`. -/
theorem zero_tilt_symmetric_wedge (g : SpacalGeom ℝ) (ht : g.azimuthal_tilt = 0)
    (hn : 4 < g.azimuthal_n_sec) (hd : 0 < (sector_dims realEnv g).enclosure_depth) :
    (sector_dims realEnv g).center_adj = 0
    ∧ (sector_dims realEnv g).center_tilt_angle = 0
    ∧ (sector_dims realEnv g).edge1_tilt_angle = -(sector_dims realEnv g).edge2_tilt_angle
    ∧ (sector_dims realEnv g).edge1_half_depth = (sector_dims realEnv g).edge2_half_depth
    ∧ (sector_dims realEnv g).inner_half_width
        = g.radius * realEnv.cm * Real.tan (Real.pi / (g.azimuthal_n_sec : ℝ))
    ∧ (sector_dims realEnv g).outter_half_width
        = (sector_dims realEnv g).reduced_outer_radius
          * Real.tan (Real.pi / (g.azimuthal_n_sec : ℝ))
    ∧ 0 < Real.tan (Real.pi / (g.azimuthal_n_sec : ℝ)) := by
  obtain ⟨hw, _⟩ := zero_tilt_width_adj g ht
  obtain ⟨hin, hout⟩ := zero_tilt_half_widths g ht
  have hhalf : 0 < (sector_dims realEnv g).enclosure_depth * (1 / 2) := by linarith
  have hca : (sector_dims realEnv g).center_adj = 0 := by
    have h : (sector_dims realEnv g).center_adj
        = ((sector_dims realEnv g).width_adj1 + (sector_dims realEnv g).width_adj2)
          * (1 / 2) := rfl
    rw [h, hw]
    ring
  have hcta : (sector_dims realEnv g).center_tilt_angle = 0 := by
    have h : (sector_dims realEnv g).center_tilt_angle
        = realEnv.atan2 (sector_dims realEnv g).center_adj
            ((sector_dims realEnv g).enclosure_depth * (1 / 2)) := rfl
    rw [h, hca]
    exact real_atan2_zero _ hhalf
  have he : (sector_dims realEnv g).edge1_tilt_angle
      = -(sector_dims realEnv g).edge2_tilt_angle := by
    have h1 : (sector_dims realEnv g).edge1_tilt_angle
        = realEnv.atan2 (sector_dims realEnv g).width_adj1
            ((sector_dims realEnv g).enclosure_depth * (1 / 2)) := rfl
    have h2 : (sector_dims realEnv g).edge2_tilt_angle
        = realEnv.atan2 (sector_dims realEnv g).width_adj2
            ((sector_dims realEnv g).enclosure_depth * (1 / 2)) := rfl
    rw [h1, h2, hw]
    exact real_atan2_neg _ _ hhalf
  have hdep : (sector_dims realEnv g).edge1_half_depth
      = (sector_dims realEnv g).edge2_half_depth := by
    have h1 : (sector_dims realEnv g).edge1_half_depth
        = realEnv.sqrt ((sector_dims realEnv g).width_adj1 * (sector_dims realEnv g).width_adj1
            + (sector_dims realEnv g).enclosure_depth * (sector_dims realEnv g).enclosure_depth
              * (1 / 4)) := rfl
    have h2 : (sector_dims realEnv g).edge2_half_depth
        = realEnv.sqrt ((sector_dims realEnv g).width_adj2 * (sector_dims realEnv g).width_adj2
            + (sector_dims realEnv g).enclosure_depth * (sector_dims realEnv g).enclosure_depth
              * (1 / 4)) := rfl
    rw [h1, h2, hw, neg_mul_neg]
  exact ⟨hca, hcta, he, hdep, hin, hout, real_tan_sector_pos _ hn⟩

/-- C30 at the sample configuration. -/
theorem zero_tilt_symmetric_wedge_witness :
    (sector_dims realEnv sampleGeom).center_adj = 0
    ∧ (sector_dims realEnv sampleGeom).center_tilt_angle = 0
    ∧ (sector_dims realEnv sampleGeom).edge1_tilt_angle
        = -(sector_dims realEnv sampleGeom).edge2_tilt_angle :=
  have h := zero_tilt_symmetric_wedge sampleGeom rfl (by norm_num [sampleGeom])
    sample_enclosure_depth_pos
  ⟨h.1, h.2.1, h.2.2.1⟩

/-- C26: the division of line 152 is defined.  Over the reals, for every
configuration with `max_phi_bin_in_sec = N ≥ 1` and `enclosure_depth > 0`,
each wedge angle `edge1_tilt_angle + (s + 1/2) * (edge2_tilt_angle -
edge1_tilt_angle) / N`, `0 ≤ s < N`, is the angle of the loop of lines
147-151, lies strictly between `-π/2` and `π/2` and has `1 / cos ≥ 1`, so that
`block_width_ratio ≥ N > 0`. -/
theorem division_is_defined (g : SpacalGeom ℝ) (hN : 1 ≤ g.max_phi_bin_in_sec)
    (hd : 0 < (sector_dims realEnv g).enclosure_depth) :
    (∀ s : Nat, s < g.max_phi_bin_in_sec.toNat →
        (sector_dims realEnv g).edge1_tilt_angle + ((s : ℝ) + 1 / 2)
            * ((sector_dims realEnv g).edge2_tilt_angle
              - (sector_dims realEnv g).edge1_tilt_angle) / (g.max_phi_bin_in_sec : ℝ)
          = (sector_dims realEnv g).block_azimuth_angle * (1 / 2 + (s : ℝ))
            + (sector_dims realEnv g).edge1_tilt_angle
        ∧ -(Real.pi / 2) < (sector_dims realEnv g).block_azimuth_angle * (1 / 2 + (s : ℝ))
            + (sector_dims realEnv g).edge1_tilt_angle
        ∧ (sector_dims realEnv g).block_azimuth_angle * (1 / 2 + (s : ℝ))
            + (sector_dims realEnv g).edge1_tilt_angle < Real.pi / 2
        ∧ 1 ≤ 1 / realEnv.cos ((sector_dims realEnv g).block_azimuth_angle * (1 / 2 + (s : ℝ))
            + (sector_dims realEnv g).edge1_tilt_angle))
    ∧ (g.max_phi_bin_in_sec : ℝ) ≤ (sector_dims realEnv g).block_width_ratio
    ∧ 0 < (sector_dims realEnv g).block_width_ratio
    ∧ (sector_dims realEnv g).block_half_height_width
        = ((sector_dims realEnv g).block_edge1_half_width
            + (sector_dims realEnv g).block_edge2_half_width)
          / (sector_dims realEnv g).block_width_ratio := by
  have hterm : ∀ s : Nat, s < g.max_phi_bin_in_sec.toNat →
      1 ≤ 1 / realEnv.cos ((sector_dims realEnv g).block_azimuth_angle * (1 / 2 + (s : ℝ))
        + (sector_dims realEnv g).edge1_tilt_angle) := by
    intro s hs
    have hlt := real_wedge_angle_abs_lt g hd s hs
    rw [abs_lt] at hlt
    have hc : 0 < Real.cos ((sector_dims realEnv g).block_azimuth_angle * (1 / 2 + (s : ℝ))
        + (sector_dims realEnv g).edge1_tilt_angle) :=
      Real.cos_pos_of_mem_Ioo ⟨hlt.1, hlt.2⟩
    show 1 ≤ 1 / Real.cos _
    rw [le_div_iff₀ hc, one_mul]
    exact Real.cos_le_one _
  refine ⟨fun s hs => ?_, ?_, real_block_width_ratio_pos g hd hN, rfl⟩
  · have hlt := real_wedge_angle_abs_lt g hd s hs
    rw [abs_lt] at hlt
    refine ⟨?_, hlt.1, hlt.2, hterm s hs⟩
    have hb : (sector_dims realEnv g).block_azimuth_angle
        = ((sector_dims realEnv g).edge2_tilt_angle - (sector_dims realEnv g).edge1_tilt_angle)
          / (g.max_phi_bin_in_sec : ℝ) := rfl
    rw [hb]
    ring
  · rw [block_width_ratio_eq_sum]
    have hcast : (g.max_phi_bin_in_sec : ℝ) = ((g.max_phi_bin_in_sec.toNat : ℕ) : ℝ) := by
      have h0 : 0 ≤ g.max_phi_bin_in_sec := by linarith
      have := Int.toNat_of_nonneg h0
      exact_mod_cast this.symm
    rw [hcast]
    calc ((g.max_phi_bin_in_sec.toNat : ℕ) : ℝ)
        = ∑ _s in Finset.range g.max_phi_bin_in_sec.toNat, (1 : ℝ) := by simp
      _ ≤ _ := Finset.sum_le_sum (fun s hs => hterm s (Finset.mem_range.mp hs))

/-- C26 at the sample configuration, with eight phi bins. -/
theorem division_is_defined_witness :
    ((sampleGeom.max_phi_bin_in_sec : Int) : ℝ) ≤ (sector_dims realEnv sampleGeom).block_width_ratio
    ∧ 0 < (sector_dims realEnv sampleGeom).block_width_ratio :=
  have h := division_is_defined sampleGeom (by norm_num [sampleGeom]) sample_enclosure_depth_pos
  ⟨h.2.1, h.2.2.1⟩

/-! ### The outer face and the outer radius (C24) -/

section OuterFace

end OuterFace

section ThinTilted

end ThinTilted

/-- C29: the side walls fit between the end walls.  With `sidewall_thickness
= s > 0`, `assembly_spacing = g ≥ 0` and `length = L`, `L/2 > 2 * (s + 2g)`,
the side walls 2000 and 2001 span `[s + 2g, L/2 - (s + 2g)] * cm` along z, the
end wall 1000 spans `[g, s + g] * cm` and the end wall 1001
`[L/2 - s - g, L/2 - g] * cm`; the side walls begin `g * cm` after the end of
the wall 1000 and end `g * cm` before the wall 1001 begins.  The walls 2100,
2101, 1100 and 1101 span the mirror images of these intervals. -/
theorem side_walls_between_end_walls {α : Type} [LinearOrderedField α] (E : MathEnv α)
    (hcm : 0 < E.cm) (D : Detector α) (d : SectorDims α)
    (hs : 0 < D.geom.sidewall_thickness) (hg : 0 ≤ D.geom.assembly_spacing)
    (hL : 2 * (D.geom.sidewall_thickness + 2 * D.geom.assembly_spacing) < D.geom.length / 2) :
    signs.map (fun val => (val.1, axial_interval (side_wall_physi E D d val)))
        = [(2000, ((D.geom.sidewall_thickness + 2 * D.geom.assembly_spacing) * E.cm,
              (D.geom.length / 2
                - (D.geom.sidewall_thickness + 2 * D.geom.assembly_spacing)) * E.cm)),
           (2001, ((D.geom.sidewall_thickness + 2 * D.geom.assembly_spacing) * E.cm,
              (D.geom.length / 2
                - (D.geom.sidewall_thickness + 2 * D.geom.assembly_spacing)) * E.cm)),
           (2100, (-((D.geom.length / 2
                - (D.geom.sidewall_thickness + 2 * D.geom.assembly_spacing)) * E.cm),
              -((D.geom.sidewall_thickness + 2 * D.geom.assembly_spacing) * E.cm))),
           (2101, (-((D.geom.length / 2
                - (D.geom.sidewall_thickness + 2 * D.geom.assembly_spacing)) * E.cm),
              -((D.geom.sidewall_thickness + 2 * D.geom.assembly_spacing) * E.cm)))]
    ∧ (z_locations E D).map (fun val => (val.1, axial_interval (end_wall_physi E D d val)))
        = [(1000, (D.geom.assembly_spacing * E.cm,
              (D.geom.sidewall_thickness + D.geom.assembly_spacing) * E.cm)),
           (1001, ((D.geom.length / 2 - D.geom.sidewall_thickness
                - D.geom.assembly_spacing) * E.cm,
              (D.geom.length / 2 - D.geom.assembly_spacing) * E.cm)),
           (1100, (-((D.geom.sidewall_thickness + D.geom.assembly_spacing) * E.cm),
              -(D.geom.assembly_spacing * E.cm))),
           (1101, (-((D.geom.length / 2 - D.geom.assembly_spacing) * E.cm),
              -((D.geom.length / 2 - D.geom.sidewall_thickness
                - D.geom.assembly_spacing) * E.cm)))]
    ∧ D.geom.assembly_spacing * E.cm
        < (D.geom.sidewall_thickness + D.geom.assembly_spacing) * E.cm
    ∧ (D.geom.sidewall_thickness + 2 * D.geom.assembly_spacing) * E.cm
        - (D.geom.sidewall_thickness + D.geom.assembly_spacing) * E.cm
        = D.geom.assembly_spacing * E.cm
    ∧ (D.geom.sidewall_thickness + 2 * D.geom.assembly_spacing) * E.cm
        < (D.geom.length / 2
            - (D.geom.sidewall_thickness + 2 * D.geom.assembly_spacing)) * E.cm
    ∧ (D.geom.length / 2 - D.geom.sidewall_thickness - D.geom.assembly_spacing) * E.cm
        - (D.geom.length / 2
            - (D.geom.sidewall_thickness + 2 * D.geom.assembly_spacing)) * E.cm
        = D.geom.assembly_spacing * E.cm
    ∧ 0 ≤ D.geom.assembly_spacing * E.cm := by
  refine ⟨?_, ?_, ?_, by ring, ?_, by ring, mul_nonneg hg (le_of_lt hcm)⟩
  · simp only [signs, side_wall_physi, axial_interval, axial_shift, axial_half_length,
      List.map, List.cons.injEq, Prod.mk.injEq, and_true, true_and]
    push_cast
    refine ⟨⟨?_, ?_⟩, ⟨?_, ?_⟩, ⟨?_, ?_⟩, ⟨?_, ?_⟩⟩ <;> ring
  · simp only [z_locations, end_wall_physi, end_wall_logic, axial_interval, axial_shift,
      axial_half_length, List.map, List.cons.injEq, Prod.mk.injEq, and_true, true_and]
    refine ⟨⟨?_, ?_⟩, ⟨?_, ?_⟩, ⟨?_, ?_⟩, ⟨?_, ?_⟩⟩ <;> ring
  · exact mul_lt_mul_of_pos_right (by linarith) hcm
  · exact mul_lt_mul_of_pos_right (by linarith) hcm

/-- C29 at the sample detector: the side wall 2000 and the end wall 1000. -/
theorem side_walls_between_end_walls_witness :
    (sampleDetector.geom.sidewall_thickness + 2 * sampleDetector.geom.assembly_spacing)
          * realEnv.cm
        - (sampleDetector.geom.sidewall_thickness + sampleDetector.geom.assembly_spacing)
          * realEnv.cm
      = sampleDetector.geom.assembly_spacing * realEnv.cm
    ∧ (sampleDetector.geom.sidewall_thickness + 2 * sampleDetector.geom.assembly_spacing)
          * realEnv.cm
        < (sampleDetector.geom.length / 2
            - (sampleDetector.geom.sidewall_thickness
              + 2 * sampleDetector.geom.assembly_spacing)) * realEnv.cm :=
  have h := side_walls_between_end_walls realEnv (by simp [realEnv]) sampleDetector
    (sector_dims realEnv sampleDetector.geom) (by norm_num [sampleDetector, sampleGeom])
    (by norm_num [sampleDetector, sampleGeom]) (by norm_num [sampleDetector, sampleGeom])
  ⟨h.2.2.2.1, h.2.2.2.2.1⟩

/-! ### The two layouts side by side (C27) -/

section Layouts

variable {α : Type} [LinearOrderedField α]

end Layouts

section TwoByTwo

end TwoByTwo

/-- C20 at the two-tower detector without the absorber material: the run
stops and registers no tower and no fiber. -/
theorem missing_material_is_fatal_witness :
    (Construct_AzimuthalSeg realEnv noAbsorberDetector (emptyRegistries ℝ)).completes = false
    ∧ (Construct_AzimuthalSeg realEnv noAbsorberDetector (emptyRegistries ℝ)).state.block_vol
        = (emptyRegistries ℝ).block_vol
    ∧ (Construct_AzimuthalSeg realEnv noAbsorberDetector (emptyRegistries ℝ)).state.fiber_vol
        = (emptyRegistries ℝ).fiber_vol :=
  ((missing_material_is_fatal realEnv noAbsorberDetector (emptyRegistries ℝ)).2.2
    (by simp [noAbsorberDetector, detectorOn, towerGeom, sampleGeom])).2
    (by simp [noAbsorberDetector, detectorOn, towerGeom])

end Spacal
